import Mathlib

/-!
Verification of the CB-Orange import reconciliation engine.

This file gives a shallow embedding of the import service
(src/api/import_service.py) together with the parts of the data model
(src/database/models.py) and the input schemas (src/api/import_schemas.py)
that the engine reads, and proves properties of the embedded code.

Modelling conventions:
* Python strings are Lean Strings; the string operations used by the code
  (lower, upper, substring containment via the in-operator, SQL ILIKE with
  a %x% pattern) are re-implemented structurally over the character list so
  that the kernel can evaluate them.
* Python truthiness tests on optional values are made explicit: None, the
  empty string, the empty list and the integer 0 are falsy.
* The SQLAlchemy session is a DB value holding the live tables as lists in
  insertion order; query(...).first() is List.find?, mutation of a fetched
  row is replacement of the first row satisfying the same filter, and
  db.add is appending.  Fresh primary keys come from a counter (the real
  code uses random UUIDs; only distinctness matters).
* Wall-clock columns (created_at, updated_at, source_date) and the
  time.sleep backoff delays are not represented; no claim mentions them.
* The pydantic schema classes in src/api/import_schemas.py lack several
  fields that src/api/import_service.py dereferences unconditionally
  (e.g. ProspectDiscoveryData.tier, institution.location, the whole
  flat-contacts variant).  Those record fields are modelled from the spec:
  every field except array containers and the identity name is optional
  (spec section 6).  Fields that the code guards behind hasattr and that
  the schema file omits are modelled as absent, following the schema file.
-/

/-- Python s.lower() (ASCII case folding, as used by the import code). -/
def pyLower (s : String) : String := ⟨s.data.map Char.toLower⟩

/-- Python s.upper(). -/
def pyUpper (s : String) : String := ⟨s.data.map Char.toUpper⟩

/-- Starts-with test on character lists. -/
def startsWithL : List Char → List Char → Bool
  | [], _ => true
  | _ :: _, [] => false
  | a :: as, b :: bs => a == b && startsWithL as bs

/-- Contiguous-sublist test on character lists. -/
def infixL (n : List Char) : List Char → Bool
  | [] => n.isEmpty
  | h :: t => startsWithL n (h :: t) || infixL n t

/-- Python needle in hay (substring containment). -/
def pyContains (hay needle : String) : Bool := infixL needle.data hay.data

/-- Truthiness of an optional string: None and the empty string are falsy. -/
def truthyS : Option String → Bool
  | none => false
  | some s => s != ""

/-- Truthiness of an optional integer: None and 0 are falsy. -/
def truthyI : Option Int → Bool
  | none => false
  | some n => n != 0

/-- Truthiness of an optional list: None and the empty list are falsy. -/
def truthyL {α : Type} : Option (List α) → Bool
  | none => false
  | some l => !l.isEmpty

/-- Python a or b on optional strings (the first operand wins when truthy). -/
def pyOrS (a b : Option String) : Option String := if truthyS a then a else b

/-- The STATES enumeration of src/database/models.py. -/
def STATES : List String := ["OH", "IN", "PA", "KY", "IL", "OTHER"]

/-- The TIERS enumeration of src/database/models.py. -/
def TIERS : List String := ["A1", "A2", "B", "C", "D"]

/-- The VENUE_TYPES enumeration of src/database/models.py. -/
def VENUE_TYPES : List String :=
  ["college_d1", "college_d2", "college_d3", "college_naia",
   "high_school_6a", "high_school_5a", "high_school_4a",
   "high_school_3a", "high_school_other"]

/-- The SCORE_DIMENSIONS enumeration of src/database/models.py. -/
def SCORE_DIMENSIONS : List String :=
  ["venue_type", "geography", "budget_signals", "current_lighting_age",
   "night_game_frequency", "broadcast_requirements", "decision_maker_access",
   "project_timeline"]

/-- map_institution_type_to_venue_type (import_service.py lines 92-117). -/
def map_institution_type_to_venue_type (inst_type : String) : String :=
  let l := pyLower inst_type
  if pyContains l "division i " || pyContains l "d1" then "college_d1"
  else if pyContains l "division ii" || pyContains l "d2" then "college_d2"
  else if pyContains l "division iii" || pyContains l "d3" then "college_d3"
  else if pyContains l "naia" then "college_naia"
  else if pyContains l "6a" || pyContains l "class 6" then "high_school_6a"
  else if pyContains l "5a" || pyContains l "class 5" then "high_school_5a"
  else if pyContains l "4a" || pyContains l "class 4" then "high_school_4a"
  else if pyContains l "3a" || pyContains l "class 3" then "high_school_3a"
  else if pyContains l "high school" then "high_school_5a"
  else if pyContains l "college" || pyContains l "university" then "college_d2"
  else "high_school_other"

/-- map_state (import_service.py lines 120-127). -/
def map_state (state : Option String) : String :=
  if !truthyS state then "OTHER"
  else
    let u := pyUpper (state.getD "")
    if STATES.contains u then u else "OTHER"

/-- map_tier (import_service.py lines 130-137). -/
def map_tier (tier : Option String) : Option String :=
  if !truthyS tier then none
  else
    let u := pyUpper (tier.getD "")
    if TIERS.contains u then some u else none

/-- map_lighting_type (import_service.py lines 140-156); every branch
returns a string, so the result is never null. -/
def map_lighting_type (lighting : Option String) : String :=
  if !truthyS lighting then "unknown"
  else
    let l := pyLower (lighting.getD "")
    if pyContains l "metal halide" then "metal_halide"
    else if pyContains l "led" then
      if pyContains l "early" || pyContains l "old" || pyContains l "2002" then
        "early_led"
      else "modern_led"
    else if pyContains l "unknown" || pyContains l "aging" then "unknown"
    else "unknown"

/-- map_broadcast_requirements (import_service.py lines 159-165). -/
def map_broadcast_requirements (broadcast_capable : Option Bool) : String :=
  match broadcast_capable with
  | some true => "local_streaming"
  | some false => "none"
  | none => "none"

/-- map_contact_role (import_service.py lines 168-188). -/
def map_contact_role (authority_level role_in_decision : Option String) : String :=
  let fromRole : String :=
    if truthyS role_in_decision then
      let r := pyLower (role_in_decision.getD "")
      if pyContains r "approval" || pyContains r "final" || pyContains r "primary" then
        "decision_maker"
      else if pyContains r "budget" || pyContains r "technical" then "influencer"
      else if pyContains r "gatekeeper" then "blocker"
      else "unknown"
    else "unknown"
  if truthyS authority_level then
    let a := pyLower (authority_level.getD "")
    if a == "high" then "decision_maker"
    else if a == "medium" then "influencer"
    else if a == "low" then "influencer"
    else fromRole
  else fromRole

/-- calculate_status_from_tier (import_service.py lines 191-205); the
Python guard if not tier also treats an empty tier string as absent. -/
def calculate_status_from_tier (tier : Option String) (has_research : Bool) : String :=
  if !truthyS tier then "needs_scoring"
  else
    let t := tier.getD ""
    if t == "A1" || t == "A2" then
      if has_research then "ready_for_outreach" else "needs_research"
    else if t == "B" then "scored"
    else if t == "C" || t == "D" then "deprioritized"
    else "scored"

/-! ## Entity store model (src/database/models.py) -/

/-- A row of the prospects table; the columns the import engine touches. -/
structure Prospect where
  id : Nat
  name : String
  venue_type : String
  state : String
  city : Option String := none
  conference : Option String := none
  enrollment : Option Int := none
  stadium_name : Option String := none
  current_lighting_type : Option String := none
  current_lighting_age_years : Option Int := none
  broadcast_requirements : Option String := none
  status : String := "identified"
  tier : Option String := none
  icp_score : Option Int := none
  constraint_hypothesis : Option String := none
  value_proposition : Option String := none
  research_notes : Option String := none
  source : Option String := none
  deleted_at : Option Nat := none
deriving Repr, DecidableEq

/-- A row of the contacts table. -/
structure Contact where
  id : Nat
  prospect_id : Nat
  name : String
  title : Option String := none
  role : Option String := none
  email : Option String := none
  phone : Option String := none
  linkedin_url : Option String := none
  is_primary : Option Bool := none
  notes : Option String := none
  deleted_at : Option Nat := none
deriving Repr, DecidableEq

/-- A row of the prospect_scores table. -/
structure ProspectScore where
  id : Nat
  prospect_id : Nat
  dimension : String
  score : Int
  weight : Int
  notes : Option String := none
  scored_by : Option String := none
deriving Repr, DecidableEq

/-- A row of the activities table. -/
structure Activity where
  id : Nat
  prospect_id : Nat
  type : String
  description : String
  agent_id : Option String := none
deriving Repr, DecidableEq

/-- The session-visible state of the entity store: each table as a list of
rows in insertion order, plus a counter producing fresh primary keys. -/
structure DB where
  prospects : List Prospect := []
  contacts : List Contact := []
  scores : List ProspectScore := []
  activities : List Activity := []
  nextId : Nat := 0
deriving Repr, DecidableEq

/-- The ImportResult schema (src/api/import_schemas.py lines 307-317). -/
structure ImportResult where
  success : Bool
  skill_type : String
  prospects_created : Nat := 0
  prospects_updated : Nat := 0
  contacts_created : Nat := 0
  contacts_updated : Nat := 0
  errors : List String := []
  warnings : List String := []
  imported_ids : List Nat := []
deriving Repr, DecidableEq

/-- Filter used by every prospect lookup: exact name match on live rows
(query(Prospect).filter(name == n, deleted_at.is_(None)).first()). -/
def prospectNameFilter (n : String) (p : Prospect) : Bool :=
  p.name == n && p.deleted_at == none

/-- Exact-name prospect lookup. -/
def findProspectByName (db : DB) (n : String) : Option Prospect :=
  db.prospects.find? (prospectNameFilter n)

/-- Filter of the fuzzy lookup: Prospect.name.ilike(f"%{n}%") on live rows,
i.e. case-insensitive substring containment of n in the stored name. -/
def prospectFuzzyFilter (n : String) (p : Prospect) : Bool :=
  pyContains (pyLower p.name) (pyLower n) && p.deleted_at == none

/-- Fuzzy prospect lookup. -/
def findProspectFuzzy (db : DB) (n : String) : Option Prospect :=
  db.prospects.find? (prospectFuzzyFilter n)

/-- Filter used by every contact-dedup lookup: same owning prospect, same
email, live row. -/
def contactEmailFilter (pid : Nat) (e : Option String) (c : Contact) : Bool :=
  c.prospect_id == pid && c.email == e && c.deleted_at == none

/-- Contact lookup by (owning prospect, email). -/
def findContactByEmail (db : DB) (pid : Nat) (e : Option String) : Option Contact :=
  db.contacts.find? (contactEmailFilter pid e)

/-- Filter of the score-existence check in _import_scores. -/
def scoreFilter (pid : Nat) (dim : String) (s : ProspectScore) : Bool :=
  s.prospect_id == pid && s.dimension == dim

/-- Score lookup by (prospect, dimension). -/
def findScore (db : DB) (pid : Nat) (dim : String) : Option ProspectScore :=
  db.scores.find? (scoreFilter pid dim)

/-- Mutating the object returned by .first() is modelled as replacing the
first row that satisfies the same filter. -/
def replaceFirstBy {α : Type} (f : α → Bool) (b : α) : List α → List α
  | [] => []
  | a :: t => if f a then b :: t else a :: replaceFirstBy f b t

/-- In-place update of the prospect found by prospectNameFilter. -/
def updateProspectByName (db : DB) (n : String) (p : Prospect) : DB :=
  { db with prospects := replaceFirstBy (prospectNameFilter n) p db.prospects }

/-- In-place update of the contact found by contactEmailFilter. -/
def updateContactByEmail (db : DB) (pid : Nat) (e : Option String) (c : Contact) : DB :=
  { db with contacts := replaceFirstBy (contactEmailFilter pid e) c db.contacts }

/-- db.add(activity): activities are append-only. -/
def addActivity (db : DB) (pid : Nat) (descr : String) : DB :=
  { db with
      activities := db.activities ++
        [{ id := db.nextId, prospect_id := pid, type := "note",
           description := descr, agent_id := some "import_service" }],
      nextId := db.nextId + 1 }

/-- An email is filtered to null when it is a placeholder sentinel
(e.g. line 343: email if email and email.lower() not in
["unknown", "not found", ""] else None). -/
def cleanEmail (e : Option String) : Option String :=
  match e with
  | none => none
  | some s =>
      if s != "" && !(["unknown", "not found", ""].contains (pyLower s)) then
        some s
      else none

/-- The same placeholder filter applied to linkedin URLs
(list written ["not found", "unknown", ""] in the source). -/
def cleanLinkedin (e : Option String) : Option String :=
  match e with
  | none => none
  | some s =>
      if s != "" && !(["not found", "unknown", ""].contains (pyLower s)) then
        some s
      else none

/-- Placeholder filter on phone values used by the contact-finder variants. -/
def cleanPhone (e : Option String) : Option String :=
  match e with
  | none => none
  | some s =>
      if s != "" && !(["unknown", "not found", ""].contains (pyLower s)) then
        some s
      else none

/-! ## Score import (_import_scores, import_service.py lines 426-464) -/

/-- One value of the score_breakdown dict: {"score": .., "weight": ..},
both optional because the code reads them with .get and a default. -/
structure ScoreBreakdownEntry where
  score : Option Int := none
  weight : Option Int := none
deriving Repr, DecidableEq

/-- The dimension-name translation table of _import_scores: skill dimension
to (canonical dimension, default weight). -/
def dimension_map : List (String × String × Int) :=
  [("facility_condition", ("current_lighting_age", 3)),
   ("institution_size", ("venue_type", 2)),
   ("budget_signals", ("budget_signals", 3)),
   ("decision_maker_access", ("decision_maker_access", 2)),
   ("timing_triggers", ("project_timeline", 3)),
   ("geographic_fit", ("geography", 2)),
   ("competitive_pressure", ("night_game_frequency", 2)),
   ("purchase_readiness", ("broadcast_requirements", 2))]

/-- Body of the _import_scores loop for one dimension_map entry. -/
def importScoreDim (pid : Nat) (breakdown : List (String × ScoreBreakdownEntry))
    (db : DB) (entry : String × String × Int) : DB :=
  let (skill_dim, our_dim, default_weight) := entry
  match breakdown.lookup skill_dim with
  | none => db
  | some b =>
      let score_val := b.score.getD 5
      let weight_val := b.weight.getD default_weight
      match findScore db pid our_dim with
      | some _ => db
      | none =>
          { db with
              scores := db.scores ++
                [{ id := db.nextId, prospect_id := pid, dimension := our_dim,
                   score := min 10 (max 1 score_val),
                   weight := min 5 (max 1 weight_val),
                   notes := some ("Imported from skill (" ++ skill_dim ++ ")"),
                   scored_by := some "agent:import" }],
              nextId := db.nextId + 1 }

/-- _import_scores: iterate the translation table, creating a score row only
for dimensions present in the input and with no existing
(prospect, dimension) row.  An empty breakdown dict is falsy and returns
immediately. -/
def _import_scores (db : DB) (pid : Nat)
    (breakdown : List (String × ScoreBreakdownEntry)) : DB :=
  if breakdown.isEmpty then db
  else dimension_map.foldl (importScoreDim pid breakdown) db

/-! ## Athletic-director-prospecting input schema
(src/api/import_schemas.py lines 11-123, extended where the import code
dereferences fields the schema file omits). -/

/-- Modelled from the spec: institution.location.{city,state}, read at lines
226-228 of import_service.py but absent from the schema file. -/
structure LocationData where
  city : Option String := none
  state : Option String := none
deriving Repr, DecidableEq

/-- InstitutionData (schema lines 11-20) plus the location object. -/
structure InstitutionData where
  name : String
  type : String
  city : Option String := none
  state : Option String := none
  enrollment : Option Int := none
  conference : Option String := none
  location : Option LocationData := none
deriving Repr, DecidableEq

/-- FacilityData (schema lines 23-31). -/
structure FacilityData where
  primary_venue : Option String := none
  current_lighting : Option String := none
  lighting_age_years : Option Int := none
  broadcast_capable : Option Bool := none
deriving Repr, DecidableEq

/-- ScoringData (schema lines 40-53); score_breakdown is a dict of
dimension name to {"score", "weight"}. -/
structure ScoringData where
  icp_score : Option Int := none
  tier : Option String := none
  score_breakdown : Option (List (String × ScoreBreakdownEntry)) := none
deriving Repr, DecidableEq

/-- Modelled from the spec: the scoring_breakdown object read at line 241
of import_service.py, absent from the schema file. -/
structure ScoringBreakdownData where
  total_score : Option Int := none
deriving Repr, DecidableEq

/-- FacilityHypothesis (schema lines 56-62). -/
structure FacilityHypothesis where
  statement : Option String := none
deriving Repr, DecidableEq

/-- Modelled from the spec: the facility_assessment object read at lines
254-263 and 277-278 of import_service.py, absent from the schema file. -/
structure FacilityAssessmentData where
  stadium_name : Option String := none
  current_lighting : Option String := none
  facility_hypothesis : Option String := none
  key_signals : Option (List String) := none
deriving Repr, DecidableEq

/-- DecisionMakerData (schema lines 64-72). -/
structure DecisionMakerData where
  name : Option String := none
  title : Option String := none
  email : Option String := none
  phone : Option String := none
  linkedin_url : Option String := none
  authority_level : Option String := none
  notes : Option String := none
deriving Repr, DecidableEq

/-- SecondaryContactData (schema lines 75-80).  The import code reads
linkedin_url unconditionally (line 387), so it is modelled from the spec;
authority_level and notes are read behind hasattr guards (lines 388, 393)
and stay absent as in the schema file. -/
structure SecondaryContactData where
  name : String
  title : Option String := none
  email : Option String := none
  phone : Option String := none
  linkedin_url : Option String := none
  role_in_decision : Option String := none
deriving Repr, DecidableEq

/-- SalesReadinessData (schema lines 83-87). -/
structure SalesReadinessData where
  opportunity_summary : Option String := none
  key_assumptions : Option (List String) := none
  required_validation : Option (List String) := none
deriving Repr, DecidableEq

/-- OutreachData (schema lines 90-93). -/
structure OutreachData where
  timing_triggers : Option (List String) := none
deriving Repr, DecidableEq

/-- Modelled from the spec: the decision_makers object with primary and
secondary members, read at import_service.py lines 338-339 and 368-369,
absent from the schema file. -/
structure DecisionMakersData where
  primary : Option DecisionMakerData := none
  secondary : Option (List SecondaryContactData) := none
deriving Repr, DecidableEq

/-- ProspectDiscoveryData (schema lines 103-114) plus the fields the import
code dereferences that the schema file omits (tier, score,
scoring_breakdown, facility_assessment, decision_makers,
discovery_questions), modelled from the spec as optional. -/
structure ProspectDiscoveryData where
  institution : InstitutionData
  facility : Option FacilityData := none
  scoring : Option ScoringData := none
  deal_risk_flags : Option (List String) := none
  facility_hypothesis : Option FacilityHypothesis := none
  decision_maker : Option DecisionMakerData := none
  secondary_contacts : Option (List SecondaryContactData) := none
  sales_readiness : Option SalesReadinessData := none
  outreach : Option OutreachData := none
  tier : Option String := none
  score : Option Int := none
  scoring_breakdown : Option ScoringBreakdownData := none
  facility_assessment : Option FacilityAssessmentData := none
  decision_makers : Option DecisionMakersData := none
  discovery_questions : Option (List String) := none
deriving Repr, DecidableEq

/-! ## Athletic-director importer
(import_athletic_director_prospects, import_service.py lines 208-423). -/

/-- Lines 224-228: city from either format. -/
def adCity (r : ProspectDiscoveryData) : Option String :=
  match r.institution.location with
  | some loc => pyOrS r.institution.city loc.city
  | none => r.institution.city

/-- Lines 224-228: state from either format. -/
def adStateRaw (r : ProspectDiscoveryData) : Option String :=
  match r.institution.location with
  | some loc => pyOrS r.institution.state loc.state
  | none => r.institution.state

/-- Lines 230-235: tier string from either format. -/
def adTierStr (r : ProspectDiscoveryData) : Option String :=
  match r.scoring with
  | some sc =>
      if truthyS sc.tier then sc.tier
      else if truthyS r.tier then r.tier else none
  | none => if truthyS r.tier then r.tier else none

/-- Lines 237-244: icp score from either format (a 0 score is falsy and
falls through). -/
def adIcpScore (r : ProspectDiscoveryData) : Option Int :=
  let fallback :=
    match r.scoring_breakdown with
    | some sb =>
        if truthyI sb.total_score then sb.total_score
        else if truthyI r.score then r.score else none
    | none => if truthyI r.score then r.score else none
  match r.scoring with
  | some sc => if truthyI sc.icp_score then sc.icp_score else fallback
  | none => fallback

/-- Lines 246-256: facility triple (stadium name, lighting text, lighting
age) from either format. -/
def adFacility (r : ProspectDiscoveryData) :
    Option String × Option String × Option Int :=
  match r.facility with
  | some f => (f.primary_venue, f.current_lighting, f.lighting_age_years)
  | none =>
      match r.facility_assessment with
      | some fa => (fa.stadium_name, fa.current_lighting, none)
      | none => (none, none, none)

/-- Lines 258-263: constraint hypothesis from either format. -/
def adConstraintHypothesis (r : ProspectDiscoveryData) : Option String :=
  match r.facility_hypothesis with
  | some fh =>
      if truthyS fh.statement then fh.statement
      else
        match r.facility_assessment with
        | some fa => if truthyS fa.facility_hypothesis then fa.facility_hypothesis else none
        | none => none
  | none =>
      match r.facility_assessment with
      | some fa => if truthyS fa.facility_hypothesis then fa.facility_hypothesis else none
      | none => none

/-- Lines 265-283: research notes rendered from the structured sub-fields,
one labeled bullet block per source, joined with blank lines. -/
def adResearchNotes (r : ProspectDiscoveryData) : Option String :=
  let block (label : String) (items : List String) : String :=
    label ++ ":\n- " ++ String.intercalate "\n- " items
  let parts : List String :=
    (if truthyL r.deal_risk_flags then
       [block "Risk Flags" (r.deal_risk_flags.getD [])] else [])
    ++ (match r.sales_readiness with
        | some sr =>
            (if truthyL sr.key_assumptions then
               [block "Key Assumptions" (sr.key_assumptions.getD [])] else [])
            ++ (if truthyL sr.required_validation then
               [block "Required Validation" (sr.required_validation.getD [])] else [])
        | none => [])
    ++ (match r.outreach with
        | some o =>
            if truthyL o.timing_triggers then
              [block "Timing Triggers" (o.timing_triggers.getD [])] else []
        | none => [])
    ++ (match r.facility_assessment with
        | some fa =>
            if truthyL fa.key_signals then
              [block "Key Signals" (fa.key_signals.getD [])] else []
        | none => [])
    ++ (if truthyL r.discovery_questions then
          [block "Discovery Questions" (r.discovery_questions.getD [])] else [])
  if parts.isEmpty then none else some (String.intercalate "\n\n" parts)

/-- The prospect_dict of lines 290-313.  Fields built by a total normalizer
(name, venue_type, state, current_lighting_type, broadcast_requirements,
source) are never null; the rest are optional. -/
structure ProspectDict where
  name : String
  venue_type : String
  state : String
  city : Option String
  conference : Option String
  enrollment : Option Int
  stadium_name : Option String
  current_lighting_type : String
  current_lighting_age_years : Option Int
  broadcast_requirements : String
  tier : Option String
  icp_score : Option Int
  constraint_hypothesis : Option String
  value_proposition : Option String
  research_notes : Option String
  source : String
deriving Repr, DecidableEq

/-- Build the prospect_dict from one input record (lines 290-313). -/
def adProspectDict (r : ProspectDiscoveryData) : ProspectDict :=
  let (stadium_name, current_lighting, lighting_age) := adFacility r
  { name := r.institution.name
    venue_type := map_institution_type_to_venue_type r.institution.type
    state := map_state (adStateRaw r)
    city := adCity r
    conference := r.institution.conference
    enrollment := r.institution.enrollment
    stadium_name := stadium_name
    current_lighting_type := map_lighting_type current_lighting
    current_lighting_age_years := lighting_age
    broadcast_requirements :=
      map_broadcast_requirements
        (match r.facility with
         | some f => f.broadcast_capable
         | none => none)
    tier := map_tier (adTierStr r)
    icp_score := adIcpScore r
    constraint_hypothesis := adConstraintHypothesis r
    value_proposition :=
      (match r.sales_readiness with
       | some sr => sr.opportunity_summary
       | none => none)
    research_notes := adResearchNotes r
    source := "skill_import" }

/-- Lines 315-321: update an existing prospect from the dict, overwriting
only the non-null dict values, then recompute status and keep going with
the same object. -/
def mergeProspect (e : Prospect) (d : ProspectDict)
    (tier : Option String) (has_research : Bool) : Prospect :=
  { e with
      name := d.name
      venue_type := d.venue_type
      state := d.state
      city := (d.city).or e.city
      conference := (d.conference).or e.conference
      enrollment := (d.enrollment).or e.enrollment
      stadium_name := (d.stadium_name).or e.stadium_name
      current_lighting_type := some d.current_lighting_type
      current_lighting_age_years := (d.current_lighting_age_years).or e.current_lighting_age_years
      broadcast_requirements := some d.broadcast_requirements
      tier := (d.tier).or e.tier
      icp_score := (d.icp_score).or e.icp_score
      constraint_hypothesis := (d.constraint_hypothesis).or e.constraint_hypothesis
      value_proposition := (d.value_proposition).or e.value_proposition
      research_notes := (d.research_notes).or e.research_notes
      source := some d.source
      status := calculate_status_from_tier tier has_research }

/-- Lines 324-330: create a new prospect from the dict and set its status. -/
def newProspectFromDict (id : Nat) (d : ProspectDict)
    (tier : Option String) (has_research : Bool) : Prospect :=
  { id := id
    name := d.name
    venue_type := d.venue_type
    state := d.state
    city := d.city
    conference := d.conference
    enrollment := d.enrollment
    stadium_name := d.stadium_name
    current_lighting_type := some d.current_lighting_type
    current_lighting_age_years := d.current_lighting_age_years
    broadcast_requirements := some d.broadcast_requirements
    tier := d.tier
    icp_score := d.icp_score
    constraint_hypothesis := d.constraint_hypothesis
    value_proposition := d.value_proposition
    research_notes := d.research_notes
    source := some d.source
    status := calculate_status_from_tier tier has_research
    deleted_at := none }

/-- Lines 334-339: pick the primary decision maker from either format. -/
def adPickDM (r : ProspectDiscoveryData) : Option DecisionMakerData :=
  match r.decision_maker with
  | some dm =>
      if truthyS dm.name then some dm
      else
        match r.decision_makers with
        | some dms => dms.primary
        | none => none
  | none =>
      match r.decision_makers with
      | some dms => dms.primary
      | none => none

/-- Lines 342-364: import the primary decision maker as a contact.  The
existing-contact lookup runs only when the cleaned email is non-null; when
a row is found the record is left untouched and no counter moves. -/
def adImportDM (db : DB) (res : ImportResult) (pid : Nat)
    (r : ProspectDiscoveryData) : DB × ImportResult :=
  match adPickDM r with
  | none => (db, res)
  | some dm =>
      if !truthyS dm.name then (db, res)
      else
        let email := cleanEmail dm.email
        let existing :=
          match email with
          | some _ => findContactByEmail db pid email
          | none => none
        match existing with
        | some _ => (db, res)
        | none =>
            let c : Contact :=
              { id := db.nextId
                prospect_id := pid
                name := dm.name.getD ""
                title := dm.title
                role := some (map_contact_role dm.authority_level none)
                email := email
                phone := dm.phone
                linkedin_url := cleanLinkedin dm.linkedin_url
                is_primary := some true
                notes := dm.notes }
            ({ db with contacts := db.contacts ++ [c], nextId := db.nextId + 1 },
             { res with contacts_created := res.contacts_created + 1 })

/-- Lines 366-369: the secondary-contact list, preferring
decision_makers.secondary when it is present and truthy. -/
def adSecondaries (r : ProspectDiscoveryData) : List SecondaryContactData :=
  let base := r.secondary_contacts.getD []
  match r.decision_makers with
  | some dms => if truthyL dms.secondary then dms.secondary.getD [] else base
  | none => base

/-- Lines 373-374: a secondary contact is skipped when its name is falsy or
the literal "unknown". -/
def adSecSkip (sc : SecondaryContactData) : Bool :=
  sc.name == "" || pyLower sc.name == "unknown"

/-- Lines 375-378: clean a secondary contact email; a value containing
"email pattern" is a placeholder and becomes null. -/
def adSecEmail (sc : SecondaryContactData) : Option String :=
  match cleanEmail sc.email with
  | none => none
  | some e => if pyContains (pyLower e) "email pattern" then none else some e

/-- Lines 372-401: import one secondary contact.  The schema file gives
secondary contacts no authority_level and no notes field, so the hasattr
guards at lines 388 and 393 fail: role comes from role_in_decision alone
and the notes column receives role_in_decision. -/
def adImportSecondary (pid : Nat) (s : DB × ImportResult)
    (sc : SecondaryContactData) : DB × ImportResult :=
  let (db, res) := s
  if adSecSkip sc then (db, res)
  else
    let email := adSecEmail sc
    let existing :=
      match email with
      | some _ => findContactByEmail db pid email
      | none => none
    match existing with
    | some _ => (db, res)
    | none =>
        let c : Contact :=
          { id := db.nextId
            prospect_id := pid
            name := sc.name
            title := sc.title
            role := some (map_contact_role none sc.role_in_decision)
            email := email
            phone := sc.phone
            linkedin_url := cleanLinkedin sc.linkedin_url
            is_primary := some false
            notes := sc.role_in_decision }
        ({ db with contacts := db.contacts ++ [c], nextId := db.nextId + 1 },
         { res with contacts_created := res.contacts_created + 1 })

/-- Lines 412-414: store dimension scores when scoring and its
score_breakdown are both truthy. -/
def adMaybeImportScores (db : DB) (pid : Nat) (r : ProspectDiscoveryData) : DB :=
  match r.scoring with
  | none => db
  | some sc =>
      if truthyL sc.score_breakdown then
        _import_scores db pid (sc.score_breakdown.getD [])
      else db

/-- Lines 332-414: everything one record does after the prospect has been
resolved: record the id, import the decision maker and the secondary
contacts, append the audit activity, store scores. -/
def adAfterProspect (db : DB) (res : ImportResult) (pid : Nat)
    (r : ProspectDiscoveryData) : DB × ImportResult :=
  let res := { res with imported_ids := res.imported_ids ++ [pid] }
  let (db, res) := adImportDM db res pid r
  let (db, res) := (adSecondaries r).foldl (adImportSecondary pid) (db, res)
  let db := addActivity db pid "Imported from athletic-director-prospecting skill"
  let db := adMaybeImportScores db pid r
  (db, res)

/-- Lines 215-414: one loop iteration of the athletic-director importer.
The prospect is resolved by exact name only (lines 218-221); on a match
the dict is merged in place, otherwise a new row is created. -/
def adStep (s : DB × ImportResult) (r : ProspectDiscoveryData) : DB × ImportResult :=
  let (db, res) := s
  let n := r.institution.name
  let d := adProspectDict r
  let tier := map_tier (adTierStr r)
  let has_research := truthyS (adConstraintHypothesis r)
  match findProspectByName db n with
  | some e =>
      let p := mergeProspect e d tier has_research
      let db := updateProspectByName db n p
      adAfterProspect db { res with prospects_updated := res.prospects_updated + 1 } p.id r
  | none =>
      let p := newProspectFromDict db.nextId d tier has_research
      let db := { db with prospects := db.prospects ++ [p], nextId := db.nextId + 1 }
      adAfterProspect db { res with prospects_created := res.prospects_created + 1 } p.id r

/-- import_athletic_director_prospects (lines 208-423), nominal path: fold
the per-record step over the document in input order. -/
def import_athletic_director_prospects (db : DB)
    (prospects : List ProspectDiscoveryData) : DB × ImportResult :=
  prospects.foldl adStep
    (db, { success := true, skill_type := "athletic-director-prospecting" })

/-! ## Shared contact-dict machinery of the contact-finder variants.
Each variant builds a contact_dict and then either overwrites the non-null
dict values onto an existing row (counting contacts_updated) or inserts a
new row (counting contacts_created). -/

/-- The contact_dict shape: name and role are always present, the rest is
optional. -/
structure ContactDict where
  name : String
  title : Option String
  role : String
  email : Option String
  phone : Option String
  linkedin_url : Option String
  is_primary : Option Bool
  notes : Option String
deriving Repr, DecidableEq

/-- for key, value in contact_dict.items(): if value is not None:
setattr(existing_contact, key, value). -/
def applyContactDict (c0 : Contact) (d : ContactDict) : Contact :=
  { c0 with
      name := d.name
      title := (d.title).or c0.title
      role := some d.role
      email := (d.email).or c0.email
      phone := (d.phone).or c0.phone
      linkedin_url := (d.linkedin_url).or c0.linkedin_url
      is_primary := (d.is_primary).or c0.is_primary
      notes := (d.notes).or c0.notes }

/-- Contact(prospect_id=..., **contact_dict). -/
def makeContact (id pid : Nat) (d : ContactDict) : Contact :=
  { id := id
    prospect_id := pid
    name := d.name
    title := d.title
    role := some d.role
    email := d.email
    phone := d.phone
    linkedin_url := d.linkedin_url
    is_primary := d.is_primary
    notes := d.notes
    deleted_at := none }

/-- Shared tail of every contact-finder contact import: update the row the
email lookup found, or insert a new one (e.g. lines 545-559). -/
def upsertContact (db : DB) (res : ImportResult) (pid : Nat)
    (lookupEmail : Option String) (existing : Option Contact)
    (d : ContactDict) : DB × ImportResult :=
  match existing with
  | some c0 =>
      (updateContactByEmail db pid lookupEmail (applyContactDict c0 d),
       { res with contacts_updated := res.contacts_updated + 1 })
  | none =>
      ({ db with contacts := db.contacts ++ [makeContact db.nextId pid d],
                 nextId := db.nextId + 1 },
       { res with contacts_created := res.contacts_created + 1 })

/-- The linkedin placeholder list of the prospects variant additionally
contains "none" (lines 888 and 952). -/
def cleanLinkedin4 (e : Option String) : Option String :=
  match e with
  | none => none
  | some s =>
      if s != "" && !(["not found", "unknown", "", "none"].contains (pyLower s)) then
        some s
      else none

/-- In-place update of the prospect found by prospectFuzzyFilter. -/
def updateProspectFuzzy (db : DB) (n : String) (p : Prospect) : DB :=
  { db with prospects := replaceFirstBy (prospectFuzzyFilter n) p db.prospects }

/-! ## Contact-finder-enrichment input schema and importer
(import_contact_finder_enrichment, import_service.py lines 467-577). -/

/-- EnrichedContact (schema lines 130-147), the fields the importer reads. -/
structure EnrichedContact where
  name : String
  title : Option String := none
  email : Option String := none
  phone : Option String := none
  cell : Option String := none
  linkedin_url : Option String := none
  confidence : Option Int := none
  authority_level : Option String := none
  role_in_decision : Option String := none
  notes : Option String := none
deriving Repr, DecidableEq

/-- OutreachSequenceItem (schema lines 150-153). -/
structure OutreachSequenceItem where
  order : Int
  contact : String
deriving Repr, DecidableEq

/-- EnrichedProspect (schema lines 156-162). -/
structure EnrichedProspect where
  institution : String
  tier : Option String := none
  total_score : Option Int := none
  contacts : List EnrichedContact := []
  recommended_outreach_sequence : Option (List OutreachSequenceItem) := none
deriving Repr, DecidableEq

/-- Lines 516-518: an enrichment contact is skipped when confidence is
truthy (present and non-zero) and below 70. -/
def enrichSkip (c : EnrichedContact) : Bool :=
  truthyI c.confidence && (c.confidence.getD 0) < 70

/-- Lines 504-512: the primary contact name is the contact of the
order-1 item of the recommended outreach sequence. -/
def enrichPrimaryName (e : EnrichedProspect) : Option String :=
  if truthyL e.recommended_outreach_sequence then
    match (e.recommended_outreach_sequence.getD []).find? (fun i => i.order == 1) with
    | some item => some item.contact
    | none => none
  else none

/-- Lines 529-532: is_primary is None when no primary name is known,
otherwise the case-insensitive name comparison (an empty primary name is
falsy and yields a falsy value, modelled false). -/
def enrichIsPrimary (pcn : Option String) (cname : String) : Option Bool :=
  match pcn with
  | none => none
  | some n => some (truthyS (some n) && pyLower cname == pyLower n)

/-- Lines 515-559: import one enrichment contact.  The dedup lookup uses
the raw email whenever it is truthy; no placeholder filtering happens in
this variant. -/
def enrichImportContact (pid : Nat) (pcn : Option String)
    (s : DB × ImportResult) (c : EnrichedContact) : DB × ImportResult :=
  let (db, res) := s
  if enrichSkip c then (db, res)
  else
    let existing :=
      if truthyS c.email then findContactByEmail db pid c.email else none
    let d : ContactDict :=
      { name := c.name
        title := c.title
        role := map_contact_role c.authority_level c.role_in_decision
        email := c.email
        phone := pyOrS c.phone c.cell
        linkedin_url := c.linkedin_url
        is_primary := enrichIsPrimary pcn c.name
        notes := c.notes }
    upsertContact db res pid c.email existing d

/-- Lines 498-502: tier and total score are taken only when the stored
value is falsy. -/
def enrichUpdateProspect (p : Prospect) (e : EnrichedProspect) : Prospect :=
  let p :=
    if truthyS e.tier && !truthyS p.tier then { p with tier := map_tier e.tier } else p
  if truthyI e.total_score && !truthyI p.icp_score then
    { p with icp_score := e.total_score } else p

/-- The warning string of lines 490-493. -/
def enrichWarning (inst : String) : String :=
  "Prospect not found for institution: " ++ inst ++
  ". Import the athletic-director-prospecting file first."

/-- Lines 496-568: everything one enrichment record does once its prospect
is resolved: record the id, import the contacts, append the audit
activity. -/
def enrichAfterProspect (db : DB) (res : ImportResult) (pid : Nat)
    (e : EnrichedProspect) : DB × ImportResult :=
  let res := { res with imported_ids := res.imported_ids ++ [pid] }
  let pcn := enrichPrimaryName e
  let (db, res) := e.contacts.foldl (enrichImportContact pid pcn) (db, res)
  let db := addActivity db pid
    ("Contacts enriched from contact-finder skill (" ++
     toString e.contacts.length ++ " contacts)")
  (db, res)

/-- Lines 474-568: one loop iteration of the enrichment importer.  The
prospect is resolved by exact name, then fuzzily; a record with no match
only adds a warning and is skipped. -/
def enrichStep (s : DB × ImportResult) (e : EnrichedProspect) : DB × ImportResult :=
  let (db, res) := s
  match findProspectByName db e.institution with
  | some p =>
      let p' := enrichUpdateProspect p e
      enrichAfterProspect (updateProspectByName db e.institution p') res p'.id e
  | none =>
      match findProspectFuzzy db e.institution with
      | some p =>
          let p' := enrichUpdateProspect p e
          enrichAfterProspect (updateProspectFuzzy db e.institution p') res p'.id e
      | none => (db, { res with warnings := res.warnings ++ [enrichWarning e.institution] })

/-- import_contact_finder_enrichment (lines 467-577), nominal path. -/
def import_contact_finder_enrichment (db : DB)
    (enriched_prospects : List EnrichedProspect) : DB × ImportResult :=
  enriched_prospects.foldl enrichStep
    (db, { success := true, skill_type := "contact-finder-enrichment" })

/-! ## Contact-finder direct input schema and importer
(import_contact_finder_direct, import_service.py lines 580-745). -/

/-- ContactFinderPrimaryContact (schema lines 180-192). -/
structure ContactFinderPrimaryContact where
  name : String
  title : Option String := none
  email : Option String := none
  phone : Option String := none
  phone_direct : Option String := none
  phone_main : Option String := none
  linkedin_url : Option String := none
  notes : Option String := none
deriving Repr, DecidableEq

/-- ContactFinderSecondaryContact (schema lines 195-202). -/
structure ContactFinderSecondaryContact where
  name : String
  title : Option String := none
  email : Option String := none
  phone : Option String := none
  linkedin_url : Option String := none
  role_in_decision : Option String := none
deriving Repr, DecidableEq

/-- ContactFinderProspect (schema lines 205-213). -/
structure ContactFinderProspect where
  institution : String
  tier : Option String := none
  score : Option Int := none
  primary_contact : Option ContactFinderPrimaryContact := none
  secondary_contacts : Option (List ContactFinderSecondaryContact) := none
  outreach_recommendation : Option String := none
deriving Repr, DecidableEq

/-- Lines 604-611 (and 772-779, 1012-1018): venue type guessed from the
institution name.  The prospects and flat variants also accept the keyword
"schools". -/
def venueTypeFromName (inst : String) (withSchools : Bool) : String :=
  let l := pyLower inst
  if pyContains l "school district" || pyContains l "high school" ||
     (withSchools && pyContains l "schools") then "high_school_5a"
  else if pyContains l "university" || pyContains l "college" then "college_d2"
  else "high_school_other"

/-- Lines 616-626: the prospect created for an unmatched direct record. -/
def directNewProspect (id : Nat) (r : ContactFinderProspect) : Prospect :=
  { id := id
    name := r.institution
    venue_type := venueTypeFromName r.institution false
    state := "OH"
    tier := map_tier r.tier
    icp_score := r.score
    status := calculate_status_from_tier (map_tier r.tier) false
    source := some "skill_import"
    research_notes :=
      if truthyS r.outreach_recommendation then
        some ("Outreach Recommendation: " ++ r.outreach_recommendation.getD "")
      else none
    deleted_at := none }

/-- Lines 631-644: update of a matched direct record: tier overwritten when
provided, score only when better, the outreach recommendation appended to
the research notes with a blank-line separator. -/
def directUpdateProspect (p : Prospect) (r : ContactFinderProspect) : Prospect :=
  let p := if truthyS r.tier then { p with tier := map_tier r.tier } else p
  let p :=
    if truthyI r.score &&
       (!truthyI p.icp_score || (p.icp_score.getD 0) < (r.score.getD 0)) then
      { p with icp_score := r.score } else p
  if truthyS r.outreach_recommendation then
    { p with research_notes :=
        match p.research_notes with
        | some old =>
            if old != "" then
              some (old ++ "\n\nOutreach Recommendation: " ++ r.outreach_recommendation.getD "")
            else some ("Outreach Recommendation: " ++ r.outreach_recommendation.getD "")
        | none => some ("Outreach Recommendation: " ++ r.outreach_recommendation.getD "") }
  else p

/-- Lines 649-687: import the primary contact of a direct record. -/
def directImportPrimary (pid : Nat) (s : DB × ImportResult)
    (pc : ContactFinderPrimaryContact) : DB × ImportResult :=
  let (db, res) := s
  let ce := cleanEmail pc.email
  let existing :=
    match ce with
    | some _ => findContactByEmail db pid ce
    | none => none
  let d : ContactDict :=
    { name := pc.name
      title := pc.title
      role := "decision_maker"
      email := ce
      phone := pyOrS (pyOrS pc.phone_direct pc.phone) pc.phone_main
      linkedin_url := cleanLinkedin pc.linkedin_url
      is_primary := some true
      notes := pc.notes }
  upsertContact db res pid ce existing d

/-- Lines 691-727: import one secondary contact of a direct record. -/
def directImportSecondary (pid : Nat) (s : DB × ImportResult)
    (sc : ContactFinderSecondaryContact) : DB × ImportResult :=
  let (db, res) := s
  let ce := cleanEmail sc.email
  let existing :=
    match ce with
    | some _ => findContactByEmail db pid ce
    | none => none
  let d : ContactDict :=
    { name := sc.name
      title := sc.title
      role := map_contact_role none sc.role_in_decision
      email := ce
      phone := cleanPhone sc.phone
      linkedin_url := cleanLinkedin sc.linkedin_url
      is_primary := some false
      notes := sc.role_in_decision }
  upsertContact db res pid ce existing d

/-- Lines 646-736: everything one direct record does once its prospect is
resolved: record the id, import the primary and secondary contacts,
append the audit activity. -/
def directAfterProspect (db : DB) (res : ImportResult) (pid : Nat)
    (r : ContactFinderProspect) : DB × ImportResult :=
  let res := { res with imported_ids := res.imported_ids ++ [pid] }
  let (db, res) :=
    match r.primary_contact with
    | some pc => directImportPrimary pid (db, res) pc
    | none => (db, res)
  let (db, res) :=
    match r.secondary_contacts with
    | some scs => scs.foldl (directImportSecondary pid) (db, res)
    | none => (db, res)
  let db := addActivity db pid "Contacts enriched from contact-finder skill"
  (db, res)

/-- Lines 587-736: one loop iteration of the direct importer.  Resolution
is exact name, then fuzzy, then creation of a new prospect. -/
def directStep (s : DB × ImportResult) (r : ContactFinderProspect) : DB × ImportResult :=
  let (db, res) := s
  match findProspectByName db r.institution with
  | some p =>
      let p' := directUpdateProspect p r
      let db := updateProspectByName db r.institution p'
      directAfterProspect db { res with prospects_updated := res.prospects_updated + 1 } p'.id r
  | none =>
      match findProspectFuzzy db r.institution with
      | some p =>
          let p' := directUpdateProspect p r
          let db := updateProspectFuzzy db r.institution p'
          directAfterProspect db { res with prospects_updated := res.prospects_updated + 1 } p'.id r
      | none =>
          let p := directNewProspect db.nextId r
          let db := { db with prospects := db.prospects ++ [p], nextId := db.nextId + 1 }
          directAfterProspect db { res with prospects_created := res.prospects_created + 1 } p.id r

/-- import_contact_finder_direct (lines 580-745), nominal path. -/
def import_contact_finder_direct (db : DB)
    (contacts : List ContactFinderProspect) : DB × ImportResult :=
  contacts.foldl directStep
    (db, { success := true, skill_type := "contact-finder" })

/-! ## Contact-finder prospects-variant input schema and importer
(import_contact_finder_prospects, import_service.py lines 748-987). -/

/-- Python s.split(sep) for a one-character separator. -/
def pySplit (sep : Char) (s : String) : List String :=
  (s.data.splitOn sep).map fun cs => ⟨cs⟩

/-- Python s.strip(). -/
def pyStrip (s : String) : String :=
  ⟨(s.data.dropWhile Char.isWhitespace).reverse.dropWhile Char.isWhitespace |>.reverse⟩

/-- ContactFinderDecisionMaker (schema lines 231-242). -/
structure ContactFinderDecisionMaker where
  name : String
  title : Option String := none
  email : Option String := none
  phone : Option String := none
  linkedin_url : Option String := none
  notes : Option String := none
  authority_level : Option String := none
  project_involvement : Option String := none
deriving Repr, DecidableEq

/-- ContactFinderNestedSecondary (schema lines 245-256). -/
structure ContactFinderNestedSecondary where
  name : String
  title : Option String := none
  email : Option String := none
  phone : Option String := none
  linkedin_url : Option String := none
  notes : Option String := none
  authority_level : Option String := none
  project_involvement : Option String := none
deriving Repr, DecidableEq

/-- ContactFinderContactsObject (schema lines 267-271). -/
structure ContactFinderContactsObject where
  primary_decision_maker : Option ContactFinderDecisionMaker := none
  secondary_contacts : Option (List ContactFinderNestedSecondary) := none
deriving Repr, DecidableEq

/-- ContactFinderOutreachRecs (schema lines 274-279). -/
structure ContactFinderOutreachRecs where
  approach : Option String := none
  timing : Option String := none
  talking_points : Option (List String) := none
  email_subject_suggestion : Option String := none
deriving Repr, DecidableEq

/-- ContactFinderProspectVariant (schema lines 282-290). -/
structure ContactFinderProspectVariant where
  institution : String
  location : Option String := none
  tier : Option String := none
  score : Option Int := none
  contacts : Option ContactFinderContactsObject := none
  outreach_recommendations : Option ContactFinderOutreachRecs := none
deriving Repr, DecidableEq

/-- Lines 791-806 and 829-844: the outreach recommendations rendered as
research-note lines joined with newlines. -/
def cfpRecNotes (rec : ContactFinderOutreachRecs) : String :=
  let parts : List String :=
    (if truthyS rec.approach then ["Approach: " ++ rec.approach.getD ""] else [])
    ++ (if truthyS rec.timing then ["Timing: " ++ rec.timing.getD ""] else [])
    ++ (if truthyL rec.talking_points then
          "Talking Points:" :: (rec.talking_points.getD []).map (fun tp => "  - " ++ tp)
        else [])
    ++ (if truthyS rec.email_subject_suggestion then
          ["Suggested Subject: " ++ rec.email_subject_suggestion.getD ""] else [])
  String.intercalate "\n" parts

/-- Lines 781-789: state parsed from a "City, ST" location when valid. -/
def cfpStateFromLocation (location : Option String) : String :=
  if truthyS location then
    let parts := pySplit ',' (location.getD "")
    if parts.length ≥ 2 then
      let state_part := pyUpper (pyStrip (parts.getLast?.getD ""))
      if STATES.contains state_part then state_part else "OH"
    else "OH"
  else "OH"

/-- Lines 770-821: the prospect created for an unmatched prospects-variant
record. -/
def cfpNewProspect (id : Nat) (r : ContactFinderProspectVariant) : Prospect :=
  { id := id
    name := r.institution
    venue_type := venueTypeFromName r.institution true
    state := cfpStateFromLocation r.location
    tier := map_tier r.tier
    icp_score := r.score
    status := calculate_status_from_tier (map_tier r.tier) false
    source := some "skill_import"
    research_notes :=
      match r.outreach_recommendations with
      | some rec => some (cfpRecNotes rec)
      | none => none
    deleted_at := none }

/-- Lines 822-850: update of a matched prospects-variant record. -/
def cfpUpdateProspect (p : Prospect) (r : ContactFinderProspectVariant) : Prospect :=
  let p := if truthyS r.tier then { p with tier := map_tier r.tier } else p
  let p :=
    if truthyI r.score &&
       (!truthyI p.icp_score || (p.icp_score.getD 0) < (r.score.getD 0)) then
      { p with icp_score := r.score } else p
  match r.outreach_recommendations with
  | some rec =>
      let new_notes := cfpRecNotes rec
      { p with research_notes :=
          match p.research_notes with
          | some old =>
              if old != "" then some (old ++ "\n\n" ++ new_notes) else some new_notes
          | none => some new_notes }
  | none => p

/-- Lines 872-880: notes of the primary decision maker, pipe-joined. -/
def cfpPdmNotes (pdm : ContactFinderDecisionMaker) : Option String :=
  let parts : List String :=
    (if truthyS pdm.notes then [pdm.notes.getD ""] else [])
    ++ (if truthyS pdm.authority_level then
          ["Authority: " ++ pdm.authority_level.getD ""] else [])
    ++ (if truthyS pdm.project_involvement then
          ["Project involvement: " ++ pdm.project_involvement.getD ""] else [])
  if parts.isEmpty then none else some (String.intercalate " | " parts)

/-- Lines 859-905: import the primary decision maker of a prospects-variant
record. -/
def cfpImportPDM (pid : Nat) (s : DB × ImportResult)
    (pdm : ContactFinderDecisionMaker) : DB × ImportResult :=
  let (db, res) := s
  let ce := cleanEmail pdm.email
  let existing :=
    match ce with
    | some _ => findContactByEmail db pid ce
    | none => none
  let d : ContactDict :=
    { name := pdm.name
      title := pdm.title
      role := "decision_maker"
      email := ce
      phone := cleanPhone pdm.phone
      linkedin_url := cleanLinkedin4 pdm.linkedin_url
      is_primary := some true
      notes := cfpPdmNotes pdm }
  upsertContact db res pid ce existing d

/-- Lines 921-934: authority text mapped to a role for nested secondary
contacts. -/
def cfpSecondaryRole (authority_level : Option String) : String :=
  if truthyS authority_level then
    let a := pyLower (authority_level.getD "")
    if pyContains a "executive" || pyContains a "superintendent" then "decision_maker"
    else if pyContains a "board" then "influencer"
    else if pyContains a "financial" then "influencer"
    else if pyContains a "admin" then "blocker"
    else if pyContains a "support" then "unknown"
    else "unknown"
  else "unknown"

/-- Lines 936-944: notes of a nested secondary contact, pipe-joined (the
project label here is "Project:"). -/
def cfpSecNotes (sc : ContactFinderNestedSecondary) : Option String :=
  let parts : List String :=
    (if truthyS sc.notes then [sc.notes.getD ""] else [])
    ++ (if truthyS sc.authority_level then
          ["Authority: " ++ sc.authority_level.getD ""] else [])
    ++ (if truthyS sc.project_involvement then
          ["Project: " ++ sc.project_involvement.getD ""] else [])
  if parts.isEmpty then none else some (String.intercalate " | " parts)

/-- Lines 909-969: import one nested secondary contact. -/
def cfpImportSecondary (pid : Nat) (s : DB × ImportResult)
    (sc : ContactFinderNestedSecondary) : DB × ImportResult :=
  let (db, res) := s
  let ce := cleanEmail sc.email
  let existing :=
    match ce with
    | some _ => findContactByEmail db pid ce
    | none => none
  let d : ContactDict :=
    { name := sc.name
      title := sc.title
      role := cfpSecondaryRole sc.authority_level
      email := ce
      phone := cleanPhone sc.phone
      linkedin_url := cleanLinkedin4 sc.linkedin_url
      is_primary := some false
      notes := cfpSecNotes sc }
  upsertContact db res pid ce existing d

/-- Lines 852-978: everything one prospects-variant record does once its
prospect is resolved. -/
def cfpAfterProspect (db : DB) (res : ImportResult) (pid : Nat)
    (r : ContactFinderProspectVariant) : DB × ImportResult :=
  let res := { res with imported_ids := res.imported_ids ++ [pid] }
  let (db, res) :=
    match r.contacts with
    | some cobj =>
        let (db, res) :=
          match cobj.primary_decision_maker with
          | some pdm => cfpImportPDM pid (db, res) pdm
          | none => (db, res)
        if truthyL cobj.secondary_contacts then
          (cobj.secondary_contacts.getD []).foldl (cfpImportSecondary pid) (db, res)
        else (db, res)
    | none => (db, res)
  let db := addActivity db pid
    "Contacts enriched from contact-finder skill (prospects variant)"
  (db, res)

/-- Lines 762-978: one loop iteration of the prospects-variant importer.
Resolution is by exact name only. -/
def cfpStep (s : DB × ImportResult) (r : ContactFinderProspectVariant) :
    DB × ImportResult :=
  let (db, res) := s
  match findProspectByName db r.institution with
  | some p =>
      let p' := cfpUpdateProspect p r
      let db := updateProspectByName db r.institution p'
      cfpAfterProspect db { res with prospects_updated := res.prospects_updated + 1 } p'.id r
  | none =>
      let p := cfpNewProspect db.nextId r
      let db := { db with prospects := db.prospects ++ [p], nextId := db.nextId + 1 }
      cfpAfterProspect db { res with prospects_created := res.prospects_created + 1 } p.id r

/-- import_contact_finder_prospects (lines 748-987), nominal path. -/
def import_contact_finder_prospects (db : DB)
    (prospects : List ContactFinderProspectVariant) : DB × ImportResult :=
  prospects.foldl cfpStep
    (db, { success := true, skill_type := "contact-finder-prospects" })

/-! ## Contact-finder flat-variant input schema and importer
(import_contact_finder_flat, import_service.py lines 990-1143).  The
pydantic classes ContactFinderFlatImport and ContactFinderFlatProspect are
pulled in at import_service.py line 18 but missing from the schema file, so
these record shapes are modelled from the spec (flat-contacts variant,
spec section 6) and from the fields the importer reads. -/

/-- Modelled from the spec: one contact of the flat contacts list. -/
structure ContactFinderFlatContact where
  name : String
  title : Option String := none
  email : Option String := none
  phone : Option String := none
  linkedin_url : Option String := none
  confidence : Option Int := none
  authority_level : Option String := none
  seniority : Option String := none
  notes : Option String := none
deriving Repr, DecidableEq

/-- Modelled from the spec: one element of the flat variant's prospects
array. -/
structure ContactFinderFlatProspect where
  institution : String
  city : Option String := none
  state : Option String := none
  tier : Option String := none
  score : Option Int := none
  contacts : List ContactFinderFlatContact := []
  recommended_outreach_order : Option (List String) := none
deriving Repr, DecidableEq

/-- Lines 1022-1032: the prospect created for an unmatched flat record. -/
def flatNewProspect (id : Nat) (r : ContactFinderFlatProspect) : Prospect :=
  { id := id
    name := r.institution
    venue_type := venueTypeFromName r.institution true
    city := r.city
    state := map_state r.state
    tier := map_tier r.tier
    icp_score := r.score
    status := calculate_status_from_tier (map_tier r.tier) false
    source := some "skill_import"
    deleted_at := none }

/-- Lines 1037-1045: update of a matched flat record. -/
def flatUpdateProspect (p : Prospect) (r : ContactFinderFlatProspect) : Prospect :=
  let p := if truthyS r.tier then { p with tier := map_tier r.tier } else p
  let p :=
    if truthyI r.score &&
       (!truthyI p.icp_score || (p.icp_score.getD 0) < (r.score.getD 0)) then
      { p with icp_score := r.score } else p
  let p :=
    if truthyS r.city && !truthyS p.city then { p with city := r.city } else p
  if truthyS r.state then { p with state := map_state r.state } else p

/-- Lines 1051-1059: the primary contact name comes from the first entry of
recommended_outreach_order, with a "Name (title)" entry cut at the
parenthesis and stripped. -/
def flatPrimaryName (r : ContactFinderFlatProspect) : Option String :=
  if truthyL r.recommended_outreach_order then
    let first_entry := (r.recommended_outreach_order.getD []).headD ""
    if pyContains first_entry "(" then
      some (pyStrip ((pySplit '(' first_entry).headD ""))
    else some (pyStrip first_entry)
  else none

/-- Lines 1063-1067: a flat contact is skipped when confidence is truthy
and below 60, or when its name is the literal "unknown" (case folded). -/
def flatSkip (c : ContactFinderFlatContact) : Bool :=
  (truthyI c.confidence && (c.confidence.getD 0) < 60) ||
  pyLower c.name == "unknown"

/-- Lines 1085-1100: authority level, else seniority, mapped to a role. -/
def flatRole (c : ContactFinderFlatContact) : String :=
  if truthyS c.authority_level then
    let a := pyLower (c.authority_level.getD "")
    if a == "high" then "decision_maker"
    else if a == "medium" then "influencer"
    else if a == "low" then "influencer"
    else "unknown"
  else if truthyS c.seniority then
    let se := pyLower (c.seniority.getD "")
    if se == "executive" || se == "director" then "decision_maker"
    else if se == "manager" || se == "senior" then "influencer"
    else "unknown"
  else "unknown"

/-- Lines 1080-1083: primary when the known primary name occurs in the
contact name, case-insensitively. -/
def flatIsPrimary (pcn : Option String) (cname : String) : Bool :=
  if truthyS pcn && cname != "" then
    pyContains (pyLower cname) (pyLower (pcn.getD ""))
  else false

/-- Lines 1062-1125: import one flat contact. -/
def flatImportContact (pid : Nat) (pcn : Option String)
    (s : DB × ImportResult) (c : ContactFinderFlatContact) : DB × ImportResult :=
  let (db, res) := s
  if flatSkip c then (db, res)
  else
    let ce := cleanEmail c.email
    let existing :=
      match ce with
      | some _ => findContactByEmail db pid ce
      | none => none
    let d : ContactDict :=
      { name := c.name
        title := c.title
        role := flatRole c
        email := ce
        phone := cleanPhone c.phone
        linkedin_url := cleanLinkedin c.linkedin_url
        is_primary := some (flatIsPrimary pcn c.name)
        notes := c.notes }
    upsertContact db res pid ce existing d

/-- Lines 1049-1134: everything one flat record does once its prospect is
resolved. -/
def flatAfterProspect (db : DB) (res : ImportResult) (pid : Nat)
    (r : ContactFinderFlatProspect) : DB × ImportResult :=
  let res := { res with imported_ids := res.imported_ids ++ [pid] }
  let pcn := flatPrimaryName r
  let (db, res) := r.contacts.foldl (flatImportContact pid pcn) (db, res)
  let db := addActivity db pid
    ("Contacts enriched from contact-finder skill (" ++
     toString r.contacts.length ++ " contacts)")
  (db, res)

/-- Lines 1002-1134: one loop iteration of the flat importer.  Resolution
is by exact name only. -/
def flatStep (s : DB × ImportResult) (r : ContactFinderFlatProspect) :
    DB × ImportResult :=
  let (db, res) := s
  match findProspectByName db r.institution with
  | some p =>
      let p' := flatUpdateProspect p r
      let db := updateProspectByName db r.institution p'
      flatAfterProspect db { res with prospects_updated := res.prospects_updated + 1 } p'.id r
  | none =>
      let p := flatNewProspect db.nextId r
      let db := { db with prospects := db.prospects ++ [p], nextId := db.nextId + 1 }
      flatAfterProspect db { res with prospects_created := res.prospects_created + 1 } p.id r

/-- import_contact_finder_flat (lines 990-1143), nominal path. -/
def import_contact_finder_flat (db : DB)
    (prospects : List ContactFinderFlatProspect) : DB × ImportResult :=
  prospects.foldl flatStep
    (db, { success := true, skill_type := "contact-finder-flat" })

/-! ## Connection-error retry helper
(_retry_on_connection_error, import_service.py lines 22-35).  A store
operation is modelled as a function from the attempt number to a result or
an OperationalError message; the sleep between attempts is not modelled.
This helper is defined by the source file but invoked from nowhere: no
caller wraps a store operation in it. -/

/-- Line 29: message inspection classifying an OperationalError as a
connectivity failure. -/
def isConnectionError (msg : String) : Bool :=
  let m := pyLower msg
  pyContains m "ssl" || pyContains m "connection" || pyContains m "closed"

/-- The retry loop of lines 24-35, recursing on the number of remaining
attempts (remaining = max_retries - attempt, so the Python guard
attempt < max_retries - 1 is remaining > 1): run the operation; on a
connectivity error with attempts left, roll back and try again; otherwise
re-raise.  The final line-35 call is reached only when max_retries is
zero. -/
def retryLoop (op : Nat → Except String α) (attempt : Nat) :
    (remaining : Nat) → Except String α
  | 0 => op attempt
  | remaining + 1 =>
      match op attempt with
      | Except.ok a => Except.ok a
      | Except.error e =>
          if isConnectionError e && remaining > 0 then
            retryLoop op (attempt + 1) remaining
          else Except.error e

/-- _retry_on_connection_error with its default budget of 3 attempts. -/
def _retry_on_connection_error (op : Nat → Except String α)
    (max_retries : Nat := 3) : Except String α :=
  retryLoop op 0 max_retries

/-! ## Key projections and settledness predicates, used to reason about
re-imports of the athletic-director variant. -/

/-- The components of a prospect row that prospect resolution reads and
that the importer never changes on an update: name, id, deletion mark. -/
def pKey (p : Prospect) : String × Nat × Option Nat := (p.name, p.id, p.deleted_at)

/-- The resolution-relevant projection of the prospects table. -/
def prospectKeys (db : DB) : List (String × Nat × Option Nat) :=
  db.prospects.map pKey

/-- Exact-name resolution expressed on the key projection: the id of the
first live row bearing the name. -/
def findKeyByName (keys : List (String × Nat × Option Nat)) (n : String) : Option Nat :=
  (keys.find? fun k => k.1 == n && k.2.2 == none).map fun k => k.2.1

/-- The exact-name lookup of name n resolves to the row with id k. -/
def resolvesTo (db : DB) (n : String) (k : Nat) : Prop :=
  findKeyByName (prospectKeys db) n = some k

/-- A live contact row with this (prospect, email) key exists. -/
def contactKeyExists (db : DB) (pid : Nat) (e : String) : Prop :=
  (findContactByEmail db pid (some e)).isSome

/-- A score row with this (prospect, dimension) key exists. -/
def scoreKeyExists (db : DB) (pid : Nat) (dim : String) : Prop :=
  (findScore db pid dim).isSome

/-- The usable email of the decision-maker candidate the
athletic-director importer would process, if any. -/
def adDMEmails (r : ProspectDiscoveryData) : List String :=
  match adPickDM r with
  | some dm => if truthyS dm.name then (cleanEmail dm.email).toList else []
  | none => []

/-- The usable email a secondary contact would be stored under, if any. -/
def adSecEmailOf (sc : SecondaryContactData) : Option String :=
  if adSecSkip sc then none else adSecEmail sc

/-- All usable emails of the contacts brought in by one athletic-director
record. -/
def adContactEmails (r : ProspectDiscoveryData) : List String :=
  adDMEmails r ++ (adSecondaries r).filterMap adSecEmailOf

/-- The canonical dimensions the record's score breakdown would write. -/
def adScoreDims (r : ProspectDiscoveryData) : List String :=
  match r.scoring with
  | some sc =>
      if truthyL sc.score_breakdown then
        dimension_map.filterMap fun ent =>
          if ((sc.score_breakdown.getD []).lookup ent.1).isSome then
            some ent.2.1
          else none
      else []
  | none => []

/-- Every contact the record would import carries a usable
(non-placeholder) email. -/
def allUsableAD (r : ProspectDiscoveryData) : Bool :=
  (match adPickDM r with
   | some dm => !truthyS dm.name || (cleanEmail dm.email).isSome
   | none => true)
  && (adSecondaries r).all fun sc => adSecSkip sc || (adSecEmail sc).isSome

/-- The record's entities are settled in the store: its name resolves to a
row k, and every usable contact email and every score dimension it would
write already has a row under k. -/
def settledAD (db : DB) (r : ProspectDiscoveryData) : Prop :=
  ∃ k, resolvesTo db r.institution.name k ∧
    (∀ e ∈ adContactEmails r, contactKeyExists db k e) ∧
    (∀ dim ∈ adScoreDims r, scoreKeyExists db k dim)

/-- Store growth as re-import reasoning sees it: the prospect key
projection and the contacts and scores tables are only extended. -/
def dbGrow (s t : DB) : Prop :=
  (∃ ex, prospectKeys t = prospectKeys s ++ ex) ∧
  (∃ ex, t.contacts = s.contacts ++ ex) ∧
  (∃ ex, t.scores = s.scores ++ ex)

/-! ## Contact-key projections and per-variant settledness, used to reason
about re-imports of the four contact-finder variants. -/

/-- The components of a contact row that the email dedup reads and that a
contact update never changes: owning prospect, email, deletion mark. -/
def cKey (c : Contact) : Nat × Option String × Option Nat :=
  (c.prospect_id, c.email, c.deleted_at)

/-- The dedup-relevant projection of the contacts table. -/
def contactKeys (db : DB) : List (Nat × Option String × Option Nat) :=
  db.contacts.map cKey

/-- The contact-dedup filter expressed on the key projection. -/
def cKeyFilter (pid : Nat) (e : Option String)
    (k : Nat × Option String × Option Nat) : Bool :=
  k.1 == pid && k.2.1 == e && k.2.2 == none

/-- Fuzzy resolution expressed on the prospect-key projection: the id of
the first live row whose name contains the query, case-insensitively. -/
def findFuzzyKey (keys : List (String × Nat × Option Nat)) (n : String) : Option Nat :=
  (keys.find? fun k => pyContains (pyLower k.1) (pyLower n) && k.2.2 == none).map
    fun k => k.2.1

/-- The lookup email under which one enrichment contact would be stored:
null when the contact is gated out or its raw email is falsy (this
variant deduplicates on the raw email). -/
def enrichEmailOf (c : EnrichedContact) : Option String :=
  if enrichSkip c then none else if truthyS c.email then c.email else none

/-- An enrichment contact is dedupable: gated out or truthy email. -/
def enrichUsable (c : EnrichedContact) : Bool :=
  enrichSkip c || truthyS c.email

/-- The dedup emails of one enrichment record. -/
def enrichEmails (e : EnrichedProspect) : List String :=
  e.contacts.filterMap enrichEmailOf

/-- Every contact of the enrichment record is gated out or dedupable. -/
def allUsableEnrich (e : EnrichedProspect) : Bool :=
  e.contacts.all enrichUsable

/-- The dedup email of a direct-variant secondary contact. -/
def dirSecEmailOf (sc : ContactFinderSecondaryContact) : Option String :=
  cleanEmail sc.email

/-- The dedup emails of one direct record. -/
def directEmails (r : ContactFinderProspect) : List String :=
  (match r.primary_contact with
   | some pc => (cleanEmail pc.email).toList
   | none => [])
  ++ (r.secondary_contacts.getD []).filterMap dirSecEmailOf

/-- Every contact of the direct record has a usable email. -/
def allUsableDirect (r : ContactFinderProspect) : Bool :=
  (match r.primary_contact with
   | some pc => (cleanEmail pc.email).isSome
   | none => true)
  && (r.secondary_contacts.getD []).all fun sc => (cleanEmail sc.email).isSome

/-- The dedup email of a nested secondary contact. -/
def cfpSecEmailOf (sc : ContactFinderNestedSecondary) : Option String :=
  cleanEmail sc.email

/-- The dedup emails of an optional nested contacts object. -/
def cfpObjEmails (oc : Option ContactFinderContactsObject) : List String :=
  match oc with
  | some cobj =>
      (match cobj.primary_decision_maker with
       | some pdm => (cleanEmail pdm.email).toList
       | none => [])
      ++ (if truthyL cobj.secondary_contacts then
            (cobj.secondary_contacts.getD []).filterMap cfpSecEmailOf
          else [])
  | none => []

/-- The dedup emails of one prospects-variant record. -/
def cfpEmails (r : ContactFinderProspectVariant) : List String :=
  cfpObjEmails r.contacts

/-- Every contact of the optional nested contacts object has a usable
email. -/
def cfpObjUsable (oc : Option ContactFinderContactsObject) : Bool :=
  match oc with
  | some cobj =>
      (match cobj.primary_decision_maker with
       | some pdm => (cleanEmail pdm.email).isSome
       | none => true)
      && (if truthyL cobj.secondary_contacts then
            (cobj.secondary_contacts.getD []).all fun sc => (cleanEmail sc.email).isSome
          else true)
  | none => true

/-- Every contact of the prospects-variant record has a usable email. -/
def allUsableCFP (r : ContactFinderProspectVariant) : Bool :=
  cfpObjUsable r.contacts

/-- The lookup email under which one flat contact would be stored. -/
def flatEmailOf (c : ContactFinderFlatContact) : Option String :=
  if flatSkip c then none else cleanEmail c.email

/-- A flat contact is dedupable: gated out or usable email. -/
def flatUsable (c : ContactFinderFlatContact) : Bool :=
  flatSkip c || (cleanEmail c.email).isSome

/-- The dedup emails of one flat record. -/
def flatEmails (r : ContactFinderFlatProspect) : List String :=
  r.contacts.filterMap flatEmailOf

/-- Every contact of the flat record is gated out or dedupable. -/
def allUsableFlat (r : ContactFinderFlatProspect) : Bool :=
  r.contacts.all flatUsable

/-- A direct record is settled in the store: exact resolution hits k, or
exact resolution misses and fuzzy resolution hits k, and every dedup
email of the record has a contact row under k. -/
def settledDirect (db : DB) (r : ContactFinderProspect) : Prop :=
  ∃ k, (findKeyByName (prospectKeys db) r.institution = some k ∨
        (findKeyByName (prospectKeys db) r.institution = none ∧
         findFuzzyKey (prospectKeys db) r.institution = some k)) ∧
    ∀ e ∈ directEmails r, contactKeyExists db k e

/-- An enrichment record is settled: both lookups miss (the record only
warns), or it resolves exactly or fuzzily to k and every dedup email has
a contact row under k. -/
def settledEnrich (db : DB) (e : EnrichedProspect) : Prop :=
  (findKeyByName (prospectKeys db) e.institution = none ∧
   findFuzzyKey (prospectKeys db) e.institution = none) ∨
  ∃ k, (findKeyByName (prospectKeys db) e.institution = some k ∨
        (findKeyByName (prospectKeys db) e.institution = none ∧
         findFuzzyKey (prospectKeys db) e.institution = some k)) ∧
    ∀ em ∈ enrichEmails e, contactKeyExists db k em

/-- A prospects-variant record is settled under exact resolution. -/
def settledCFP (db : DB) (r : ContactFinderProspectVariant) : Prop :=
  ∃ k, resolvesTo db r.institution k ∧ ∀ e ∈ cfpEmails r, contactKeyExists db k e

/-- A flat record is settled under exact resolution. -/
def settledFlat (db : DB) (r : ContactFinderFlatProspect) : Prop :=
  ∃ k, resolvesTo db r.institution k ∧ ∀ e ∈ flatEmails r, contactKeyExists db k e

/-- A contact phase only extends the contact-key projection and leaves the
prospects and scores tables alone. -/
def cGrow (s t : DB) : Prop :=
  (∃ ex, contactKeys t = contactKeys s ++ ex) ∧
  t.prospects = s.prospects ∧ t.scores = s.scores

/-- Store growth as exact-resolution re-import reasoning sees it: prospect
and contact keys only extended, scores untouched. -/
def keyGrow (s t : DB) : Prop :=
  (∃ ex, prospectKeys t = prospectKeys s ++ ex) ∧
  (∃ ex, contactKeys t = contactKeys s ++ ex) ∧
  t.scores = s.scores

/-- Store growth as the direct importer's re-import reasoning sees it:
exact and fuzzy resolutions are preserved, an exact miss stays a miss
whenever a fuzzy match existed, contact keys only grow, scores stay. -/
def directGrow (s t : DB) : Prop :=
  (∀ n k, findKeyByName (prospectKeys s) n = some k →
     findKeyByName (prospectKeys t) n = some k) ∧
  (∀ n k, findFuzzyKey (prospectKeys s) n = some k →
     findFuzzyKey (prospectKeys t) n = some k) ∧
  (∀ n k, findKeyByName (prospectKeys s) n = none →
     findFuzzyKey (prospectKeys s) n = some k →
     findKeyByName (prospectKeys t) n = none) ∧
  (∃ ex, contactKeys t = contactKeys s ++ ex) ∧
  t.scores = s.scores

/-- Store evolution of the enrichment importer: prospect keys and scores
unchanged, contact keys only extended. -/
def enrichGrow (s t : DB) : Prop :=
  prospectKeys t = prospectKeys s ∧
  (∃ ex, contactKeys t = contactKeys s ++ ex) ∧
  t.scores = s.scores

/-! ## Concrete fixtures used by the example runs below. -/

/-- Scenario A of the spec: Mason High School, tier A2, no hypothesis. -/
def recMason : ProspectDiscoveryData :=
  { institution :=
      { name := "Mason High School", type := "6A High School", state := some "OH" }
    scoring := some { tier := some "A2", icp_score := some 67 } }

/-- A record whose decision maker has no email at all. -/
def recNoEmailDM : ProspectDiscoveryData :=
  { institution := { name := "Westlake High School", type := "5A High School" }
    decision_maker := some { name := some "Jane Doe", title := some "AD" } }

/-- A record whose decision maker has a usable email. -/
def recEmailDM : ProspectDiscoveryData :=
  { institution := { name := "Westlake High School", type := "5A High School" }
    decision_maker := some { name := some "Jane Doe", email := some "jdoe@wl.org" } }

/-- A stored prospect with state, lighting and broadcast data present. -/
def prospectOH : Prospect :=
  { id := 0, name := "Lakewood High School", venue_type := "high_school_6a",
    state := "OH", city := some "Lakewood",
    current_lighting_type := some "modern_led",
    broadcast_requirements := some "local_streaming",
    research_notes := some "OLD NOTES" }

/-- A record for the same prospect carrying no state, no facility and no
note material. -/
def recLakewoodBare : ProspectDiscoveryData :=
  { institution := { name := "Lakewood High School", type := "6A High School" } }

/-- A record for the same prospect carrying only a risk-flag note block. -/
def recLakewoodNotes : ProspectDiscoveryData :=
  { institution := { name := "Lakewood High School", type := "6A High School" }
    deal_risk_flags := some ["budget freeze"] }

/-- A stored prospect whose name strictly contains "Mason County". -/
def prospectMCHS : Prospect :=
  { id := 0, name := "Mason County High School",
    venue_type := "high_school_6a", state := "OH" }

/-- An athletic-director record naming only "Mason County". -/
def recMasonCounty : ProspectDiscoveryData :=
  { institution := { name := "Mason County", type := "6A High School" } }

/-- A stored prospect for the enrichment fixtures. -/
def prospectZ : Prospect :=
  { id := 0, name := "Zanesville High School",
    venue_type := "high_school_6a", state := "OH" }

/-- An enrichment record whose single contact has confidence 0. -/
def enrichedZeroConf : EnrichedProspect :=
  { institution := "Zanesville High School"
    contacts := [{ name := "Bob Hart", email := some "bhart@z.org",
                   confidence := some 0 }] }

/-- A direct-variant record with an outreach recommendation. -/
def directRecW : ContactFinderProspect :=
  { institution := "Lakewood High School",
    outreach_recommendation := some "call after the levy vote" }

/-- A breakdown dict with two recognized skill dimensions. -/
def breakdownGeoBudget : List (String × ScoreBreakdownEntry) :=
  [("geographic_fit", { score := some 8, weight := some 2 }),
   ("budget_signals", { score := some 15, weight := some 0 })]

/-- A store already holding a geography score for prospect 0. -/
def dbWithGeoScore : DB :=
  { prospects := [prospectZ],
    scores := [{ id := 5, prospect_id := 0, dimension := "geography",
                 score := 4, weight := 2 }],
    nextId := 6 }

/-- A record in which every optional prospect_dict field is present. -/
def recFull : ProspectDiscoveryData :=
  { institution :=
      { name := "Columbus North High School", type := "6A High School",
        city := some "Columbus", state := some "OH",
        enrollment := some 1200, conference := some "OCC" }
    facility := some
      { primary_venue := some "North Stadium",
        current_lighting := some "metal halide",
        lighting_age_years := some 12,
        broadcast_capable := some true }
    scoring := some { tier := some "A1", icp_score := some 80 }
    facility_hypothesis := some { statement := some "needs LED" }
    sales_readiness := some
      { opportunity_summary := some "big retrofit",
        key_assumptions := some ["district funding"] } }

/-- The (prospect, dimension) dedup key of a score row. -/
def scoreKey (s : ProspectScore) : Nat × String := (s.prospect_id, s.dimension)

/-- All score dedup keys of the store, in row order. -/
def scoreKeys (db : DB) : List (Nat × String) := db.scores.map scoreKey

/-- A blank result, as each importer builds it before its loop. -/
def resT : ImportResult := { success := true, skill_type := "t" }

/-- A store holding one contact for prospect 0 with a usable email. -/
def dbWithContactZ : DB :=
  { prospects := [prospectZ],
    contacts := [{ id := 3, prospect_id := 0, name := "Old Name",
                   email := some "z@x.org" }],
    nextId := 4 }

/-- A direct-variant primary contact with a usable email. -/
def pcDana : ContactFinderPrimaryContact :=
  { name := "Dana Ruiz", email := some "dana@x.org" }

/-- A direct-variant primary contact whose email is a placeholder. -/
def pcNoEmail : ContactFinderPrimaryContact :=
  { name := "Lee Park", email := some "Unknown" }

/-- An enrichment contact carrying the stored email. -/
def ecZ : EnrichedContact :=
  { name := "Pat Kim", email := some "z@x.org", confidence := some 95 }

/-- A nested-variant decision maker carrying the stored email. -/
def pdmZ : ContactFinderDecisionMaker :=
  { name := "Pat Kim", email := some "z@x.org" }

/-- A flat-variant contact carrying the stored email. -/
def flatZ : ContactFinderFlatContact :=
  { name := "Pat Kim", email := some "z@x.org" }

/-- An athletic-director decision maker carrying the stored email. -/
def dmZ : DecisionMakerData :=
  { name := some "Pat Kim", email := some "z@x.org" }

/-- An athletic-director record whose decision maker carries the stored
email. -/
def recDMZ : ProspectDiscoveryData :=
  { institution := { name := "Ziegler Prep", type := "Prep School" }
    decision_maker := some dmZ }

/-- An enrichment contact with a sub-threshold non-zero confidence. -/
def ec50 : EnrichedContact := { name := "Pat Low", confidence := some 50 }

/-- An enrichment contact whose confidence is present but zero. -/
def ecConf0 : EnrichedContact := { name := "Zed Zero", confidence := some 0 }

/-- A flat contact with a sub-threshold non-zero confidence. -/
def flat40 : ContactFinderFlatContact := { name := "Flo Low", confidence := some 40 }

/-- A flat contact named by the unknown placeholder. -/
def flatUnknown : ContactFinderFlatContact := { name := "Unknown" }

/-- A direct-variant record whose primary contact carries a usable
email. -/
def recDirW : ContactFinderProspect :=
  { institution := "Westlake High School",
    primary_contact := some { name := "Jane Doe", email := some "jdoe@wl.org" } }

/-- An enrichment record whose single contact carries a usable email. -/
def recEnrichW : EnrichedProspect :=
  { institution := "Zanesville High School", contacts := [ecZ] }

/-- A nested-variant record whose decision maker carries a usable
email. -/
def recCfpW : ContactFinderProspectVariant :=
  { institution := "Ziegler Prep",
    contacts := some { primary_decision_maker := some pdmZ } }

/-- A flat-variant record whose single contact carries a usable email. -/
def recFlatW : ContactFinderFlatProspect :=
  { institution := "Ziegler Prep", contacts := [flatZ] }

/-! ## Theorems -/

/-- C6: the pipeline-status derivation is a pure function of
(tier, has-research) and returns exactly the advertised value on every
input the spec enumerates: ready_for_outreach for A1/A2 with research,
needs_research for A1/A2 without, scored for B, deprioritized for C and D,
needs_scoring with no tier. -/
theorem status_derivation_cases (hr : Bool) :
    calculate_status_from_tier (some "A1") true = "ready_for_outreach" ∧
    calculate_status_from_tier (some "A2") true = "ready_for_outreach" ∧
    calculate_status_from_tier (some "A1") false = "needs_research" ∧
    calculate_status_from_tier (some "A2") false = "needs_research" ∧
    calculate_status_from_tier (some "B") hr = "scored" ∧
    calculate_status_from_tier (some "C") hr = "deprioritized" ∧
    calculate_status_from_tier (some "D") hr = "deprioritized" ∧
    calculate_status_from_tier none hr = "needs_scoring" := by
  cases hr <;> decide

/-- C1 counterexample: importing the same athletic-director document twice
is not contact-idempotent when a contact lacks a usable email: the second
run creates the decision-maker contact again (contacts_created = 1, two
stored rows), where the claim demands contacts_created = 0.  The claim is
also wrong that updated counters move only when incoming non-null fields
differ from stored state: re-importing a document whose second run stores
a prospect row identical to the first still reports prospects_updated = 1,
because the reconciler counts every resolved record unconditionally. -/
theorem reimport_contact_without_email_cex :
    (import_athletic_director_prospects
        (import_athletic_director_prospects {} [recNoEmailDM]).1
        [recNoEmailDM]).2.contacts_created = 1 ∧
    (import_athletic_director_prospects
        (import_athletic_director_prospects {} [recNoEmailDM]).1
        [recNoEmailDM]).1.contacts.length = 2 ∧
    (import_athletic_director_prospects
        (import_athletic_director_prospects {} [recEmailDM]).1
        [recEmailDM]).1.prospects =
      (import_athletic_director_prospects {} [recEmailDM]).1.prospects ∧
    (import_athletic_director_prospects
        (import_athletic_director_prospects {} [recEmailDM]).1
        [recEmailDM]).2.prospects_updated = 1 := by
  decide

/-- C2 counterexample: re-importing a record whose state, lighting and
broadcast fields are all absent does not leave those stored fields
unchanged: the total normalizers overwrite them with the default sentinels
OTHER, unknown and none. -/
theorem absent_fields_overwritten_cex :
    adStateRaw recLakewoodBare = none ∧
    prospectOH.state = "OH" ∧
    ((import_athletic_director_prospects
        { prospects := [prospectOH], nextId := 1 }
        [recLakewoodBare]).1.prospects.map Prospect.state) = ["OTHER"] ∧
    ((import_athletic_director_prospects
        { prospects := [prospectOH], nextId := 1 }
        [recLakewoodBare]).1.prospects.map Prospect.current_lighting_type) =
      [some "unknown"] ∧
    ((import_athletic_director_prospects
        { prospects := [prospectOH], nextId := 1 }
        [recLakewoodBare]).1.prospects.map Prospect.broadcast_requirements) =
      [some "none"] := by
  decide

/-- C3 counterexample: the athletic-director reconciler never attempts the
fuzzy match.  With no exact match but a stored name fuzzily containing the
incoming name, it creates a second prospect instead of updating the
fuzzy candidate. -/
theorem ad_variant_skips_fuzzy_cex :
    findProspectByName { prospects := [prospectMCHS], nextId := 1 }
      "Mason County" = none ∧
    findProspectFuzzy { prospects := [prospectMCHS], nextId := 1 }
      "Mason County" = some prospectMCHS ∧
    (import_athletic_director_prospects
        { prospects := [prospectMCHS], nextId := 1 }
        [recMasonCounty]).2.prospects_created = 1 ∧
    (import_athletic_director_prospects
        { prospects := [prospectMCHS], nextId := 1 }
        [recMasonCounty]).1.prospects.length = 2 := by
  decide

/-- C4 counterexample: in the athletic-director variant, re-importing a
contact with the same (prospect, email) yields one stored row but does not
increment contacts_updated, which stays 0 on the second import. -/
theorem ad_dedup_counter_cex :
    (import_athletic_director_prospects
        (import_athletic_director_prospects {} [recEmailDM]).1
        [recEmailDM]).2.contacts_updated = 0 ∧
    (import_athletic_director_prospects
        (import_athletic_director_prospects {} [recEmailDM]).1
        [recEmailDM]).2.contacts_created = 0 ∧
    (import_athletic_director_prospects
        (import_athletic_director_prospects {} [recEmailDM]).1
        [recEmailDM]).1.contacts.length = 1 := by
  decide

/-- C5 counterexample: when an athletic-director record carries note
material, the rendered blocks replace the stored research notes instead of
being appended: the old text is no prefix of the new value. -/
theorem ad_notes_replaced_cex :
    prospectOH.research_notes = some "OLD NOTES" ∧
    ((import_athletic_director_prospects
        { prospects := [prospectOH], nextId := 1 }
        [recLakewoodNotes]).1.prospects.map Prospect.research_notes) =
      [some "Risk Flags:\n- budget freeze"] ∧
    startsWithL "OLD NOTES".data "Risk Flags:\n- budget freeze".data = false := by
  decide

/-- C10 counterexample: an enrichment contact whose confidence field is
present with value 0 is below 70 yet is not skipped: the Python truthiness
guard treats 0 as absent and the contact is created. -/
theorem confidence_zero_processed_cex :
    (enrichedZeroConf.contacts.map fun c => c.confidence) = [some 0] ∧
    ((0 : Int) < 70) ∧
    (import_contact_finder_enrichment { prospects := [prospectZ], nextId := 1 }
        [enrichedZeroConf]).2.contacts_created = 1 ∧
    (import_contact_finder_enrichment { prospects := [prospectZ], nextId := 1 }
        [enrichedZeroConf]).1.contacts.length = 1 := by
  decide

/-- C8: the retry helper itself implements the claimed policy - an
operation failing once with a connectivity-class message succeeds on
retry within the 3-attempt budget, a persistent connectivity failure
escalates after the budget, and a non-connectivity store error propagates
immediately without retry.  No import path invokes this helper. -/
theorem retry_helper_policy :
    (_retry_on_connection_error
        (fun a => if a == 0 then
            Except.error "SSL connection has been closed unexpectedly"
          else Except.ok 42) = Except.ok 42) ∧
    (_retry_on_connection_error
        (fun a => if a == 0 then Except.error "duplicate key value"
          else Except.ok (42 : Nat)) = Except.error "duplicate key value") ∧
    (_retry_on_connection_error
        (fun _ => (Except.error "server closed the connection" :
            Except String Nat)) = Except.error "server closed the connection") ∧
    isConnectionError "SSL connection has been closed unexpectedly" = true ∧
    isConnectionError "duplicate key value" = false := by
  exact ⟨rfl, rfl, rfl, by decide, by decide⟩

/-! ## Generic list lemmas for the store model -/

theorem find?_append_some {α : Type} {f : α → Bool} {l : List α} {a : α}
    (h : l.find? f = some a) (l₂ : List α) : (l ++ l₂).find? f = some a := by
  rw [List.find?_append, h]
  rfl

theorem find?_append_isSome {α : Type} {f : α → Bool} {l l₂ : List α}
    (h : (l.find? f).isSome) : ((l ++ l₂).find? f).isSome := by
  obtain ⟨a, ha⟩ := Option.isSome_iff_exists.mp h
  rw [find?_append_some ha]
  rfl

theorem find?_append_none {α : Type} {f : α → Bool} {l : List α}
    (h : l.find? f = none) (l₂ : List α) : (l ++ l₂).find? f = l₂.find? f := by
  rw [List.find?_append, h]
  rfl

theorem replaceFirstBy_length {α : Type} (f : α → Bool) (b : α) :
    ∀ l : List α, (replaceFirstBy f b l).length = l.length := by
  intro l
  induction l with
  | nil => rfl
  | cons a t ih =>
      unfold replaceFirstBy
      by_cases h : f a <;> simp [h, ih]

theorem map_replaceFirstBy {α β : Type} (g : α → β) (f : α → Bool) (b : α) :
    ∀ (l : List α) (e : α), l.find? f = some e → g b = g e →
      (replaceFirstBy f b l).map g = l.map g := by
  intro l
  induction l with
  | nil => intro e h _; simp [List.find?] at h
  | cons a t ih =>
      intro e h hg
      unfold replaceFirstBy
      by_cases ha : f a
      · rw [List.find?_cons_of_pos _ ha] at h
        cases h
        simp [ha, hg]
      · rw [List.find?_cons_of_neg _ ha] at h
        simp [ha, ih e h hg]

theorem foldl_proj_eq {σ α γ : Type} (g : σ → γ) (f : σ → α → σ)
    (hf : ∀ s x, g (f s x) = g s) : ∀ (l : List α) (s : σ), g (l.foldl f s) = g s := by
  intro l
  induction l with
  | nil => intro s; rfl
  | cons a t ih => intro s; rw [List.foldl_cons, ih, hf]

theorem foldl_contacts_append {α : Type}
    (f : DB × ImportResult → α → DB × ImportResult)
    (hf : ∀ s x, ∃ ex, (f s x).1.contacts = s.1.contacts ++ ex) :
    ∀ (l : List α) (s : DB × ImportResult),
      ∃ ex, (l.foldl f s).1.contacts = s.1.contacts ++ ex := by
  intro l
  induction l with
  | nil => intro s; exact ⟨[], by simp⟩
  | cons a t ih =>
      intro s
      obtain ⟨ex1, h1⟩ := hf s a
      obtain ⟨ex2, h2⟩ := ih (f s a)
      exact ⟨ex1 ++ ex2, by rw [List.foldl_cons, h2, h1, List.append_assoc]⟩

/-! ## Frame lemmas: the contact-import phases never touch the prospects
or scores tables, nor any result field besides the contact counters and
(for the skip-free paths) nothing at all. -/

theorem upsertContact_frame (db : DB) (res : ImportResult) (pid : Nat)
    (le : Option String) (ex : Option Contact) (d : ContactDict) :
    (upsertContact db res pid le ex d).1.prospects = db.prospects ∧
    (upsertContact db res pid le ex d).1.scores = db.scores ∧
    (upsertContact db res pid le ex d).2.prospects_created = res.prospects_created ∧
    (upsertContact db res pid le ex d).2.prospects_updated = res.prospects_updated ∧
    (upsertContact db res pid le ex d).2.warnings = res.warnings ∧
    (upsertContact db res pid le ex d).2.errors = res.errors := by
  unfold upsertContact
  cases ex <;> simp [updateContactByEmail]

theorem enrichImportContact_frame (pid : Nat) (pcn : Option String)
    (db : DB) (res : ImportResult) (c : EnrichedContact) :
    (enrichImportContact pid pcn (db, res) c).1.prospects = db.prospects ∧
    (enrichImportContact pid pcn (db, res) c).1.scores = db.scores ∧
    (enrichImportContact pid pcn (db, res) c).2.prospects_created = res.prospects_created ∧
    (enrichImportContact pid pcn (db, res) c).2.prospects_updated = res.prospects_updated ∧
    (enrichImportContact pid pcn (db, res) c).2.warnings = res.warnings ∧
    (enrichImportContact pid pcn (db, res) c).2.errors = res.errors := by
  unfold enrichImportContact
  by_cases h : enrichSkip c
  · simp [h]
  · simp only [h, Bool.false_eq_true, if_false]
    exact upsertContact_frame ..

theorem directImportPrimary_frame (pid : Nat) (db : DB) (res : ImportResult)
    (pc : ContactFinderPrimaryContact) :
    (directImportPrimary pid (db, res) pc).1.prospects = db.prospects ∧
    (directImportPrimary pid (db, res) pc).1.scores = db.scores ∧
    (directImportPrimary pid (db, res) pc).2.prospects_created = res.prospects_created ∧
    (directImportPrimary pid (db, res) pc).2.prospects_updated = res.prospects_updated ∧
    (directImportPrimary pid (db, res) pc).2.warnings = res.warnings ∧
    (directImportPrimary pid (db, res) pc).2.errors = res.errors := by
  unfold directImportPrimary
  exact upsertContact_frame ..

theorem directImportSecondary_frame (pid : Nat) (db : DB) (res : ImportResult)
    (sc : ContactFinderSecondaryContact) :
    (directImportSecondary pid (db, res) sc).1.prospects = db.prospects ∧
    (directImportSecondary pid (db, res) sc).1.scores = db.scores ∧
    (directImportSecondary pid (db, res) sc).2.prospects_created = res.prospects_created ∧
    (directImportSecondary pid (db, res) sc).2.prospects_updated = res.prospects_updated ∧
    (directImportSecondary pid (db, res) sc).2.warnings = res.warnings ∧
    (directImportSecondary pid (db, res) sc).2.errors = res.errors := by
  unfold directImportSecondary
  exact upsertContact_frame ..

theorem cfpImportPDM_frame (pid : Nat) (db : DB) (res : ImportResult)
    (pdm : ContactFinderDecisionMaker) :
    (cfpImportPDM pid (db, res) pdm).1.prospects = db.prospects ∧
    (cfpImportPDM pid (db, res) pdm).1.scores = db.scores ∧
    (cfpImportPDM pid (db, res) pdm).2.prospects_created = res.prospects_created ∧
    (cfpImportPDM pid (db, res) pdm).2.prospects_updated = res.prospects_updated ∧
    (cfpImportPDM pid (db, res) pdm).2.warnings = res.warnings ∧
    (cfpImportPDM pid (db, res) pdm).2.errors = res.errors := by
  unfold cfpImportPDM
  exact upsertContact_frame ..

theorem cfpImportSecondary_frame (pid : Nat) (db : DB) (res : ImportResult)
    (sc : ContactFinderNestedSecondary) :
    (cfpImportSecondary pid (db, res) sc).1.prospects = db.prospects ∧
    (cfpImportSecondary pid (db, res) sc).1.scores = db.scores ∧
    (cfpImportSecondary pid (db, res) sc).2.prospects_created = res.prospects_created ∧
    (cfpImportSecondary pid (db, res) sc).2.prospects_updated = res.prospects_updated ∧
    (cfpImportSecondary pid (db, res) sc).2.warnings = res.warnings ∧
    (cfpImportSecondary pid (db, res) sc).2.errors = res.errors := by
  unfold cfpImportSecondary
  exact upsertContact_frame ..

theorem flatImportContact_frame (pid : Nat) (pcn : Option String)
    (db : DB) (res : ImportResult) (c : ContactFinderFlatContact) :
    (flatImportContact pid pcn (db, res) c).1.prospects = db.prospects ∧
    (flatImportContact pid pcn (db, res) c).1.scores = db.scores ∧
    (flatImportContact pid pcn (db, res) c).2.prospects_created = res.prospects_created ∧
    (flatImportContact pid pcn (db, res) c).2.prospects_updated = res.prospects_updated ∧
    (flatImportContact pid pcn (db, res) c).2.warnings = res.warnings ∧
    (flatImportContact pid pcn (db, res) c).2.errors = res.errors := by
  unfold flatImportContact
  by_cases h : flatSkip c
  · simp [h]
  · simp only [h, Bool.false_eq_true, if_false]
    exact upsertContact_frame ..

theorem addActivity_frame (db : DB) (pid : Nat) (descr : String) :
    (addActivity db pid descr).prospects = db.prospects ∧
    (addActivity db pid descr).contacts = db.contacts ∧
    (addActivity db pid descr).scores = db.scores := by
  exact ⟨rfl, rfl, rfl⟩

theorem importScoreDim_frame (pid : Nat) (bd : List (String × ScoreBreakdownEntry))
    (db : DB) (ent : String × String × Int) :
    (importScoreDim pid bd db ent).prospects = db.prospects ∧
    (importScoreDim pid bd db ent).contacts = db.contacts ∧
    (∃ ex, (importScoreDim pid bd db ent).scores = db.scores ++ ex) := by
  unfold importScoreDim
  rcases ent with ⟨sk, ou, w⟩
  cases h1 : bd.lookup sk with
  | none => simp [h1]
  | some b =>
      cases h2 : findScore db pid ou with
      | some s => simp [h1, h2]
      | none => simp [h1, h2]

theorem scoresFold_frame (pid : Nat) (bd : List (String × ScoreBreakdownEntry)) :
    ∀ (ents : List (String × String × Int)) (db : DB),
      (ents.foldl (importScoreDim pid bd) db).prospects = db.prospects ∧
      (ents.foldl (importScoreDim pid bd) db).contacts = db.contacts ∧
      (∃ ex, (ents.foldl (importScoreDim pid bd) db).scores = db.scores ++ ex) := by
  intro ents
  induction ents with
  | nil => intro db; exact ⟨rfl, rfl, ⟨[], by simp⟩⟩
  | cons ent t ih =>
      intro db
      obtain ⟨hp, hc, ⟨ex1, hs⟩⟩ := importScoreDim_frame pid bd db ent
      obtain ⟨hp', hc', ⟨ex2, hs'⟩⟩ := ih (importScoreDim pid bd db ent)
      refine ⟨by rw [List.foldl_cons, hp', hp], by rw [List.foldl_cons, hc', hc],
        ⟨ex1 ++ ex2, ?_⟩⟩
      rw [List.foldl_cons, hs', hs, List.append_assoc]

theorem import_scores_frame (db : DB) (pid : Nat)
    (bd : List (String × ScoreBreakdownEntry)) :
    (_import_scores db pid bd).prospects = db.prospects ∧
    (_import_scores db pid bd).contacts = db.contacts ∧
    (∃ ex, (_import_scores db pid bd).scores = db.scores ++ ex) := by
  unfold _import_scores
  by_cases h : bd.isEmpty
  · simp [h]
  · simp only [h, Bool.false_eq_true, if_false]
    exact scoresFold_frame pid bd dimension_map db

theorem adMaybeImportScores_frame (db : DB) (pid : Nat) (r : ProspectDiscoveryData) :
    (adMaybeImportScores db pid r).prospects = db.prospects ∧
    (adMaybeImportScores db pid r).contacts = db.contacts ∧
    (∃ ex, (adMaybeImportScores db pid r).scores = db.scores ++ ex) := by
  unfold adMaybeImportScores
  cases r.scoring with
  | none => exact ⟨rfl, rfl, ⟨[], by simp⟩⟩
  | some sc =>
      by_cases h : truthyL sc.score_breakdown
      · simp only [h, if_true]
        exact import_scores_frame ..
      · simp [h]

/-! ## Resolution keys and monotonicity under store growth -/

theorem findKey_eq_find (n : String) :
    ∀ l : List Prospect,
      ((l.find? (prospectNameFilter n)).map Prospect.id) = findKeyByName (l.map pKey) n := by
  intro l
  induction l with
  | nil => rfl
  | cons p t ih =>
      unfold findKeyByName at ih ⊢
      simp only [List.map_cons, List.find?, pKey]
      cases hf : p.name == n && p.deleted_at == none with
      | true =>
          have : prospectNameFilter n p = true := hf
          rw [this]
          rfl
      | false =>
          have : prospectNameFilter n p = false := hf
          rw [this]
          exact ih

theorem resolvesTo_iff (db : DB) (n : String) (k : Nat) :
    resolvesTo db n k ↔ ((db.prospects.find? (prospectNameFilter n)).map Prospect.id) = some k := by
  unfold resolvesTo prospectKeys
  rw [findKey_eq_find]

theorem resolvesTo_of_find {db : DB} {n : String} {p : Prospect}
    (h : findProspectByName db n = some p) : resolvesTo db n p.id := by
  rw [resolvesTo_iff]
  unfold findProspectByName at h
  rw [h]
  rfl

theorem resolvesTo_mono {s t : DB} (h : ∃ ex, prospectKeys t = prospectKeys s ++ ex)
    {n : String} {k : Nat} (hr : resolvesTo s n k) : resolvesTo t n k := by
  obtain ⟨ex, he⟩ := h
  unfold resolvesTo findKeyByName at hr ⊢
  rw [he]
  cases hfind : (prospectKeys s).find? fun kk => kk.1 == n && kk.2.2 == none with
  | none => rw [hfind] at hr; simp at hr
  | some a =>
      rw [find?_append_some hfind]
      rw [hfind] at hr
      exact hr

theorem contactsExists_append {l : List Contact} {pid : Nat} {e : String}
    (h : (l.find? (contactEmailFilter pid (some e))).isSome) (ex : List Contact) :
    ((l ++ ex).find? (contactEmailFilter pid (some e))).isSome :=
  find?_append_isSome h

theorem contactKeyExists_mono {s t : DB} (h : ∃ ex, t.contacts = s.contacts ++ ex)
    {pid : Nat} {e : String} (hc : contactKeyExists s pid e) :
    contactKeyExists t pid e := by
  obtain ⟨ex, he⟩ := h
  unfold contactKeyExists findContactByEmail at hc ⊢
  rw [he]
  exact find?_append_isSome hc

theorem scoreKeyExists_mono {s t : DB} (h : ∃ ex, t.scores = s.scores ++ ex)
    {pid : Nat} {dim : String} (hs : scoreKeyExists s pid dim) :
    scoreKeyExists t pid dim := by
  obtain ⟨ex, he⟩ := h
  unfold scoreKeyExists findScore at hs ⊢
  rw [he]
  exact find?_append_isSome hs

theorem dbGrow_refl (s : DB) : dbGrow s s :=
  ⟨⟨[], by simp⟩, ⟨[], by simp⟩, ⟨[], by simp⟩⟩

theorem dbGrow_trans {s t u : DB} (h1 : dbGrow s t) (h2 : dbGrow t u) : dbGrow s u := by
  obtain ⟨⟨p1, hp1⟩, ⟨c1, hc1⟩, ⟨s1, hs1⟩⟩ := h1
  obtain ⟨⟨p2, hp2⟩, ⟨c2, hc2⟩, ⟨s2, hs2⟩⟩ := h2
  exact ⟨⟨p1 ++ p2, by rw [hp2, hp1, List.append_assoc]⟩,
         ⟨c1 ++ c2, by rw [hc2, hc1, List.append_assoc]⟩,
         ⟨s1 ++ s2, by rw [hs2, hs1, List.append_assoc]⟩⟩

theorem settledAD_mono {s t : DB} (h : dbGrow s t) {r : ProspectDiscoveryData}
    (hs : settledAD s r) : settledAD t r := by
  obtain ⟨k, hres, hc, hsc⟩ := hs
  exact ⟨k, resolvesTo_mono h.1 hres,
    fun e he => contactKeyExists_mono h.2.1 (hc e he),
    fun d hd => scoreKeyExists_mono h.2.2 (hsc d hd)⟩

/-! ## Effect lemmas for the athletic-director contact phase -/

theorem adImportDM_spec (db : DB) (res : ImportResult) (pid : Nat)
    (r : ProspectDiscoveryData) :
    (adImportDM db res pid r).1.prospects = db.prospects ∧
    (adImportDM db res pid r).1.scores = db.scores ∧
    (∃ ex, (adImportDM db res pid r).1.contacts = db.contacts ++ ex) ∧
    (adImportDM db res pid r).2.prospects_created = res.prospects_created ∧
    (adImportDM db res pid r).2.prospects_updated = res.prospects_updated ∧
    (adImportDM db res pid r).2.contacts_updated = res.contacts_updated ∧
    (adImportDM db res pid r).2.warnings = res.warnings ∧
    (adImportDM db res pid r).2.errors = res.errors ∧
    (adImportDM db res pid r).2.imported_ids = res.imported_ids ∧
    (∀ e ∈ adDMEmails r, contactKeyExists (adImportDM db res pid r).1 pid e) := by
  unfold adImportDM adDMEmails
  cases hp : adPickDM r with
  | none => simp
  | some dm =>
      by_cases hn : truthyS dm.name
      · simp only [hn, Bool.not_true, Bool.false_eq_true, if_false]
        cases hce : cleanEmail dm.email with
        | none => simp
        | some e =>
            cases hex : findContactByEmail db pid (some e) with
            | some c0 =>
                simp only [hex]
                refine ⟨by simp, by simp, ⟨[], by simp⟩, by simp, by simp, by simp,
                  by simp, by simp, by simp, ?_⟩
                intro e' he'
                simp at he'
                subst he'
                unfold contactKeyExists
                rw [hex]
                rfl
            | none =>
                simp only [hex]
                refine ⟨by simp, by simp, ⟨_, rfl⟩, by simp, by simp, by simp,
                  by simp, by simp, by simp, ?_⟩
                intro e' he'
                simp at he'
                subst he'
                unfold contactKeyExists
                unfold findContactByEmail at hex ⊢
                show ((db.contacts ++ _).find? (contactEmailFilter pid (some e'))).isSome
                rw [find?_append_none hex]
                simp [List.find?, contactEmailFilter]
      · simp [hn]

theorem adImportDM_noop (db : DB) (res : ImportResult) (pid : Nat)
    (r : ProspectDiscoveryData)
    (husable : (match adPickDM r with
                | some dm => !truthyS dm.name || (cleanEmail dm.email).isSome
                | none => true) = true)
    (hset : ∀ e ∈ adDMEmails r, contactKeyExists db pid e) :
    adImportDM db res pid r = (db, res) := by
  unfold adImportDM
  cases hp : adPickDM r with
  | none => rfl
  | some dm =>
      rw [hp] at husable
      by_cases hn : truthyS dm.name
      · simp only [hn, Bool.not_true, Bool.false_eq_true, if_false]
        simp only [hn, Bool.not_true, Bool.false_or] at husable
        cases hce : cleanEmail dm.email with
        | none => rw [hce] at husable; simp at husable
        | some e =>
            have he : contactKeyExists db pid e := by
              apply hset
              unfold adDMEmails
              rw [hp]
              simp [hn, hce]
            unfold contactKeyExists at he
            obtain ⟨c0, hc0⟩ := Option.isSome_iff_exists.mp he
            simp [hc0]
      · simp [hn]

theorem adImportSecondary_spec (pid : Nat) (db : DB) (res : ImportResult)
    (sc : SecondaryContactData) :
    (adImportSecondary pid (db, res) sc).1.prospects = db.prospects ∧
    (adImportSecondary pid (db, res) sc).1.scores = db.scores ∧
    (∃ ex, (adImportSecondary pid (db, res) sc).1.contacts = db.contacts ++ ex) ∧
    (adImportSecondary pid (db, res) sc).2.prospects_created = res.prospects_created ∧
    (adImportSecondary pid (db, res) sc).2.prospects_updated = res.prospects_updated ∧
    (adImportSecondary pid (db, res) sc).2.contacts_updated = res.contacts_updated ∧
    (adImportSecondary pid (db, res) sc).2.warnings = res.warnings ∧
    (adImportSecondary pid (db, res) sc).2.errors = res.errors ∧
    (adImportSecondary pid (db, res) sc).2.imported_ids = res.imported_ids ∧
    (∀ e ∈ (adSecEmailOf sc).toList,
      contactKeyExists (adImportSecondary pid (db, res) sc).1 pid e) := by
  unfold adImportSecondary adSecEmailOf
  by_cases hs : adSecSkip sc
  · simp [hs]
  · simp only [hs, Bool.false_eq_true, if_false]
    cases hce : adSecEmail sc with
    | none => simp
    | some e =>
        cases hex : findContactByEmail db pid (some e) with
        | some c0 =>
            simp only [hex]
            refine ⟨by simp, by simp, ⟨[], by simp⟩, by simp, by simp, by simp,
              by simp, by simp, by simp, ?_⟩
            intro e' he'
            simp at he'
            subst he'
            unfold contactKeyExists
            rw [hex]
            rfl
        | none =>
            simp only [hex]
            refine ⟨by simp, by simp, ⟨_, rfl⟩, by simp, by simp, by simp,
              by simp, by simp, by simp, ?_⟩
            intro e' he'
            simp at he'
            subst he'
            unfold contactKeyExists
            unfold findContactByEmail at hex ⊢
            show ((db.contacts ++ _).find? (contactEmailFilter pid (some e'))).isSome
            rw [find?_append_none hex]
            simp [List.find?, contactEmailFilter]

theorem adImportSecondary_noop (pid : Nat) (db : DB) (res : ImportResult)
    (sc : SecondaryContactData)
    (husable : (adSecSkip sc || (adSecEmail sc).isSome) = true)
    (hset : ∀ e ∈ (adSecEmailOf sc).toList, contactKeyExists db pid e) :
    adImportSecondary pid (db, res) sc = (db, res) := by
  unfold adImportSecondary
  by_cases hs : adSecSkip sc
  · simp [hs]
  · simp only [hs, Bool.false_eq_true, if_false]
    simp only [hs, Bool.false_or] at husable
    cases hce : adSecEmail sc with
    | none => rw [hce] at husable; simp at husable
    | some e =>
        have he : contactKeyExists db pid e := by
          apply hset
          unfold adSecEmailOf
          simp [hs, hce]
        unfold contactKeyExists at he
        obtain ⟨c0, hc0⟩ := Option.isSome_iff_exists.mp he
        simp [hc0]

theorem adSecondariesFold_spec (pid : Nat) :
    ∀ (l : List SecondaryContactData) (db : DB) (res : ImportResult),
      (l.foldl (adImportSecondary pid) (db, res)).1.prospects = db.prospects ∧
      (l.foldl (adImportSecondary pid) (db, res)).1.scores = db.scores ∧
      (∃ ex, (l.foldl (adImportSecondary pid) (db, res)).1.contacts = db.contacts ++ ex) ∧
      (l.foldl (adImportSecondary pid) (db, res)).2.prospects_created = res.prospects_created ∧
      (l.foldl (adImportSecondary pid) (db, res)).2.prospects_updated = res.prospects_updated ∧
      (l.foldl (adImportSecondary pid) (db, res)).2.contacts_updated = res.contacts_updated ∧
      (l.foldl (adImportSecondary pid) (db, res)).2.warnings = res.warnings ∧
      (l.foldl (adImportSecondary pid) (db, res)).2.errors = res.errors ∧
      (l.foldl (adImportSecondary pid) (db, res)).2.imported_ids = res.imported_ids ∧
      (∀ e ∈ l.filterMap adSecEmailOf,
        contactKeyExists (l.foldl (adImportSecondary pid) (db, res)).1 pid e) := by
  intro l
  induction l with
  | nil =>
      intro db res
      exact ⟨rfl, rfl, ⟨[], by simp⟩, rfl, rfl, rfl, rfl, rfl, rfl, by simp⟩
  | cons sc t ih =>
      intro db res
      obtain ⟨hp1, hs1, ⟨ex1, hc1⟩, r1, r2, r3, r4, r5, r6, hk1⟩ :=
        adImportSecondary_spec pid db res sc
      rcases hstep : adImportSecondary pid (db, res) sc with ⟨db1, res1⟩
      rw [hstep] at hp1 hs1 hc1 r1 r2 r3 r4 r5 r6 hk1
      obtain ⟨hp2, hs2, ⟨ex2, hc2⟩, q1, q2, q3, q4, q5, q6, hk2⟩ := ih db1 res1
      rw [List.foldl_cons, hstep]
      refine ⟨by rw [hp2, hp1], by rw [hs2, hs1],
        ⟨ex1 ++ ex2, by rw [hc2, hc1, List.append_assoc]⟩,
        by rw [q1, r1], by rw [q2, r2], by rw [q3, r3],
        by rw [q4, r4], by rw [q5, r5], by rw [q6, r6], ?_⟩
      intro e he
      rw [List.filterMap_cons] at he
      cases hsc : adSecEmailOf sc with
      | none =>
          rw [hsc] at he
          exact hk2 e he
      | some e0 =>
          rw [hsc] at he
          rcases List.mem_cons.mp he with he0 | het
          · subst he0
            have hbase : contactKeyExists db1 pid e := by
              apply hk1
              simp [hsc]
            apply contactKeyExists_mono ⟨ex2, hc2⟩ hbase
          · exact hk2 e het

theorem adSecondariesFold_noop (pid : Nat) :
    ∀ (l : List SecondaryContactData) (db : DB) (res : ImportResult),
      (∀ sc ∈ l, (adSecSkip sc || (adSecEmail sc).isSome) = true) →
      (∀ e ∈ l.filterMap adSecEmailOf, contactKeyExists db pid e) →
      l.foldl (adImportSecondary pid) (db, res) = (db, res) := by
  intro l
  induction l with
  | nil => intro db res _ _; rfl
  | cons sc t ih =>
      intro db res hu hset
      have hstep : adImportSecondary pid (db, res) sc = (db, res) := by
        apply adImportSecondary_noop pid db res sc (hu sc (by simp))
        intro e he
        apply hset
        rw [List.filterMap_cons]
        cases hsc : adSecEmailOf sc with
        | none => rw [hsc] at he; simp at he
        | some e0 =>
            rw [hsc] at he
            simp at he
            subst he
            simp
      rw [List.foldl_cons, hstep]
      apply ih db res (fun x hx => hu x (by simp [hx]))
      intro e he
      apply hset
      rw [List.filterMap_cons]
      cases hsc : adSecEmailOf sc with
      | none => exact he
      | some e0 => exact List.mem_cons_of_mem _ he

/-! ## Effect lemmas for the score-import phase -/

theorem importScoreDim_settles (pid : Nat) (bd : List (String × ScoreBreakdownEntry))
    (db : DB) (ent : String × String × Int) (h : (bd.lookup ent.1).isSome) :
    scoreKeyExists (importScoreDim pid bd db ent) pid ent.2.1 := by
  unfold importScoreDim
  rcases ent with ⟨sk, ou, w⟩
  obtain ⟨b, hb⟩ := Option.isSome_iff_exists.mp h
  simp only at hb ⊢
  rw [hb]
  cases hex : findScore db pid ou with
  | some s =>
      unfold scoreKeyExists
      rw [hex]
      rfl
  | none =>
      unfold scoreKeyExists
      unfold findScore at hex ⊢
      show ((db.scores ++ _).find? (scoreFilter pid ou)).isSome
      rw [find?_append_none hex]
      simp [List.find?, scoreFilter]

theorem importScoreDim_noop (pid : Nat) (bd : List (String × ScoreBreakdownEntry))
    (db : DB) (ent : String × String × Int)
    (h : (bd.lookup ent.1).isSome → scoreKeyExists db pid ent.2.1) :
    importScoreDim pid bd db ent = db := by
  unfold importScoreDim
  rcases ent with ⟨sk, ou, w⟩
  cases hb : bd.lookup sk with
  | none => simp [hb]
  | some b =>
      have hex := h (by simp [hb])
      unfold scoreKeyExists at hex
      obtain ⟨s, hs⟩ := Option.isSome_iff_exists.mp hex
      simp only at hs
      simp [hb, hs]

theorem scoresFold_settles (pid : Nat) (bd : List (String × ScoreBreakdownEntry)) :
    ∀ (ents : List (String × String × Int)) (db : DB),
      ∀ ent ∈ ents, (bd.lookup ent.1).isSome →
        scoreKeyExists (ents.foldl (importScoreDim pid bd) db) pid ent.2.1 := by
  intro ents
  induction ents with
  | nil => intro db ent h; simp at h
  | cons e0 t ih =>
      intro db ent hent hl
      rw [List.foldl_cons]
      rcases List.mem_cons.mp hent with he | ht
      · subst he
        have h1 := importScoreDim_settles pid bd db ent hl
        have h2 := scoresFold_frame pid bd t (importScoreDim pid bd db ent)
        exact scoreKeyExists_mono h2.2.2 h1
      · exact ih (importScoreDim pid bd db e0) ent ht hl

theorem scoresFold_noop (pid : Nat) (bd : List (String × ScoreBreakdownEntry)) :
    ∀ (ents : List (String × String × Int)) (db : DB),
      (∀ ent ∈ ents, (bd.lookup ent.1).isSome → scoreKeyExists db pid ent.2.1) →
      ents.foldl (importScoreDim pid bd) db = db := by
  intro ents
  induction ents with
  | nil => intro db _; rfl
  | cons e0 t ih =>
      intro db h
      have hstep : importScoreDim pid bd db e0 = db :=
        importScoreDim_noop pid bd db e0 (h e0 (by simp))
      rw [List.foldl_cons, hstep]
      exact ih db (fun ent ht => h ent (List.mem_cons_of_mem _ ht))

theorem adMaybeImportScores_settles (db : DB) (pid : Nat) (r : ProspectDiscoveryData) :
    ∀ dim ∈ adScoreDims r, scoreKeyExists (adMaybeImportScores db pid r) pid dim := by
  unfold adMaybeImportScores adScoreDims
  cases hs : r.scoring with
  | none => simp
  | some sc =>
      by_cases ht : truthyL sc.score_breakdown
      · simp only [ht, if_true]
        intro dim hdim
        obtain ⟨ent, hent, hd⟩ := List.mem_filterMap.mp hdim
        by_cases hl : ((sc.score_breakdown.getD []).lookup ent.1).isSome
        · simp only [hl, if_true] at hd
          cases hd
          unfold _import_scores
          by_cases hemp : (sc.score_breakdown.getD []).isEmpty
          · exfalso
            have hnil : sc.score_breakdown.getD [] = [] := by simpa using hemp
            rw [hnil] at hl
            simp [List.lookup] at hl
          · simp only [hemp, Bool.false_eq_true, if_false]
            exact scoresFold_settles pid _ dimension_map db ent hent hl
        · simp [hl] at hd
      · simp [ht]

theorem adMaybeImportScores_noop (db : DB) (pid : Nat) (r : ProspectDiscoveryData)
    (h : ∀ dim ∈ adScoreDims r, scoreKeyExists db pid dim) :
    adMaybeImportScores db pid r = db := by
  unfold adMaybeImportScores
  unfold adScoreDims at h
  cases hs : r.scoring with
  | none => rfl
  | some sc =>
      rw [hs] at h
      by_cases ht : truthyL sc.score_breakdown
      · simp only [ht, if_true] at h ⊢
        unfold _import_scores
        by_cases hemp : (sc.score_breakdown.getD []).isEmpty
        · simp [hemp]
        · simp only [hemp, Bool.false_eq_true, if_false]
          apply scoresFold_noop
          intro ent hent hl
          apply h
          exact List.mem_filterMap.mpr ⟨ent, hent, by simp [hl]⟩
      · simp [ht]

/-! ## Combined effect of everything after prospect resolution -/

theorem adAfterProspect_spec (db : DB) (res : ImportResult) (pid : Nat)
    (r : ProspectDiscoveryData) :
    (adAfterProspect db res pid r).1.prospects = db.prospects ∧
    (∃ ex, (adAfterProspect db res pid r).1.contacts = db.contacts ++ ex) ∧
    (∃ ex, (adAfterProspect db res pid r).1.scores = db.scores ++ ex) ∧
    (adAfterProspect db res pid r).2.prospects_created = res.prospects_created ∧
    (adAfterProspect db res pid r).2.prospects_updated = res.prospects_updated ∧
    (adAfterProspect db res pid r).2.contacts_updated = res.contacts_updated ∧
    (adAfterProspect db res pid r).2.warnings = res.warnings ∧
    (adAfterProspect db res pid r).2.errors = res.errors ∧
    (∀ e ∈ adContactEmails r, contactKeyExists (adAfterProspect db res pid r).1 pid e) ∧
    (∀ dim ∈ adScoreDims r, scoreKeyExists (adAfterProspect db res pid r).1 pid dim) := by
  unfold adAfterProspect
  rcases h1 : adImportDM db { res with imported_ids := res.imported_ids ++ [pid] } pid r
    with ⟨db1, res1⟩
  have s1 := adImportDM_spec db { res with imported_ids := res.imported_ids ++ [pid] } pid r
  rw [h1] at s1
  obtain ⟨p1, sc1, ⟨cx1, c1⟩, pc1, pu1, cu1, w1, e1, _, k1⟩ := s1
  rcases h2 : (adSecondaries r).foldl (adImportSecondary pid) (db1, res1) with ⟨db2, res2⟩
  have s2 := adSecondariesFold_spec pid (adSecondaries r) db1 res1
  rw [h2] at s2
  obtain ⟨p2, sc2, ⟨cx2, c2⟩, pc2, pu2, cu2, w2, e2, _, k2⟩ := s2
  simp only [h1, h2]
  have hmf := adMaybeImportScores_frame
    (addActivity db2 pid "Imported from athletic-director-prospecting skill") pid r
  obtain ⟨mp, mc, ⟨sx3, ms⟩⟩ := hmf
  have hact : (addActivity db2 pid
      "Imported from athletic-director-prospecting skill").scores = db2.scores := rfl
  refine ⟨?_, ⟨cx1 ++ cx2, ?_⟩, ⟨sx3, ?_⟩, ?_, ?_, ?_, ?_, ?_, ?_, ?_⟩
  · rw [mp]
    show db2.prospects = db.prospects
    rw [p2, p1]
  · rw [mc]
    show db2.contacts = db.contacts ++ (cx1 ++ cx2)
    rw [c2, c1, List.append_assoc]
  · rw [ms, hact, sc2, sc1]
  · rw [pc2, pc1]
  · rw [pu2, pu1]
  · rw [cu2, cu1]
  · rw [w2, w1]
  · rw [e2, e1]
  · intro e he
    unfold adContactEmails at he
    have hcfin : (adMaybeImportScores
        (addActivity db2 pid "Imported from athletic-director-prospecting skill")
        pid r).contacts = db2.contacts := mc
    rcases List.mem_append.mp he with hdm | hsec
    · have hk : contactKeyExists db1 pid e := k1 e hdm
      have hk2 : contactKeyExists db2 pid e :=
        contactKeyExists_mono ⟨cx2, c2⟩ hk
      unfold contactKeyExists at hk2 ⊢
      unfold findContactByEmail at hk2 ⊢
      rw [hcfin]
      exact hk2
    · have hk : contactKeyExists db2 pid e := k2 e hsec
      unfold contactKeyExists at hk ⊢
      unfold findContactByEmail at hk ⊢
      rw [hcfin]
      exact hk
  · intro dim hdim
    exact adMaybeImportScores_settles _ pid r dim hdim

theorem adAfterProspect_noop (db : DB) (res : ImportResult) (pid : Nat)
    (r : ProspectDiscoveryData)
    (husable : allUsableAD r = true)
    (hcont : ∀ e ∈ adContactEmails r, contactKeyExists db pid e)
    (hdims : ∀ dim ∈ adScoreDims r, scoreKeyExists db pid dim) :
    (adAfterProspect db res pid r).1.prospects = db.prospects ∧
    (adAfterProspect db res pid r).1.contacts = db.contacts ∧
    (adAfterProspect db res pid r).1.scores = db.scores ∧
    (adAfterProspect db res pid r).2.prospects_created = res.prospects_created ∧
    (adAfterProspect db res pid r).2.prospects_updated = res.prospects_updated ∧
    (adAfterProspect db res pid r).2.contacts_created = res.contacts_created ∧
    (adAfterProspect db res pid r).2.contacts_updated = res.contacts_updated ∧
    (adAfterProspect db res pid r).2.warnings = res.warnings ∧
    (adAfterProspect db res pid r).2.errors = res.errors := by
  unfold adAfterProspect
  unfold allUsableAD at husable
  rw [Bool.and_eq_true] at husable
  obtain ⟨hu1, hu2⟩ := husable
  have h1 : adImportDM db { res with imported_ids := res.imported_ids ++ [pid] } pid r =
      (db, { res with imported_ids := res.imported_ids ++ [pid] }) := by
    apply adImportDM_noop _ _ _ _ hu1
    intro e he
    exact hcont e (List.mem_append_left _ he)
  have h2 : (adSecondaries r).foldl (adImportSecondary pid)
      (db, { res with imported_ids := res.imported_ids ++ [pid] }) =
      (db, { res with imported_ids := res.imported_ids ++ [pid] }) := by
    apply adSecondariesFold_noop
    · intro sc hsc
      exact List.all_eq_true.mp hu2 sc hsc
    · intro e he
      exact hcont e (List.mem_append_right _ he)
  have h3 : adMaybeImportScores
      (addActivity db pid "Imported from athletic-director-prospecting skill") pid r =
      addActivity db pid "Imported from athletic-director-prospecting skill" := by
    apply adMaybeImportScores_noop
    intro dim hdim
    exact hdims dim hdim
  simp only [h1, h2, h3]
  refine ⟨by trivial, by trivial, by trivial, by trivial, by trivial, by trivial,
    by trivial, by trivial, by trivial⟩

/-! ## Per-record lemmas for the athletic-director step -/

theorem findProspect_of_resolves {db : DB} {n : String} {k : Nat}
    (h : resolvesTo db n k) :
    ∃ e, findProspectByName db n = some e ∧ e.id = k := by
  rw [resolvesTo_iff] at h
  cases hf : findProspectByName db n with
  | none =>
      unfold findProspectByName at hf
      rw [hf] at h
      simp at h
  | some e =>
      unfold findProspectByName at hf
      rw [hf] at h
      simp at h
      exact ⟨e, rfl, h⟩

theorem prospectNameFilter_spec {n : String} {p : Prospect}
    (h : prospectNameFilter n p = true) : p.name = n ∧ p.deleted_at = none := by
  unfold prospectNameFilter at h
  rw [Bool.and_eq_true] at h
  constructor
  · have := h.1
    simpa using this
  · have := h.2
    simpa using this

theorem mergeProspect_pKey (e : Prospect) (d : ProspectDict) (t : Option String)
    (hr : Bool) (hname : e.name = d.name) :
    pKey (mergeProspect e d t hr) = pKey e := by
  unfold pKey mergeProspect
  simp [hname]

theorem updateProspect_keys {db : DB} {n : String} {p' e : Prospect}
    (hf : findProspectByName db n = some e) (hk : pKey p' = pKey e) :
    prospectKeys (updateProspectByName db n p') = prospectKeys db := by
  unfold prospectKeys updateProspectByName
  exact map_replaceFirstBy pKey _ p' db.prospects e hf hk

theorem resolvesTo_of_eq {db db' : DB} (h : db'.prospects = db.prospects)
    {n : String} {k : Nat} (hr : resolvesTo db n k) : resolvesTo db' n k := by
  unfold resolvesTo prospectKeys
  rw [h]
  exact hr

theorem contactKeyExists_of_eq {db db' : DB} (h : db'.contacts = db.contacts)
    {pid : Nat} {e : String} (hc : contactKeyExists db pid e) :
    contactKeyExists db' pid e := by
  unfold contactKeyExists findContactByEmail at hc ⊢
  rw [h]
  exact hc

theorem scoreKeyExists_of_eq {db db' : DB} (h : db'.scores = db.scores)
    {pid : Nat} {dim : String} (hs : scoreKeyExists db pid dim) :
    scoreKeyExists db' pid dim := by
  unfold scoreKeyExists findScore at hs ⊢
  rw [h]
  exact hs

theorem resolvesTo_append {db db' : DB} {n : String} {p : Prospect}
    (hf : findProspectByName db n = none)
    (h' : db'.prospects = db.prospects ++ [p])
    (hname : p.name = n) (hdel : p.deleted_at = none) :
    resolvesTo db' n p.id := by
  rw [resolvesTo_iff]
  unfold findProspectByName at hf
  rw [h', find?_append_none hf]
  have hp : prospectNameFilter n p = true := by
    unfold prospectNameFilter
    simp [hname, hdel]
  simp [List.find?, hp]

theorem adStep_noop (db : DB) (res : ImportResult) (r : ProspectDiscoveryData)
    (hs : settledAD db r) (hu : allUsableAD r = true) :
    prospectKeys (adStep (db, res) r).1 = prospectKeys db ∧
    (adStep (db, res) r).1.contacts = db.contacts ∧
    (adStep (db, res) r).1.scores = db.scores ∧
    (adStep (db, res) r).2.prospects_created = res.prospects_created ∧
    (adStep (db, res) r).2.contacts_created = res.contacts_created ∧
    (adStep (db, res) r).2.contacts_updated = res.contacts_updated ∧
    (adStep (db, res) r).2.warnings = res.warnings ∧
    (adStep (db, res) r).2.errors = res.errors := by
  obtain ⟨k, hres, hcont, hdims⟩ := hs
  obtain ⟨e, hf, hek⟩ := findProspect_of_resolves hres
  subst hek
  unfold adStep
  simp only [hf]
  have hname : e.name = (adProspectDict r).name :=
    (prospectNameFilter_spec (List.find?_some hf)).1
  have hkeys : prospectKeys (updateProspectByName db r.institution.name
      (mergeProspect e (adProspectDict r) (map_tier (adTierStr r))
        (truthyS (adConstraintHypothesis r)))) = prospectKeys db :=
    updateProspect_keys hf (mergeProspect_pKey e _ _ _ hname)
  have hAP := adAfterProspect_noop
    (updateProspectByName db r.institution.name
      (mergeProspect e (adProspectDict r) (map_tier (adTierStr r))
        (truthyS (adConstraintHypothesis r))))
    { res with prospects_updated := res.prospects_updated + 1 }
    (mergeProspect e (adProspectDict r) (map_tier (adTierStr r))
      (truthyS (adConstraintHypothesis r))).id
    r hu (fun e' he' => hcont e' he') (fun d hd => hdims d hd)
  obtain ⟨ap, ac, asc, apc, apu, acc, acu, aw, ae⟩ := hAP
  refine ⟨?_, ?_, ?_, ?_, ?_, ?_, ?_, ?_⟩
  · unfold prospectKeys at hkeys ⊢
    rw [ap]
    exact hkeys
  · exact ac
  · exact asc
  · rw [apc]
  · rw [acc]
  · rw [acu]
  · rw [aw]
  · rw [ae]

theorem adStep_settles (db : DB) (res : ImportResult) (r : ProspectDiscoveryData) :
    settledAD (adStep (db, res) r).1 r := by
  unfold adStep
  cases hf : findProspectByName db r.institution.name with
  | some e =>
      simp only [hf]
      have hname : e.name = (adProspectDict r).name :=
        (prospectNameFilter_spec (List.find?_some hf)).1
      have hkeys := updateProspect_keys hf
        (mergeProspect_pKey e (adProspectDict r) (map_tier (adTierStr r))
          (truthyS (adConstraintHypothesis r)) hname)
      have hAP := adAfterProspect_spec
        (updateProspectByName db r.institution.name
          (mergeProspect e (adProspectDict r) (map_tier (adTierStr r))
            (truthyS (adConstraintHypothesis r))))
        { res with prospects_updated := res.prospects_updated + 1 }
        (mergeProspect e (adProspectDict r) (map_tier (adTierStr r))
          (truthyS (adConstraintHypothesis r))).id r
      obtain ⟨ap, _, _, _, _, _, _, _, hk, hd⟩ := hAP
      refine ⟨e.id, ?_, hk, hd⟩
      have h1 : resolvesTo db r.institution.name e.id := resolvesTo_of_find hf
      apply resolvesTo_of_eq ap
      unfold resolvesTo
      unfold resolvesTo at h1
      rw [hkeys]
      exact h1
  | none =>
      simp only [hf]
      have hAP := adAfterProspect_spec
        { db with
            prospects := db.prospects ++
                [newProspectFromDict db.nextId (adProspectDict r) (map_tier (adTierStr r))
                  (truthyS (adConstraintHypothesis r))],
            nextId := db.nextId + 1 }
        { res with prospects_created := res.prospects_created + 1 }
        (newProspectFromDict db.nextId (adProspectDict r) (map_tier (adTierStr r))
          (truthyS (adConstraintHypothesis r))).id r
      obtain ⟨ap, _, _, _, _, _, _, _, hk, hd⟩ := hAP
      refine ⟨(newProspectFromDict db.nextId (adProspectDict r) (map_tier (adTierStr r))
        (truthyS (adConstraintHypothesis r))).id, ?_, hk, hd⟩
      apply resolvesTo_of_eq ap
      refine resolvesTo_append hf ?_ ?_ ?_ <;> rfl

theorem adStep_grow (db : DB) (res : ImportResult) (r : ProspectDiscoveryData) :
    dbGrow db (adStep (db, res) r).1 := by
  unfold adStep
  cases hf : findProspectByName db r.institution.name with
  | some e =>
      simp only [hf]
      have hname : e.name = (adProspectDict r).name :=
        (prospectNameFilter_spec (List.find?_some hf)).1
      have hkeys := updateProspect_keys hf
        (mergeProspect_pKey e (adProspectDict r) (map_tier (adTierStr r))
          (truthyS (adConstraintHypothesis r)) hname)
      have hAP := adAfterProspect_spec
        (updateProspectByName db r.institution.name
          (mergeProspect e (adProspectDict r) (map_tier (adTierStr r))
            (truthyS (adConstraintHypothesis r))))
        { res with prospects_updated := res.prospects_updated + 1 }
        (mergeProspect e (adProspectDict r) (map_tier (adTierStr r))
          (truthyS (adConstraintHypothesis r))).id r
      obtain ⟨ap, ⟨cx, hc⟩, ⟨sx, hsx⟩, _⟩ := hAP
      refine ⟨⟨[], ?_⟩, ⟨cx, hc⟩, ⟨sx, hsx⟩⟩
      unfold prospectKeys at hkeys ⊢
      rw [ap, hkeys]
      simp
  | none =>
      simp only [hf]
      have hAP := adAfterProspect_spec
        { db with
            prospects := db.prospects ++
                [newProspectFromDict db.nextId (adProspectDict r) (map_tier (adTierStr r))
                  (truthyS (adConstraintHypothesis r))],
            nextId := db.nextId + 1 }
        { res with prospects_created := res.prospects_created + 1 }
        (newProspectFromDict db.nextId (adProspectDict r) (map_tier (adTierStr r))
          (truthyS (adConstraintHypothesis r))).id r
      obtain ⟨ap, ⟨cx, hc⟩, ⟨sx, hsx⟩, _⟩ := hAP
      refine ⟨⟨[pKey (newProspectFromDict db.nextId (adProspectDict r)
        (map_tier (adTierStr r)) (truthyS (adConstraintHypothesis r)))], ?_⟩,
        ⟨cx, hc⟩, ⟨sx, hsx⟩⟩
      unfold prospectKeys
      rw [ap]
      simp

theorem adStep_result_frame (db : DB) (res : ImportResult) (r : ProspectDiscoveryData) :
    (adStep (db, res) r).2.contacts_updated = res.contacts_updated ∧
    (adStep (db, res) r).2.warnings = res.warnings ∧
    (adStep (db, res) r).2.errors = res.errors := by
  unfold adStep
  cases hf : findProspectByName db r.institution.name with
  | some e =>
      simp only [hf]
      have hAP := adAfterProspect_spec
        (updateProspectByName db r.institution.name
          (mergeProspect e (adProspectDict r) (map_tier (adTierStr r))
            (truthyS (adConstraintHypothesis r))))
        { res with prospects_updated := res.prospects_updated + 1 }
        (mergeProspect e (adProspectDict r) (map_tier (adTierStr r))
          (truthyS (adConstraintHypothesis r))).id r
      exact ⟨hAP.2.2.2.2.2.1, hAP.2.2.2.2.2.2.1, hAP.2.2.2.2.2.2.2.1⟩
  | none =>
      simp only [hf]
      have hAP := adAfterProspect_spec
        { db with
            prospects := db.prospects ++
                [newProspectFromDict db.nextId (adProspectDict r) (map_tier (adTierStr r))
                  (truthyS (adConstraintHypothesis r))],
            nextId := db.nextId + 1 }
        { res with prospects_created := res.prospects_created + 1 }
        (newProspectFromDict db.nextId (adProspectDict r) (map_tier (adTierStr r))
          (truthyS (adConstraintHypothesis r))).id r
      exact ⟨hAP.2.2.2.2.2.1, hAP.2.2.2.2.2.2.1, hAP.2.2.2.2.2.2.2.1⟩

theorem adStep_resolution (db : DB) (res : ImportResult) (r : ProspectDiscoveryData) :
    (∀ e, findProspectByName db r.institution.name = some e →
        (adStep (db, res) r).1.prospects.length = db.prospects.length ∧
        (adStep (db, res) r).2.prospects_created = res.prospects_created ∧
        (adStep (db, res) r).2.prospects_updated = res.prospects_updated + 1) ∧
    (findProspectByName db r.institution.name = none →
        (adStep (db, res) r).1.prospects.length = db.prospects.length + 1 ∧
        (adStep (db, res) r).2.prospects_created = res.prospects_created + 1 ∧
        (adStep (db, res) r).2.prospects_updated = res.prospects_updated) := by
  constructor
  · intro e hf
    unfold adStep
    simp only [hf]
    have hAP := adAfterProspect_spec
      (updateProspectByName db r.institution.name
        (mergeProspect e (adProspectDict r) (map_tier (adTierStr r))
          (truthyS (adConstraintHypothesis r))))
      { res with prospects_updated := res.prospects_updated + 1 }
      (mergeProspect e (adProspectDict r) (map_tier (adTierStr r))
        (truthyS (adConstraintHypothesis r))).id r
    refine ⟨?_, ?_, ?_⟩
    · rw [hAP.1]
      unfold updateProspectByName
      exact replaceFirstBy_length _ _ _
    · rw [hAP.2.2.2.1]
    · rw [hAP.2.2.2.2.1]
  · intro hf
    unfold adStep
    simp only [hf]
    have hAP := adAfterProspect_spec
      { db with
          prospects := db.prospects ++
              [newProspectFromDict db.nextId (adProspectDict r) (map_tier (adTierStr r))
                (truthyS (adConstraintHypothesis r))],
          nextId := db.nextId + 1 }
      { res with prospects_created := res.prospects_created + 1 }
      (newProspectFromDict db.nextId (adProspectDict r) (map_tier (adTierStr r))
        (truthyS (adConstraintHypothesis r))).id r
    refine ⟨?_, ?_, ?_⟩
    · rw [hAP.1]
      simp
    · rw [hAP.2.2.2.1]
    · rw [hAP.2.2.2.2.1]

/-! ## Whole-run lemmas for the athletic-director importer -/

theorem adFold_grow :
    ∀ (doc : List ProspectDiscoveryData) (s : DB × ImportResult),
      dbGrow s.1 ((doc.foldl adStep s).1) := by
  intro doc
  induction doc with
  | nil => intro s; exact dbGrow_refl s.1
  | cons r t ih =>
      intro s
      rw [List.foldl_cons]
      have h1 : dbGrow s.1 (adStep s r).1 := by
        rcases s with ⟨db, res⟩
        exact adStep_grow db res r
      exact dbGrow_trans h1 (ih (adStep s r))

theorem adFold_settles :
    ∀ (doc : List ProspectDiscoveryData) (s : DB × ImportResult),
      ∀ r0 ∈ doc, settledAD ((doc.foldl adStep s).1) r0 := by
  intro doc
  induction doc with
  | nil => intro s r0 h; simp at h
  | cons r t ih =>
      intro s r0 h0
      rw [List.foldl_cons]
      rcases List.mem_cons.mp h0 with he | ht
      · subst he
        have h1 : settledAD (adStep s r0).1 r0 := by
          rcases s with ⟨db, res⟩
          exact adStep_settles db res r0
        exact settledAD_mono (adFold_grow t (adStep s r0)) h1
      · exact ih (adStep s r) r0 ht

theorem adFold_noop :
    ∀ (doc : List ProspectDiscoveryData) (s : DB × ImportResult),
      (∀ r ∈ doc, settledAD s.1 r ∧ allUsableAD r = true) →
      prospectKeys ((doc.foldl adStep s).1) = prospectKeys s.1 ∧
      ((doc.foldl adStep s).1).contacts = s.1.contacts ∧
      ((doc.foldl adStep s).1).scores = s.1.scores ∧
      ((doc.foldl adStep s).2).prospects_created = s.2.prospects_created ∧
      ((doc.foldl adStep s).2).contacts_created = s.2.contacts_created ∧
      ((doc.foldl adStep s).2).contacts_updated = s.2.contacts_updated ∧
      ((doc.foldl adStep s).2).warnings = s.2.warnings ∧
      ((doc.foldl adStep s).2).errors = s.2.errors := by
  intro doc
  induction doc with
  | nil => intro s _; exact ⟨rfl, rfl, rfl, rfl, rfl, rfl, rfl, rfl⟩
  | cons r t ih =>
      intro s h
      rw [List.foldl_cons]
      rcases s with ⟨db, res⟩
      have hr := h r (by simp)
      have hstep := adStep_noop db res r hr.1 hr.2
      have hset : ∀ r' ∈ t, settledAD (adStep (db, res) r).1 r' ∧ allUsableAD r' = true := by
        intro r' hr'
        have hh := h r' (by simp [hr'])
        refine ⟨?_, hh.2⟩
        obtain ⟨k, h1, h2, h3⟩ := hh.1
        refine ⟨k, ?_, ?_, ?_⟩
        · unfold resolvesTo at h1 ⊢
          rw [hstep.1]
          exact h1
        · intro e he
          exact contactKeyExists_of_eq hstep.2.1 (h2 e he)
        · intro d hd
          exact scoreKeyExists_of_eq hstep.2.2.1 (h3 d hd)
      have hrest := ih (adStep (db, res) r) hset
      exact ⟨hrest.1.trans hstep.1,
        hrest.2.1.trans hstep.2.1,
        hrest.2.2.1.trans hstep.2.2.1,
        hrest.2.2.2.1.trans hstep.2.2.2.1,
        hrest.2.2.2.2.1.trans hstep.2.2.2.2.1,
        hrest.2.2.2.2.2.1.trans hstep.2.2.2.2.2.1,
        hrest.2.2.2.2.2.2.1.trans hstep.2.2.2.2.2.2.1,
        hrest.2.2.2.2.2.2.2.trans hstep.2.2.2.2.2.2.2⟩

/-- Re-import idempotence of the athletic-director variant: the second run
of the same document reports prospects_created = 0 and
contacts_created = 0, leaves the contacts and scores tables unchanged,
keeps contacts_updated = 0 (this variant never updates contacts), and
accumulates no errors or warnings, provided every imported contact
carries a usable (non-placeholder) email. -/
theorem ad_reimport_idempotent (db : DB) (doc : List ProspectDiscoveryData)
    (h : ∀ r ∈ doc, allUsableAD r = true) :
    (import_athletic_director_prospects
        (import_athletic_director_prospects db doc).1 doc).2.prospects_created = 0 ∧
    (import_athletic_director_prospects
        (import_athletic_director_prospects db doc).1 doc).2.contacts_created = 0 ∧
    (import_athletic_director_prospects
        (import_athletic_director_prospects db doc).1 doc).2.contacts_updated = 0 ∧
    (import_athletic_director_prospects
        (import_athletic_director_prospects db doc).1 doc).1.contacts =
      (import_athletic_director_prospects db doc).1.contacts ∧
    (import_athletic_director_prospects
        (import_athletic_director_prospects db doc).1 doc).1.scores =
      (import_athletic_director_prospects db doc).1.scores ∧
    (import_athletic_director_prospects
        (import_athletic_director_prospects db doc).1 doc).2.errors = [] ∧
    (import_athletic_director_prospects
        (import_athletic_director_prospects db doc).1 doc).2.warnings = [] := by
  unfold import_athletic_director_prospects
  have hsettled := adFold_settles doc
    (db, { success := true, skill_type := "athletic-director-prospecting" })
  have hno := adFold_noop doc
    ((doc.foldl adStep
        (db, { success := true, skill_type := "athletic-director-prospecting" })).1,
      { success := true, skill_type := "athletic-director-prospecting" })
    (fun r hr => ⟨hsettled r hr, h r hr⟩)
  exact ⟨hno.2.2.2.1, hno.2.2.2.2.1, hno.2.2.2.2.2.1, hno.2.1, hno.2.2.1,
    hno.2.2.2.2.2.2.2, hno.2.2.2.2.2.2.1⟩

/-- C2 amended: in the athletic-director merge, the fields whose incoming
dict value can be null (city, conference, enrollment, stadium name,
lighting age, tier, ICP score, constraint hypothesis, value proposition,
research notes) are left unchanged when the incoming value is absent and
overwritten when it is present; but name, venue type, state, lighting
type, broadcast requirements, source and status are always overwritten,
and the three total normalizers turn an absent input into the sentinels
OTHER, unknown and none, so those stored fields are overwritten with a
default rather than preserved (see the counterexample). -/
theorem merge_non_destruction_amended (e : Prospect) (d : ProspectDict)
    (t : Option String) (hr : Bool) :
    ((d.city = none → (mergeProspect e d t hr).city = e.city) ∧
     (∀ v, d.city = some v → (mergeProspect e d t hr).city = some v)) ∧
    ((d.conference = none → (mergeProspect e d t hr).conference = e.conference) ∧
     (∀ v, d.conference = some v → (mergeProspect e d t hr).conference = some v)) ∧
    ((d.enrollment = none → (mergeProspect e d t hr).enrollment = e.enrollment) ∧
     (∀ v, d.enrollment = some v → (mergeProspect e d t hr).enrollment = some v)) ∧
    ((d.stadium_name = none → (mergeProspect e d t hr).stadium_name = e.stadium_name) ∧
     (∀ v, d.stadium_name = some v → (mergeProspect e d t hr).stadium_name = some v)) ∧
    ((d.current_lighting_age_years = none → (mergeProspect e d t hr).current_lighting_age_years = e.current_lighting_age_years) ∧
     (∀ v, d.current_lighting_age_years = some v → (mergeProspect e d t hr).current_lighting_age_years = some v)) ∧
    ((d.tier = none → (mergeProspect e d t hr).tier = e.tier) ∧
     (∀ v, d.tier = some v → (mergeProspect e d t hr).tier = some v)) ∧
    ((d.icp_score = none → (mergeProspect e d t hr).icp_score = e.icp_score) ∧
     (∀ v, d.icp_score = some v → (mergeProspect e d t hr).icp_score = some v)) ∧
    ((d.constraint_hypothesis = none → (mergeProspect e d t hr).constraint_hypothesis = e.constraint_hypothesis) ∧
     (∀ v, d.constraint_hypothesis = some v → (mergeProspect e d t hr).constraint_hypothesis = some v)) ∧
    ((d.value_proposition = none → (mergeProspect e d t hr).value_proposition = e.value_proposition) ∧
     (∀ v, d.value_proposition = some v → (mergeProspect e d t hr).value_proposition = some v)) ∧
    ((d.research_notes = none → (mergeProspect e d t hr).research_notes = e.research_notes) ∧
     (∀ v, d.research_notes = some v → (mergeProspect e d t hr).research_notes = some v)) ∧
    (mergeProspect e d t hr).name = d.name ∧
    (mergeProspect e d t hr).venue_type = d.venue_type ∧
    (mergeProspect e d t hr).state = d.state ∧
    (mergeProspect e d t hr).current_lighting_type = some d.current_lighting_type ∧
    (mergeProspect e d t hr).broadcast_requirements = some d.broadcast_requirements ∧
    (mergeProspect e d t hr).source = some d.source ∧
    (mergeProspect e d t hr).status = calculate_status_from_tier t hr ∧
    map_state none = "OTHER" ∧
    map_lighting_type none = "unknown" ∧
    map_broadcast_requirements none = "none" := by
  exact ⟨⟨fun h => by simp [mergeProspect, h], fun v h => by simp [mergeProspect, h]⟩,
    ⟨fun h => by simp [mergeProspect, h], fun v h => by simp [mergeProspect, h]⟩,
    ⟨fun h => by simp [mergeProspect, h], fun v h => by simp [mergeProspect, h]⟩,
    ⟨fun h => by simp [mergeProspect, h], fun v h => by simp [mergeProspect, h]⟩,
    ⟨fun h => by simp [mergeProspect, h], fun v h => by simp [mergeProspect, h]⟩,
    ⟨fun h => by simp [mergeProspect, h], fun v h => by simp [mergeProspect, h]⟩,
    ⟨fun h => by simp [mergeProspect, h], fun v h => by simp [mergeProspect, h]⟩,
    ⟨fun h => by simp [mergeProspect, h], fun v h => by simp [mergeProspect, h]⟩,
    ⟨fun h => by simp [mergeProspect, h], fun v h => by simp [mergeProspect, h]⟩,
    ⟨fun h => by simp [mergeProspect, h], fun v h => by simp [mergeProspect, h]⟩,
    rfl,
    rfl,
    rfl,
    rfl,
    rfl,
    rfl,
    rfl,
    by decide,
    by decide,
    by decide⟩

/-- Witness for the amended C2: every absent-field hypothesis discharged on
a bare record against a fully populated stored prospect, and every
present-field hypothesis discharged on a fully populated record. -/
theorem merge_non_destruction_amended_witness :
    (mergeProspect prospectOH (adProspectDict recLakewoodBare) none false).city = prospectOH.city ∧
    (mergeProspect prospectOH (adProspectDict recFull) (some "A1") true).city = some "Columbus" ∧
    (mergeProspect prospectOH (adProspectDict recLakewoodBare) none false).conference = prospectOH.conference ∧
    (mergeProspect prospectOH (adProspectDict recFull) (some "A1") true).conference = some "OCC" ∧
    (mergeProspect prospectOH (adProspectDict recLakewoodBare) none false).enrollment = prospectOH.enrollment ∧
    (mergeProspect prospectOH (adProspectDict recFull) (some "A1") true).enrollment = some 1200 ∧
    (mergeProspect prospectOH (adProspectDict recLakewoodBare) none false).stadium_name = prospectOH.stadium_name ∧
    (mergeProspect prospectOH (adProspectDict recFull) (some "A1") true).stadium_name = some "North Stadium" ∧
    (mergeProspect prospectOH (adProspectDict recLakewoodBare) none false).current_lighting_age_years = prospectOH.current_lighting_age_years ∧
    (mergeProspect prospectOH (adProspectDict recFull) (some "A1") true).current_lighting_age_years = some 12 ∧
    (mergeProspect prospectOH (adProspectDict recLakewoodBare) none false).tier = prospectOH.tier ∧
    (mergeProspect prospectOH (adProspectDict recFull) (some "A1") true).tier = some "A1" ∧
    (mergeProspect prospectOH (adProspectDict recLakewoodBare) none false).icp_score = prospectOH.icp_score ∧
    (mergeProspect prospectOH (adProspectDict recFull) (some "A1") true).icp_score = some 80 ∧
    (mergeProspect prospectOH (adProspectDict recLakewoodBare) none false).constraint_hypothesis = prospectOH.constraint_hypothesis ∧
    (mergeProspect prospectOH (adProspectDict recFull) (some "A1") true).constraint_hypothesis = some "needs LED" ∧
    (mergeProspect prospectOH (adProspectDict recLakewoodBare) none false).value_proposition = prospectOH.value_proposition ∧
    (mergeProspect prospectOH (adProspectDict recFull) (some "A1") true).value_proposition = some "big retrofit" ∧
    (mergeProspect prospectOH (adProspectDict recLakewoodBare) none false).research_notes = prospectOH.research_notes ∧
    (mergeProspect prospectOH (adProspectDict recFull) (some "A1") true).research_notes = some "Key Assumptions:\n- district funding" :=
  ⟨(merge_non_destruction_amended prospectOH (adProspectDict recLakewoodBare) none false).1.1 (by decide),
   (merge_non_destruction_amended prospectOH (adProspectDict recFull) (some "A1") true).1.2 "Columbus" (by decide),
   (merge_non_destruction_amended prospectOH (adProspectDict recLakewoodBare) none false).2.1.1 (by decide),
   (merge_non_destruction_amended prospectOH (adProspectDict recFull) (some "A1") true).2.1.2 "OCC" (by decide),
   (merge_non_destruction_amended prospectOH (adProspectDict recLakewoodBare) none false).2.2.1.1 (by decide),
   (merge_non_destruction_amended prospectOH (adProspectDict recFull) (some "A1") true).2.2.1.2 1200 (by decide),
   (merge_non_destruction_amended prospectOH (adProspectDict recLakewoodBare) none false).2.2.2.1.1 (by decide),
   (merge_non_destruction_amended prospectOH (adProspectDict recFull) (some "A1") true).2.2.2.1.2 "North Stadium" (by decide),
   (merge_non_destruction_amended prospectOH (adProspectDict recLakewoodBare) none false).2.2.2.2.1.1 (by decide),
   (merge_non_destruction_amended prospectOH (adProspectDict recFull) (some "A1") true).2.2.2.2.1.2 12 (by decide),
   (merge_non_destruction_amended prospectOH (adProspectDict recLakewoodBare) none false).2.2.2.2.2.1.1 (by decide),
   (merge_non_destruction_amended prospectOH (adProspectDict recFull) (some "A1") true).2.2.2.2.2.1.2 "A1" (by decide),
   (merge_non_destruction_amended prospectOH (adProspectDict recLakewoodBare) none false).2.2.2.2.2.2.1.1 (by decide),
   (merge_non_destruction_amended prospectOH (adProspectDict recFull) (some "A1") true).2.2.2.2.2.2.1.2 80 (by decide),
   (merge_non_destruction_amended prospectOH (adProspectDict recLakewoodBare) none false).2.2.2.2.2.2.2.1.1 (by decide),
   (merge_non_destruction_amended prospectOH (adProspectDict recFull) (some "A1") true).2.2.2.2.2.2.2.1.2 "needs LED" (by decide),
   (merge_non_destruction_amended prospectOH (adProspectDict recLakewoodBare) none false).2.2.2.2.2.2.2.2.1.1 (by decide),
   (merge_non_destruction_amended prospectOH (adProspectDict recFull) (some "A1") true).2.2.2.2.2.2.2.2.1.2 "big retrofit" (by decide),
   (merge_non_destruction_amended prospectOH (adProspectDict recLakewoodBare) none false).2.2.2.2.2.2.2.2.2.1.1 (by decide),
   (merge_non_destruction_amended prospectOH (adProspectDict recFull) (some "A1") true).2.2.2.2.2.2.2.2.2.1.2 "Key Assumptions:\n- district funding" (by decide)⟩

/-! ## Fold frames for the contact loops of the contact-finder variants -/

theorem enrichFold_pframe (pid : Nat) (pcn : Option String)
    (l : List EnrichedContact) (s : DB × ImportResult) :
    (l.foldl (enrichImportContact pid pcn) s).1.prospects = s.1.prospects ∧
    (l.foldl (enrichImportContact pid pcn) s).2.prospects_created = s.2.prospects_created ∧
    (l.foldl (enrichImportContact pid pcn) s).2.prospects_updated = s.2.prospects_updated ∧
    (l.foldl (enrichImportContact pid pcn) s).2.warnings = s.2.warnings ∧
    (l.foldl (enrichImportContact pid pcn) s).2.errors = s.2.errors := by
  refine ⟨foldl_proj_eq (fun st => st.1.prospects) _ ?_ l s,
    foldl_proj_eq (fun st => st.2.prospects_created) _ ?_ l s,
    foldl_proj_eq (fun st => st.2.prospects_updated) _ ?_ l s,
    foldl_proj_eq (fun st => st.2.warnings) _ ?_ l s,
    foldl_proj_eq (fun st => st.2.errors) _ ?_ l s⟩ <;>
  · intro st c
    rcases st with ⟨db, res⟩
    have h := enrichImportContact_frame pid pcn db res c
    tauto

theorem directSecFold_pframe (pid : Nat)
    (l : List ContactFinderSecondaryContact) (s : DB × ImportResult) :
    (l.foldl (directImportSecondary pid) s).1.prospects = s.1.prospects ∧
    (l.foldl (directImportSecondary pid) s).2.prospects_created = s.2.prospects_created ∧
    (l.foldl (directImportSecondary pid) s).2.prospects_updated = s.2.prospects_updated ∧
    (l.foldl (directImportSecondary pid) s).2.warnings = s.2.warnings ∧
    (l.foldl (directImportSecondary pid) s).2.errors = s.2.errors := by
  refine ⟨foldl_proj_eq (fun st => st.1.prospects) _ ?_ l s,
    foldl_proj_eq (fun st => st.2.prospects_created) _ ?_ l s,
    foldl_proj_eq (fun st => st.2.prospects_updated) _ ?_ l s,
    foldl_proj_eq (fun st => st.2.warnings) _ ?_ l s,
    foldl_proj_eq (fun st => st.2.errors) _ ?_ l s⟩ <;>
  · intro st c
    rcases st with ⟨db, res⟩
    have h := directImportSecondary_frame pid db res c
    tauto

theorem cfpSecFold_pframe (pid : Nat)
    (l : List ContactFinderNestedSecondary) (s : DB × ImportResult) :
    (l.foldl (cfpImportSecondary pid) s).1.prospects = s.1.prospects ∧
    (l.foldl (cfpImportSecondary pid) s).2.prospects_created = s.2.prospects_created ∧
    (l.foldl (cfpImportSecondary pid) s).2.prospects_updated = s.2.prospects_updated ∧
    (l.foldl (cfpImportSecondary pid) s).2.warnings = s.2.warnings ∧
    (l.foldl (cfpImportSecondary pid) s).2.errors = s.2.errors := by
  refine ⟨foldl_proj_eq (fun st => st.1.prospects) _ ?_ l s,
    foldl_proj_eq (fun st => st.2.prospects_created) _ ?_ l s,
    foldl_proj_eq (fun st => st.2.prospects_updated) _ ?_ l s,
    foldl_proj_eq (fun st => st.2.warnings) _ ?_ l s,
    foldl_proj_eq (fun st => st.2.errors) _ ?_ l s⟩ <;>
  · intro st c
    rcases st with ⟨db, res⟩
    have h := cfpImportSecondary_frame pid db res c
    tauto

theorem flatFold_pframe (pid : Nat) (pcn : Option String)
    (l : List ContactFinderFlatContact) (s : DB × ImportResult) :
    (l.foldl (flatImportContact pid pcn) s).1.prospects = s.1.prospects ∧
    (l.foldl (flatImportContact pid pcn) s).2.prospects_created = s.2.prospects_created ∧
    (l.foldl (flatImportContact pid pcn) s).2.prospects_updated = s.2.prospects_updated ∧
    (l.foldl (flatImportContact pid pcn) s).2.warnings = s.2.warnings ∧
    (l.foldl (flatImportContact pid pcn) s).2.errors = s.2.errors := by
  refine ⟨foldl_proj_eq (fun st => st.1.prospects) _ ?_ l s,
    foldl_proj_eq (fun st => st.2.prospects_created) _ ?_ l s,
    foldl_proj_eq (fun st => st.2.prospects_updated) _ ?_ l s,
    foldl_proj_eq (fun st => st.2.warnings) _ ?_ l s,
    foldl_proj_eq (fun st => st.2.errors) _ ?_ l s⟩ <;>
  · intro st c
    rcases st with ⟨db, res⟩
    have h := flatImportContact_frame pid pcn db res c
    tauto

/-! ## After-prospect frames and per-record resolution behavior of the
contact-finder variants -/

theorem enrichAfterProspect_pframe (db : DB) (res : ImportResult) (pid : Nat)
    (e : EnrichedProspect) :
    (enrichAfterProspect db res pid e).1.prospects = db.prospects ∧
    (enrichAfterProspect db res pid e).2.prospects_created = res.prospects_created ∧
    (enrichAfterProspect db res pid e).2.prospects_updated = res.prospects_updated ∧
    (enrichAfterProspect db res pid e).2.warnings = res.warnings ∧
    (enrichAfterProspect db res pid e).2.errors = res.errors := by
  unfold enrichAfterProspect
  rcases hfold : e.contacts.foldl (enrichImportContact pid (enrichPrimaryName e))
    (db, { res with imported_ids := res.imported_ids ++ [pid] }) with ⟨db2, res2⟩
  have h := enrichFold_pframe pid (enrichPrimaryName e) e.contacts
    (db, { res with imported_ids := res.imported_ids ++ [pid] })
  rw [hfold] at h
  simp only [hfold]
  exact ⟨h.1, h.2.1, h.2.2.1, h.2.2.2.1, h.2.2.2.2⟩

theorem directPrimaryPhase_pframe (pid : Nat) (s : DB × ImportResult)
    (opc : Option ContactFinderPrimaryContact) :
    (match opc with
      | some pc => directImportPrimary pid s pc
      | none => s).1.prospects = s.1.prospects ∧
    (match opc with
      | some pc => directImportPrimary pid s pc
      | none => s).2.prospects_created = s.2.prospects_created ∧
    (match opc with
      | some pc => directImportPrimary pid s pc
      | none => s).2.prospects_updated = s.2.prospects_updated ∧
    (match opc with
      | some pc => directImportPrimary pid s pc
      | none => s).2.warnings = s.2.warnings ∧
    (match opc with
      | some pc => directImportPrimary pid s pc
      | none => s).2.errors = s.2.errors := by
  cases opc with
  | none => exact ⟨rfl, rfl, rfl, rfl, rfl⟩
  | some pc =>
      rcases s with ⟨db, res⟩
      have h := directImportPrimary_frame pid db res pc
      exact ⟨h.1, h.2.2.1, h.2.2.2.1, h.2.2.2.2.1, h.2.2.2.2.2⟩

theorem directSecPhase_pframe (pid : Nat) (s : DB × ImportResult)
    (oscs : Option (List ContactFinderSecondaryContact)) :
    (match oscs with
      | some scs => scs.foldl (directImportSecondary pid) s
      | none => s).1.prospects = s.1.prospects ∧
    (match oscs with
      | some scs => scs.foldl (directImportSecondary pid) s
      | none => s).2.prospects_created = s.2.prospects_created ∧
    (match oscs with
      | some scs => scs.foldl (directImportSecondary pid) s
      | none => s).2.prospects_updated = s.2.prospects_updated ∧
    (match oscs with
      | some scs => scs.foldl (directImportSecondary pid) s
      | none => s).2.warnings = s.2.warnings ∧
    (match oscs with
      | some scs => scs.foldl (directImportSecondary pid) s
      | none => s).2.errors = s.2.errors := by
  cases oscs with
  | none => exact ⟨rfl, rfl, rfl, rfl, rfl⟩
  | some scs => exact directSecFold_pframe pid scs s

theorem directAfterProspect_pframe (db : DB) (res : ImportResult) (pid : Nat)
    (r : ContactFinderProspect) :
    (directAfterProspect db res pid r).1.prospects = db.prospects ∧
    (directAfterProspect db res pid r).2.prospects_created = res.prospects_created ∧
    (directAfterProspect db res pid r).2.prospects_updated = res.prospects_updated ∧
    (directAfterProspect db res pid r).2.warnings = res.warnings ∧
    (directAfterProspect db res pid r).2.errors = res.errors := by
  unfold directAfterProspect
  have h1 := directPrimaryPhase_pframe pid
    (db, { res with imported_ids := res.imported_ids ++ [pid] }) r.primary_contact
  rcases hpc : (match r.primary_contact with
    | some pc => directImportPrimary pid
        (db, { res with imported_ids := res.imported_ids ++ [pid] }) pc
    | none => (db, { res with imported_ids := res.imported_ids ++ [pid] }))
    with ⟨db1, res1⟩
  rw [hpc] at h1
  have h2 := directSecPhase_pframe pid (db1, res1) r.secondary_contacts
  rcases hsc : (match r.secondary_contacts with
    | some scs => scs.foldl (directImportSecondary pid) (db1, res1)
    | none => (db1, res1)) with ⟨db2, res2⟩
  rw [hsc] at h2
  simp only [hpc, hsc]
  exact ⟨h2.1.trans h1.1, h2.2.1.trans h1.2.1, h2.2.2.1.trans h1.2.2.1,
    h2.2.2.2.1.trans h1.2.2.2.1, h2.2.2.2.2.trans h1.2.2.2.2⟩

theorem cfpContactsPhase_pframe (pid : Nat) (s : DB × ImportResult)
    (oc : Option ContactFinderContactsObject) :
    (match oc with
      | some cobj =>
          let s1 :=
            match cobj.primary_decision_maker with
            | some pdm => cfpImportPDM pid s pdm
            | none => s
          if truthyL cobj.secondary_contacts then
            (cobj.secondary_contacts.getD []).foldl (cfpImportSecondary pid) s1
          else s1
      | none => s).1.prospects = s.1.prospects ∧
    (match oc with
      | some cobj =>
          let s1 :=
            match cobj.primary_decision_maker with
            | some pdm => cfpImportPDM pid s pdm
            | none => s
          if truthyL cobj.secondary_contacts then
            (cobj.secondary_contacts.getD []).foldl (cfpImportSecondary pid) s1
          else s1
      | none => s).2.prospects_created = s.2.prospects_created ∧
    (match oc with
      | some cobj =>
          let s1 :=
            match cobj.primary_decision_maker with
            | some pdm => cfpImportPDM pid s pdm
            | none => s
          if truthyL cobj.secondary_contacts then
            (cobj.secondary_contacts.getD []).foldl (cfpImportSecondary pid) s1
          else s1
      | none => s).2.prospects_updated = s.2.prospects_updated ∧
    (match oc with
      | some cobj =>
          let s1 :=
            match cobj.primary_decision_maker with
            | some pdm => cfpImportPDM pid s pdm
            | none => s
          if truthyL cobj.secondary_contacts then
            (cobj.secondary_contacts.getD []).foldl (cfpImportSecondary pid) s1
          else s1
      | none => s).2.warnings = s.2.warnings ∧
    (match oc with
      | some cobj =>
          let s1 :=
            match cobj.primary_decision_maker with
            | some pdm => cfpImportPDM pid s pdm
            | none => s
          if truthyL cobj.secondary_contacts then
            (cobj.secondary_contacts.getD []).foldl (cfpImportSecondary pid) s1
          else s1
      | none => s).2.errors = s.2.errors := by
  cases oc with
  | none => exact ⟨rfl, rfl, rfl, rfl, rfl⟩
  | some cobj =>
      have h1 : (match cobj.primary_decision_maker with
          | some pdm => cfpImportPDM pid s pdm
          | none => s).1.prospects = s.1.prospects ∧
          (match cobj.primary_decision_maker with
          | some pdm => cfpImportPDM pid s pdm
          | none => s).2.prospects_created = s.2.prospects_created ∧
          (match cobj.primary_decision_maker with
          | some pdm => cfpImportPDM pid s pdm
          | none => s).2.prospects_updated = s.2.prospects_updated ∧
          (match cobj.primary_decision_maker with
          | some pdm => cfpImportPDM pid s pdm
          | none => s).2.warnings = s.2.warnings ∧
          (match cobj.primary_decision_maker with
          | some pdm => cfpImportPDM pid s pdm
          | none => s).2.errors = s.2.errors := by
        cases cobj.primary_decision_maker with
        | none => exact ⟨rfl, rfl, rfl, rfl, rfl⟩
        | some pdm =>
            rcases s with ⟨db, res⟩
            have h := cfpImportPDM_frame pid db res pdm
            exact ⟨h.1, h.2.2.1, h.2.2.2.1, h.2.2.2.2.1, h.2.2.2.2.2⟩
      rcases h1s : (match cobj.primary_decision_maker with
        | some pdm => cfpImportPDM pid s pdm
        | none => s) with ⟨db1, res1⟩
      rw [h1s] at h1
      by_cases hsec : truthyL cobj.secondary_contacts
      · simp only [h1s, hsec, if_true]
        have h := cfpSecFold_pframe pid (cobj.secondary_contacts.getD []) (db1, res1)
        exact ⟨h.1.trans h1.1, h.2.1.trans h1.2.1, h.2.2.1.trans h1.2.2.1,
          h.2.2.2.1.trans h1.2.2.2.1, h.2.2.2.2.trans h1.2.2.2.2⟩
      · simp only [h1s, hsec, Bool.false_eq_true, if_false]
        exact h1

theorem cfpAfterProspect_pframe (db : DB) (res : ImportResult) (pid : Nat)
    (r : ContactFinderProspectVariant) :
    (cfpAfterProspect db res pid r).1.prospects = db.prospects ∧
    (cfpAfterProspect db res pid r).2.prospects_created = res.prospects_created ∧
    (cfpAfterProspect db res pid r).2.prospects_updated = res.prospects_updated ∧
    (cfpAfterProspect db res pid r).2.warnings = res.warnings ∧
    (cfpAfterProspect db res pid r).2.errors = res.errors := by
  unfold cfpAfterProspect
  have h := cfpContactsPhase_pframe pid
    (db, { res with imported_ids := res.imported_ids ++ [pid] }) r.contacts
  rcases hc : (match r.contacts with
    | some cobj =>
        let s1 :=
          match cobj.primary_decision_maker with
          | some pdm => cfpImportPDM pid
              (db, { res with imported_ids := res.imported_ids ++ [pid] }) pdm
          | none => (db, { res with imported_ids := res.imported_ids ++ [pid] })
        if truthyL cobj.secondary_contacts then
          (cobj.secondary_contacts.getD []).foldl (cfpImportSecondary pid) s1
        else s1
    | none => (db, { res with imported_ids := res.imported_ids ++ [pid] }))
    with ⟨db2, res2⟩
  rw [hc] at h
  simp only [hc]
  exact ⟨h.1, h.2.1, h.2.2.1, h.2.2.2.1, h.2.2.2.2⟩

theorem flatAfterProspect_pframe (db : DB) (res : ImportResult) (pid : Nat)
    (r : ContactFinderFlatProspect) :
    (flatAfterProspect db res pid r).1.prospects = db.prospects ∧
    (flatAfterProspect db res pid r).2.prospects_created = res.prospects_created ∧
    (flatAfterProspect db res pid r).2.prospects_updated = res.prospects_updated ∧
    (flatAfterProspect db res pid r).2.warnings = res.warnings ∧
    (flatAfterProspect db res pid r).2.errors = res.errors := by
  unfold flatAfterProspect
  rcases hfold : r.contacts.foldl (flatImportContact pid (flatPrimaryName r))
    (db, { res with imported_ids := res.imported_ids ++ [pid] }) with ⟨db2, res2⟩
  have h := flatFold_pframe pid (flatPrimaryName r) r.contacts
    (db, { res with imported_ids := res.imported_ids ++ [pid] })
  rw [hfold] at h
  simp only [hfold]
  exact ⟨h.1, h.2.1, h.2.2.1, h.2.2.2.1, h.2.2.2.2⟩

theorem enrichStep_resolution (db : DB) (res : ImportResult) (e : EnrichedProspect) :
    (∀ p, findProspectByName db e.institution = some p →
        (enrichStep (db, res) e).1.prospects.length = db.prospects.length ∧
        (enrichStep (db, res) e).2.prospects_created = res.prospects_created ∧
        (enrichStep (db, res) e).2.prospects_updated = res.prospects_updated ∧
        (enrichStep (db, res) e).2.warnings = res.warnings) ∧
    (findProspectByName db e.institution = none →
      (∀ p, findProspectFuzzy db e.institution = some p →
        (enrichStep (db, res) e).1.prospects.length = db.prospects.length ∧
        (enrichStep (db, res) e).2.prospects_created = res.prospects_created ∧
        (enrichStep (db, res) e).2.warnings = res.warnings) ∧
      (findProspectFuzzy db e.institution = none →
        enrichStep (db, res) e =
          (db, { res with warnings := res.warnings ++ [enrichWarning e.institution] }))) := by
  constructor
  · intro p hf
    unfold enrichStep
    simp only [hf]
    have h := enrichAfterProspect_pframe
      (updateProspectByName db e.institution (enrichUpdateProspect p e)) res
      (enrichUpdateProspect p e).id e
    refine ⟨?_, h.2.1, h.2.2.1, h.2.2.2.1⟩
    rw [h.1]
    unfold updateProspectByName
    exact replaceFirstBy_length _ _ _
  · intro hf
    constructor
    · intro p hfz
      unfold enrichStep
      simp only [hf, hfz]
      have h := enrichAfterProspect_pframe
        (updateProspectFuzzy db e.institution (enrichUpdateProspect p e)) res
        (enrichUpdateProspect p e).id e
      refine ⟨?_, h.2.1, h.2.2.2.1⟩
      rw [h.1]
      unfold updateProspectFuzzy
      exact replaceFirstBy_length _ _ _
    · intro hfz
      unfold enrichStep
      simp only [hf, hfz]

theorem directStep_resolution (db : DB) (res : ImportResult) (r : ContactFinderProspect) :
    (∀ p, findProspectByName db r.institution = some p →
        (directStep (db, res) r).1.prospects.length = db.prospects.length ∧
        (directStep (db, res) r).2.prospects_created = res.prospects_created ∧
        (directStep (db, res) r).2.prospects_updated = res.prospects_updated + 1) ∧
    (findProspectByName db r.institution = none →
      (∀ p, findProspectFuzzy db r.institution = some p →
        (directStep (db, res) r).1.prospects.length = db.prospects.length ∧
        (directStep (db, res) r).2.prospects_created = res.prospects_created ∧
        (directStep (db, res) r).2.prospects_updated = res.prospects_updated + 1) ∧
      (findProspectFuzzy db r.institution = none →
        (directStep (db, res) r).1.prospects.length = db.prospects.length + 1 ∧
        (directStep (db, res) r).2.prospects_created = res.prospects_created + 1 ∧
        (directStep (db, res) r).2.prospects_updated = res.prospects_updated)) := by
  constructor
  · intro p hf
    unfold directStep
    simp only [hf]
    have h := directAfterProspect_pframe
      (updateProspectByName db r.institution (directUpdateProspect p r))
      { res with prospects_updated := res.prospects_updated + 1 }
      (directUpdateProspect p r).id r
    refine ⟨?_, h.2.1, h.2.2.1⟩
    rw [h.1]
    unfold updateProspectByName
    exact replaceFirstBy_length _ _ _
  · intro hf
    constructor
    · intro p hfz
      unfold directStep
      simp only [hf, hfz]
      have h := directAfterProspect_pframe
        (updateProspectFuzzy db r.institution (directUpdateProspect p r))
        { res with prospects_updated := res.prospects_updated + 1 }
        (directUpdateProspect p r).id r
      refine ⟨?_, h.2.1, h.2.2.1⟩
      rw [h.1]
      unfold updateProspectFuzzy
      exact replaceFirstBy_length _ _ _
    · intro hfz
      unfold directStep
      simp only [hf, hfz]
      have h := directAfterProspect_pframe
        { db with
            prospects := db.prospects ++ [directNewProspect db.nextId r],
            nextId := db.nextId + 1 }
        { res with prospects_created := res.prospects_created + 1 }
        (directNewProspect db.nextId r).id r
      refine ⟨?_, h.2.1, h.2.2.1⟩
      rw [h.1]
      simp

theorem cfpStep_resolution (db : DB) (res : ImportResult)
    (r : ContactFinderProspectVariant) :
    (∀ p, findProspectByName db r.institution = some p →
        (cfpStep (db, res) r).1.prospects.length = db.prospects.length ∧
        (cfpStep (db, res) r).2.prospects_created = res.prospects_created ∧
        (cfpStep (db, res) r).2.prospects_updated = res.prospects_updated + 1) ∧
    (findProspectByName db r.institution = none →
        (cfpStep (db, res) r).1.prospects.length = db.prospects.length + 1 ∧
        (cfpStep (db, res) r).2.prospects_created = res.prospects_created + 1 ∧
        (cfpStep (db, res) r).2.prospects_updated = res.prospects_updated) := by
  constructor
  · intro p hf
    unfold cfpStep
    simp only [hf]
    have h := cfpAfterProspect_pframe
      (updateProspectByName db r.institution (cfpUpdateProspect p r))
      { res with prospects_updated := res.prospects_updated + 1 }
      (cfpUpdateProspect p r).id r
    refine ⟨?_, h.2.1, h.2.2.1⟩
    rw [h.1]
    unfold updateProspectByName
    exact replaceFirstBy_length _ _ _
  · intro hf
    unfold cfpStep
    simp only [hf]
    have h := cfpAfterProspect_pframe
      { db with
          prospects := db.prospects ++ [cfpNewProspect db.nextId r],
          nextId := db.nextId + 1 }
      { res with prospects_created := res.prospects_created + 1 }
      (cfpNewProspect db.nextId r).id r
    refine ⟨?_, h.2.1, h.2.2.1⟩
    rw [h.1]
    simp

theorem flatStep_resolution (db : DB) (res : ImportResult)
    (r : ContactFinderFlatProspect) :
    (∀ p, findProspectByName db r.institution = some p →
        (flatStep (db, res) r).1.prospects.length = db.prospects.length ∧
        (flatStep (db, res) r).2.prospects_created = res.prospects_created ∧
        (flatStep (db, res) r).2.prospects_updated = res.prospects_updated + 1) ∧
    (findProspectByName db r.institution = none →
        (flatStep (db, res) r).1.prospects.length = db.prospects.length + 1 ∧
        (flatStep (db, res) r).2.prospects_created = res.prospects_created + 1 ∧
        (flatStep (db, res) r).2.prospects_updated = res.prospects_updated) := by
  constructor
  · intro p hf
    unfold flatStep
    simp only [hf]
    have h := flatAfterProspect_pframe
      (updateProspectByName db r.institution (flatUpdateProspect p r))
      { res with prospects_updated := res.prospects_updated + 1 }
      (flatUpdateProspect p r).id r
    refine ⟨?_, h.2.1, h.2.2.1⟩
    rw [h.1]
    unfold updateProspectByName
    exact replaceFirstBy_length _ _ _
  · intro hf
    unfold flatStep
    simp only [hf]
    have h := flatAfterProspect_pframe
      { db with
          prospects := db.prospects ++ [flatNewProspect db.nextId r],
          nextId := db.nextId + 1 }
      { res with prospects_created := res.prospects_created + 1 }
      (flatNewProspect db.nextId r).id r
    refine ⟨?_, h.2.1, h.2.2.1⟩
    rw [h.1]
    simp

theorem startsWithL_self_append : ∀ (s t : List Char), startsWithL s (s ++ t) = true := by
  intro s
  induction s with
  | nil => intro t; rfl
  | cons c cs ih => intro t; simp [startsWithL, ih]

theorem infixL_append_self : ∀ (a n b : List Char), infixL n (a ++ (n ++ b)) = true := by
  intro a
  induction a with
  | nil =>
      intro n b
      cases n with
      | nil => cases b <;> simp [infixL, startsWithL]
      | cons c cs =>
          have h := startsWithL_self_append (c :: cs) b
          rw [List.cons_append] at h
          simp [infixL, h]
  | cons c cs ih =>
      intro n b
      show infixL n ((c :: cs) ++ (n ++ b)) = true
      rw [List.cons_append]
      show (startsWithL n (c :: (cs ++ (n ++ b))) || infixL n (cs ++ (n ++ b))) = true
      rw [ih]
      simp

theorem pyContains_append (a s b : String) : pyContains (a ++ s ++ b) s = true := by
  unfold pyContains
  have hd : (a ++ s ++ b).data = a.data ++ (s.data ++ b.data) := by
    simp [List.append_assoc]
  rw [hd]
  exact infixL_append_self a.data s.data b.data

/-- C9: an enrichment record whose institution matches no prospect, neither
exactly nor fuzzily, creates nothing, errors nothing, appends exactly one
warning naming the institution, and the batch continues with the remaining
records. -/
theorem enrichment_unmatched_warning (db : DB) (res : ImportResult)
    (e : EnrichedProspect)
    (h1 : findProspectByName db e.institution = none)
    (h2 : findProspectFuzzy db e.institution = none) :
    enrichStep (db, res) e =
      (db, { res with warnings := res.warnings ++ [enrichWarning e.institution] }) ∧
    pyContains (enrichWarning e.institution) e.institution = true ∧
    (∀ rest : List EnrichedProspect,
      (e :: rest).foldl enrichStep (db, res) =
        rest.foldl enrichStep
          (db, { res with warnings := res.warnings ++ [enrichWarning e.institution] })) := by
  have heq := ((enrichStep_resolution db res e).2 h1).2 h2
  refine ⟨heq, ?_, ?_⟩
  · unfold enrichWarning
    exact pyContains_append _ _ _
  · intro rest
    rw [List.foldl_cons, heq]

/-- Witness for C9 at a store with no matching prospect. -/
theorem enrichment_unmatched_warning_witness :
    findProspectByName { prospects := [prospectZ], nextId := 1 } "Nowhere University" = none ∧
    findProspectFuzzy { prospects := [prospectZ], nextId := 1 } "Nowhere University" = none ∧
    (enrichStep ({ prospects := [prospectZ], nextId := 1 },
        { success := true, skill_type := "contact-finder-enrichment" })
        { institution := "Nowhere University",
          contacts := [{ name := "Ann Lee", email := some "ann@nowhere.edu" }] } =
      ({ prospects := [prospectZ], nextId := 1 },
        { success := true, skill_type := "contact-finder-enrichment",
          warnings := [enrichWarning "Nowhere University"] }) ∧
      pyContains (enrichWarning "Nowhere University") "Nowhere University" = true ∧
      (∀ rest : List EnrichedProspect,
        (({ institution := "Nowhere University",
            contacts := [{ name := "Ann Lee", email := some "ann@nowhere.edu" }]} :
              EnrichedProspect) :: rest).foldl enrichStep
          ({ prospects := [prospectZ], nextId := 1 },
            { success := true, skill_type := "contact-finder-enrichment" }) =
          rest.foldl enrichStep
            ({ prospects := [prospectZ], nextId := 1 },
              { success := true, skill_type := "contact-finder-enrichment",
                warnings := [enrichWarning "Nowhere University"] }))) :=
  ⟨by decide, by decide,
    enrichment_unmatched_warning
      { prospects := [prospectZ], nextId := 1 }
      { success := true, skill_type := "contact-finder-enrichment" }
      { institution := "Nowhere University",
        contacts := [{ name := "Ann Lee", email := some "ann@nowhere.edu" }] }
      (by decide) (by decide)⟩

/-- C3 amended: prospect resolution is exact-name first in every variant,
but the fallback differs per variant.  The direct contact-list variant
falls back to the case-insensitive substring fuzzy match and only creates
a new ProspectRecord when both fail; the enrichment variant falls back to
the fuzzy match but never creates, skipping the record with a warning; the
athletic-director, nested-prospects and flat variants never consult the
fuzzy match and create a new ProspectRecord whenever the exact match
fails, even when a fuzzy candidate exists (see the counterexample). -/
theorem resolution_order_amended :
    (∀ (db : DB) (res : ImportResult) (r : ProspectDiscoveryData) p,
        findProspectByName db r.institution.name = some p →
        (adStep (db, res) r).1.prospects.length = db.prospects.length ∧
        (adStep (db, res) r).2.prospects_created = res.prospects_created ∧
        (adStep (db, res) r).2.prospects_updated = res.prospects_updated + 1) ∧
    (∀ (db : DB) (res : ImportResult) (r : ProspectDiscoveryData),
        findProspectByName db r.institution.name = none →
        (adStep (db, res) r).1.prospects.length = db.prospects.length + 1 ∧
        (adStep (db, res) r).2.prospects_created = res.prospects_created + 1) ∧
    (∀ (db : DB) (res : ImportResult) (r : ContactFinderProspect) p,
        findProspectByName db r.institution = some p →
        (directStep (db, res) r).1.prospects.length = db.prospects.length ∧
        (directStep (db, res) r).2.prospects_created = res.prospects_created ∧
        (directStep (db, res) r).2.prospects_updated = res.prospects_updated + 1) ∧
    (∀ (db : DB) (res : ImportResult) (r : ContactFinderProspect) p,
        findProspectByName db r.institution = none →
        findProspectFuzzy db r.institution = some p →
        (directStep (db, res) r).1.prospects.length = db.prospects.length ∧
        (directStep (db, res) r).2.prospects_created = res.prospects_created ∧
        (directStep (db, res) r).2.prospects_updated = res.prospects_updated + 1) ∧
    (∀ (db : DB) (res : ImportResult) (r : ContactFinderProspect),
        findProspectByName db r.institution = none →
        findProspectFuzzy db r.institution = none →
        (directStep (db, res) r).1.prospects.length = db.prospects.length + 1 ∧
        (directStep (db, res) r).2.prospects_created = res.prospects_created + 1) ∧
    (∀ (db : DB) (res : ImportResult) (e : EnrichedProspect) p,
        findProspectByName db e.institution = none →
        findProspectFuzzy db e.institution = some p →
        (enrichStep (db, res) e).1.prospects.length = db.prospects.length ∧
        (enrichStep (db, res) e).2.prospects_created = res.prospects_created) ∧
    (∀ (db : DB) (res : ImportResult) (e : EnrichedProspect),
        findProspectByName db e.institution = none →
        findProspectFuzzy db e.institution = none →
        enrichStep (db, res) e =
          (db, { res with warnings := res.warnings ++ [enrichWarning e.institution] })) ∧
    (∀ (db : DB) (res : ImportResult) (r : ContactFinderProspectVariant),
        findProspectByName db r.institution = none →
        (cfpStep (db, res) r).1.prospects.length = db.prospects.length + 1 ∧
        (cfpStep (db, res) r).2.prospects_created = res.prospects_created + 1) ∧
    (∀ (db : DB) (res : ImportResult) (r : ContactFinderFlatProspect),
        findProspectByName db r.institution = none →
        (flatStep (db, res) r).1.prospects.length = db.prospects.length + 1 ∧
        (flatStep (db, res) r).2.prospects_created = res.prospects_created + 1) := by
  refine ⟨?_, ?_, ?_, ?_, ?_, ?_, ?_, ?_, ?_⟩
  · intro db res r p hf
    exact (adStep_resolution db res r).1 p hf
  · intro db res r hf
    have h := (adStep_resolution db res r).2 hf
    exact ⟨h.1, h.2.1⟩
  · intro db res r p hf
    exact (directStep_resolution db res r).1 p hf
  · intro db res r p hf hfz
    exact ((directStep_resolution db res r).2 hf).1 p hfz
  · intro db res r hf hfz
    have h := ((directStep_resolution db res r).2 hf).2 hfz
    exact ⟨h.1, h.2.1⟩
  · intro db res e p hf hfz
    have h := ((enrichStep_resolution db res e).2 hf).1 p hfz
    exact ⟨h.1, h.2.1⟩
  · intro db res e hf hfz
    exact ((enrichStep_resolution db res e).2 hf).2 hfz
  · intro db res r hf
    have h := (cfpStep_resolution db res r).2 hf
    exact ⟨h.1, h.2.1⟩
  · intro db res r hf
    have h := (flatStep_resolution db res r).2 hf
    exact ⟨h.1, h.2.1⟩

/-- Witness for the amended C3: every resolution case exercised on a store
holding one prospect named Mason County High School. -/
theorem resolution_order_amended_witness :
    (findProspectByName ({ prospects := [prospectMCHS], nextId := 1 } : DB) "Mason County High School" = some prospectMCHS ∧
     ((adStep (({ prospects := [prospectMCHS], nextId := 1 } : DB), ({ success := true, skill_type := "t" } : ImportResult)) ({ institution := { name := "Mason County High School", type := "6A High School" } } : ProspectDiscoveryData)).1.prospects.length = (({ prospects := [prospectMCHS], nextId := 1 } : DB)).prospects.length ∧
      (adStep (({ prospects := [prospectMCHS], nextId := 1 } : DB), ({ success := true, skill_type := "t" } : ImportResult)) ({ institution := { name := "Mason County High School", type := "6A High School" } } : ProspectDiscoveryData)).2.prospects_created = (({ success := true, skill_type := "t" } : ImportResult)).prospects_created ∧
      (adStep (({ prospects := [prospectMCHS], nextId := 1 } : DB), ({ success := true, skill_type := "t" } : ImportResult)) ({ institution := { name := "Mason County High School", type := "6A High School" } } : ProspectDiscoveryData)).2.prospects_updated = (({ success := true, skill_type := "t" } : ImportResult)).prospects_updated + 1)) ∧
    (findProspectByName ({ prospects := [prospectMCHS], nextId := 1 } : DB) recMasonCounty.institution.name = none ∧
     ((adStep (({ prospects := [prospectMCHS], nextId := 1 } : DB), ({ success := true, skill_type := "t" } : ImportResult)) recMasonCounty).1.prospects.length = (({ prospects := [prospectMCHS], nextId := 1 } : DB)).prospects.length + 1 ∧
      (adStep (({ prospects := [prospectMCHS], nextId := 1 } : DB), ({ success := true, skill_type := "t" } : ImportResult)) recMasonCounty).2.prospects_created = (({ success := true, skill_type := "t" } : ImportResult)).prospects_created + 1)) ∧
    (findProspectByName ({ prospects := [prospectMCHS], nextId := 1 } : DB) "Mason County High School" = some prospectMCHS ∧
     ((directStep (({ prospects := [prospectMCHS], nextId := 1 } : DB), ({ success := true, skill_type := "t" } : ImportResult)) ({ institution := "Mason County High School" } : ContactFinderProspect)).1.prospects.length = (({ prospects := [prospectMCHS], nextId := 1 } : DB)).prospects.length ∧
      (directStep (({ prospects := [prospectMCHS], nextId := 1 } : DB), ({ success := true, skill_type := "t" } : ImportResult)) ({ institution := "Mason County High School" } : ContactFinderProspect)).2.prospects_created = (({ success := true, skill_type := "t" } : ImportResult)).prospects_created ∧
      (directStep (({ prospects := [prospectMCHS], nextId := 1 } : DB), ({ success := true, skill_type := "t" } : ImportResult)) ({ institution := "Mason County High School" } : ContactFinderProspect)).2.prospects_updated = (({ success := true, skill_type := "t" } : ImportResult)).prospects_updated + 1)) ∧
    (findProspectByName ({ prospects := [prospectMCHS], nextId := 1 } : DB) "Mason County" = none ∧
     findProspectFuzzy ({ prospects := [prospectMCHS], nextId := 1 } : DB) "Mason County" = some prospectMCHS ∧
     ((directStep (({ prospects := [prospectMCHS], nextId := 1 } : DB), ({ success := true, skill_type := "t" } : ImportResult)) ({ institution := "Mason County" } : ContactFinderProspect)).1.prospects.length = (({ prospects := [prospectMCHS], nextId := 1 } : DB)).prospects.length ∧
      (directStep (({ prospects := [prospectMCHS], nextId := 1 } : DB), ({ success := true, skill_type := "t" } : ImportResult)) ({ institution := "Mason County" } : ContactFinderProspect)).2.prospects_created = (({ success := true, skill_type := "t" } : ImportResult)).prospects_created ∧
      (directStep (({ prospects := [prospectMCHS], nextId := 1 } : DB), ({ success := true, skill_type := "t" } : ImportResult)) ({ institution := "Mason County" } : ContactFinderProspect)).2.prospects_updated = (({ success := true, skill_type := "t" } : ImportResult)).prospects_updated + 1)) ∧
    (findProspectByName ({ prospects := [prospectMCHS], nextId := 1 } : DB) "Riverbend Academy" = none ∧
     findProspectFuzzy ({ prospects := [prospectMCHS], nextId := 1 } : DB) "Riverbend Academy" = none ∧
     ((directStep (({ prospects := [prospectMCHS], nextId := 1 } : DB), ({ success := true, skill_type := "t" } : ImportResult)) ({ institution := "Riverbend Academy" } : ContactFinderProspect)).1.prospects.length = (({ prospects := [prospectMCHS], nextId := 1 } : DB)).prospects.length + 1 ∧
      (directStep (({ prospects := [prospectMCHS], nextId := 1 } : DB), ({ success := true, skill_type := "t" } : ImportResult)) ({ institution := "Riverbend Academy" } : ContactFinderProspect)).2.prospects_created = (({ success := true, skill_type := "t" } : ImportResult)).prospects_created + 1)) ∧
    (((enrichStep (({ prospects := [prospectMCHS], nextId := 1 } : DB), ({ success := true, skill_type := "t" } : ImportResult)) ({ institution := "Mason County", contacts := [] } : EnrichedProspect)).1.prospects.length = (({ prospects := [prospectMCHS], nextId := 1 } : DB)).prospects.length ∧
      (enrichStep (({ prospects := [prospectMCHS], nextId := 1 } : DB), ({ success := true, skill_type := "t" } : ImportResult)) ({ institution := "Mason County", contacts := [] } : EnrichedProspect)).2.prospects_created = (({ success := true, skill_type := "t" } : ImportResult)).prospects_created)) ∧
    ((enrichStep (({ prospects := [prospectMCHS], nextId := 1 } : DB), ({ success := true, skill_type := "t" } : ImportResult)) ({ institution := "Riverbend Academy", contacts := [] } : EnrichedProspect)) = (({ prospects := [prospectMCHS], nextId := 1 } : DB), { (({ success := true, skill_type := "t" } : ImportResult)) with warnings := (({ success := true, skill_type := "t" } : ImportResult)).warnings ++ [enrichWarning "Riverbend Academy"] })) ∧
    (((cfpStep (({ prospects := [prospectMCHS], nextId := 1 } : DB), ({ success := true, skill_type := "t" } : ImportResult)) ({ institution := "Riverbend Academy" } : ContactFinderProspectVariant)).1.prospects.length = (({ prospects := [prospectMCHS], nextId := 1 } : DB)).prospects.length + 1 ∧
      (cfpStep (({ prospects := [prospectMCHS], nextId := 1 } : DB), ({ success := true, skill_type := "t" } : ImportResult)) ({ institution := "Riverbend Academy" } : ContactFinderProspectVariant)).2.prospects_created = (({ success := true, skill_type := "t" } : ImportResult)).prospects_created + 1)) ∧
    (((flatStep (({ prospects := [prospectMCHS], nextId := 1 } : DB), ({ success := true, skill_type := "t" } : ImportResult)) ({ institution := "Riverbend Academy" } : ContactFinderFlatProspect)).1.prospects.length = (({ prospects := [prospectMCHS], nextId := 1 } : DB)).prospects.length + 1 ∧
      (flatStep (({ prospects := [prospectMCHS], nextId := 1 } : DB), ({ success := true, skill_type := "t" } : ImportResult)) ({ institution := "Riverbend Academy" } : ContactFinderFlatProspect)).2.prospects_created = (({ success := true, skill_type := "t" } : ImportResult)).prospects_created + 1)) :=
  ⟨⟨by decide, resolution_order_amended.1 ({ prospects := [prospectMCHS], nextId := 1 } : DB) ({ success := true, skill_type := "t" } : ImportResult) ({ institution := { name := "Mason County High School", type := "6A High School" } } : ProspectDiscoveryData) prospectMCHS (by decide)⟩,
   ⟨by decide, resolution_order_amended.2.1 ({ prospects := [prospectMCHS], nextId := 1 } : DB) ({ success := true, skill_type := "t" } : ImportResult) recMasonCounty (by decide)⟩,
   ⟨by decide, resolution_order_amended.2.2.1 ({ prospects := [prospectMCHS], nextId := 1 } : DB) ({ success := true, skill_type := "t" } : ImportResult) ({ institution := "Mason County High School" } : ContactFinderProspect) prospectMCHS (by decide)⟩,
   ⟨by decide, by decide, resolution_order_amended.2.2.2.1 ({ prospects := [prospectMCHS], nextId := 1 } : DB) ({ success := true, skill_type := "t" } : ImportResult) ({ institution := "Mason County" } : ContactFinderProspect) prospectMCHS (by decide) (by decide)⟩,
   ⟨by decide, by decide, resolution_order_amended.2.2.2.2.1 ({ prospects := [prospectMCHS], nextId := 1 } : DB) ({ success := true, skill_type := "t" } : ImportResult) ({ institution := "Riverbend Academy" } : ContactFinderProspect) (by decide) (by decide)⟩,
   resolution_order_amended.2.2.2.2.2.1 ({ prospects := [prospectMCHS], nextId := 1 } : DB) ({ success := true, skill_type := "t" } : ImportResult) ({ institution := "Mason County", contacts := [] } : EnrichedProspect) prospectMCHS (by decide) (by decide),
   resolution_order_amended.2.2.2.2.2.2.1 ({ prospects := [prospectMCHS], nextId := 1 } : DB) ({ success := true, skill_type := "t" } : ImportResult) ({ institution := "Riverbend Academy", contacts := [] } : EnrichedProspect) (by decide) (by decide),
   resolution_order_amended.2.2.2.2.2.2.2.1 ({ prospects := [prospectMCHS], nextId := 1 } : DB) ({ success := true, skill_type := "t" } : ImportResult) ({ institution := "Riverbend Academy" } : ContactFinderProspectVariant) (by decide),
   resolution_order_amended.2.2.2.2.2.2.2.2 ({ prospects := [prospectMCHS], nextId := 1 } : DB) ({ success := true, skill_type := "t" } : ImportResult) ({ institution := "Riverbend Academy" } : ContactFinderFlatProspect) (by decide)⟩

theorem strData_append (a b : String) : (a ++ b).data = a.data ++ b.data := rfl

theorem strAppend_assoc (a b c : String) : a ++ b ++ c = a ++ (b ++ c) := by
  apply String.ext
  simp [strData_append, List.append_assoc]

/-- C5 amended: the append-with-blank-line behaviour holds for the direct
and nested-prospects contact-finder variants, where the stored notes
remain a prefix of the updated value; the athletic-director variant
instead replaces the stored research notes whenever the incoming record
renders a non-null notes value (see the counterexample). -/
theorem notes_append_amended :
    (∀ (p : Prospect) (r : ContactFinderProspect) (s o : String),
        p.research_notes = some s → s ≠ "" →
        r.outreach_recommendation = some o → o ≠ "" →
        (directUpdateProspect p r).research_notes =
          some (s ++ "\n\nOutreach Recommendation: " ++ o) ∧
        ∃ tail, s ++ "\n\nOutreach Recommendation: " ++ o = s ++ tail) ∧
    (∀ (p : Prospect) (r : ContactFinderProspectVariant) (s : String)
        (rec : ContactFinderOutreachRecs),
        p.research_notes = some s → s ≠ "" →
        r.outreach_recommendations = some rec →
        (cfpUpdateProspect p r).research_notes =
          some (s ++ "\n\n" ++ cfpRecNotes rec) ∧
        ∃ tail, s ++ "\n\n" ++ cfpRecNotes rec = s ++ tail) ∧
    (∀ (e : Prospect) (d : ProspectDict) (t : Option String) (hr : Bool)
        (n : String),
        d.research_notes = some n →
        (mergeProspect e d t hr).research_notes = some n) := by
  refine ⟨?_, ?_, ?_⟩
  · intro p r s o hs hs0 ho ho0
    constructor
    · have hot : truthyS (some o) = true := by
        simp [truthyS, bne_iff_ne]
        exact ho0
      unfold directUpdateProspect
      simp [ho, hot, hs, hs0, apply_ite Prospect.research_notes, bne_iff_ne]
    · exact ⟨"\n\nOutreach Recommendation: " ++ o,
        strAppend_assoc s "\n\nOutreach Recommendation: " o⟩
  · intro p r s rec hs hs0 hrec
    constructor
    · unfold cfpUpdateProspect
      simp [hrec, hs, hs0, apply_ite Prospect.research_notes, bne_iff_ne]
    · exact ⟨"\n\n" ++ cfpRecNotes rec, by rw [strAppend_assoc]⟩
  · intro e d t hr n hn
    simp [mergeProspect, hn]

/-- Witness for the amended C5: a prospect holding OLD NOTES updated by a
direct record, a prospects-variant record and an athletic-director dict. -/
theorem notes_append_amended_witness :
    (prospectOH.research_notes = some "OLD NOTES" ∧
     directRecW.outreach_recommendation = some "call after the levy vote" ∧
     (directUpdateProspect prospectOH directRecW).research_notes =
       some ("OLD NOTES" ++ "\n\nOutreach Recommendation: " ++ "call after the levy vote") ∧
     (∃ tail, "OLD NOTES" ++ "\n\nOutreach Recommendation: " ++ "call after the levy vote" =
       "OLD NOTES" ++ tail)) ∧
    ((cfpUpdateProspect prospectOH
        { institution := "Lakewood High School",
          outreach_recommendations := some { approach := some "email first" } }).research_notes =
      some ("OLD NOTES" ++ "\n\n" ++ cfpRecNotes { approach := some "email first" }) ∧
     (∃ tail, "OLD NOTES" ++ "\n\n" ++ cfpRecNotes { approach := some "email first" } =
       "OLD NOTES" ++ tail)) ∧
    (mergeProspect prospectOH (adProspectDict recLakewoodNotes) none false).research_notes =
      some "Risk Flags:\n- budget freeze" :=
  ⟨⟨by decide, by decide,
    notes_append_amended.1 prospectOH directRecW "OLD NOTES" "call after the levy vote"
      (by decide) (by decide) (by decide) (by decide)⟩,
   notes_append_amended.2.1 prospectOH
      { institution := "Lakewood High School",
        outreach_recommendations := some { approach := some "email first" } }
      "OLD NOTES" { approach := some "email first" } (by decide) (by decide) (by decide),
   notes_append_amended.2.2 prospectOH (adProspectDict recLakewoodNotes) none false
      "Risk Flags:\n- budget freeze" (by decide)⟩

/-! ## Contact-dedup helper lemmas -/

theorem upsertContact_found (db : DB) (res : ImportResult) (pid : Nat)
    (le : Option String) (c0 : Contact) (d : ContactDict) :
    (upsertContact db res pid le (some c0) d).1.contacts.length = db.contacts.length ∧
    (upsertContact db res pid le (some c0) d).2.contacts_updated = res.contacts_updated + 1 ∧
    (upsertContact db res pid le (some c0) d).2.contacts_created = res.contacts_created := by
  unfold upsertContact updateContactByEmail
  exact ⟨replaceFirstBy_length _ _ _, rfl, rfl⟩

theorem findContact_append_hit (l : List Contact) (pid : Nat) (e : Option String)
    (c : Contact) (hpid : c.prospect_id = pid) (he : c.email = e)
    (hdel : c.deleted_at = none)
    (hnone : l.find? (contactEmailFilter pid e) = none) :
    (l ++ [c]).find? (contactEmailFilter pid e) = some c := by
  rw [List.find?_append, hnone]
  have hf : contactEmailFilter pid e c = true := by
    unfold contactEmailFilter
    rw [hpid, he, hdel]
    simp
  simp [List.find?, hf]

theorem directImportPrimary_create (pid : Nat) (db : DB) (res : ImportResult)
    (pc : ContactFinderPrimaryContact) (e : String)
    (hce : cleanEmail pc.email = some e)
    (hnone : findContactByEmail db pid (some e) = none) :
    (directImportPrimary pid (db, res) pc).1.contacts.length = db.contacts.length + 1 ∧
    (directImportPrimary pid (db, res) pc).2.contacts_created = res.contacts_created + 1 ∧
    (directImportPrimary pid (db, res) pc).2.contacts_updated = res.contacts_updated ∧
    (findContactByEmail (directImportPrimary pid (db, res) pc).1 pid (some e)).isSome := by
  unfold directImportPrimary upsertContact
  simp only [hce, hnone]
  refine ⟨by simp, by trivial, by trivial, ?_⟩
  have hhit := findContact_append_hit db.contacts pid (some e)
      (makeContact db.nextId pid
        { name := pc.name, title := pc.title, role := "decision_maker",
          email := some e,
          phone := pyOrS (pyOrS pc.phone_direct pc.phone) pc.phone_main,
          linkedin_url := cleanLinkedin pc.linkedin_url,
          is_primary := some true, notes := pc.notes })
      rfl rfl rfl hnone
  exact Option.isSome_iff_exists.mpr ⟨_, hhit⟩

theorem directImportPrimary_update (pid : Nat) (s : DB × ImportResult)
    (pc : ContactFinderPrimaryContact) (e : String)
    (hce : cleanEmail pc.email = some e)
    (hsome : (findContactByEmail s.1 pid (some e)).isSome) :
    (directImportPrimary pid s pc).1.contacts.length = s.1.contacts.length ∧
    (directImportPrimary pid s pc).2.contacts_updated = s.2.contacts_updated + 1 ∧
    (directImportPrimary pid s pc).2.contacts_created = s.2.contacts_created := by
  obtain ⟨db, res⟩ := s
  obtain ⟨c0, hc0⟩ := Option.isSome_iff_exists.mp hsome
  have hc0s : findContactByEmail db pid (some e) = some c0 := hc0
  unfold directImportPrimary
  simp only [hce, hc0s]
  exact upsertContact_found db res pid (some e) c0 _

theorem directImportPrimary_noemail (pid : Nat) (s : DB × ImportResult)
    (pc : ContactFinderPrimaryContact) (hce : cleanEmail pc.email = none) :
    (directImportPrimary pid s pc).1.contacts.length = s.1.contacts.length + 1 ∧
    (directImportPrimary pid s pc).2.contacts_created = s.2.contacts_created + 1 ∧
    (directImportPrimary pid s pc).2.contacts_updated = s.2.contacts_updated := by
  obtain ⟨db, res⟩ := s
  unfold directImportPrimary upsertContact
  simp only [hce]
  exact ⟨by simp, by trivial, by trivial⟩

/-- C4 amended: in the four contact-finder variants, a second import of a
contact with the same (prospect, usable email) leaves the table size
unchanged, updates the stored row and increments contacts_updated; in the
athletic-director variant a found row leaves store and result completely
untouched, so contacts_updated never moves there (see the counterexample);
and a contact without a usable email is appended anew on every import, so
two imports of it yield two rows. -/
theorem contact_dedup_amended :
    (∀ (db : DB) (res : ImportResult) (pid : Nat)
        (pc : ContactFinderPrimaryContact) (e : String),
        cleanEmail pc.email = some e →
        findContactByEmail db pid (some e) = none →
        (directImportPrimary pid (db, res) pc).1.contacts.length
            = db.contacts.length + 1 ∧
        (directImportPrimary pid (db, res) pc).2.contacts_created
            = res.contacts_created + 1 ∧
        (directImportPrimary pid (directImportPrimary pid (db, res) pc) pc).1.contacts.length
            = db.contacts.length + 1 ∧
        (directImportPrimary pid (directImportPrimary pid (db, res) pc) pc).2.contacts_updated
            = res.contacts_updated + 1 ∧
        (directImportPrimary pid (directImportPrimary pid (db, res) pc) pc).2.contacts_created
            = res.contacts_created + 1) ∧
    (∀ (db : DB) (res : ImportResult) (pid : Nat)
        (pc : ContactFinderPrimaryContact),
        cleanEmail pc.email = none →
        (directImportPrimary pid (directImportPrimary pid (db, res) pc) pc).1.contacts.length
            = db.contacts.length + 2 ∧
        (directImportPrimary pid (directImportPrimary pid (db, res) pc) pc).2.contacts_created
            = res.contacts_created + 2) ∧
    (∀ (db : DB) (res : ImportResult) (pid : Nat) (pcn : Option String)
        (c : EnrichedContact),
        enrichSkip c = false → truthyS c.email = true →
        (findContactByEmail db pid c.email).isSome →
        (enrichImportContact pid pcn (db, res) c).1.contacts.length = db.contacts.length ∧
        (enrichImportContact pid pcn (db, res) c).2.contacts_updated = res.contacts_updated + 1 ∧
        (enrichImportContact pid pcn (db, res) c).2.contacts_created = res.contacts_created) ∧
    (∀ (db : DB) (res : ImportResult) (pid : Nat)
        (pdm : ContactFinderDecisionMaker) (e : String),
        cleanEmail pdm.email = some e →
        (findContactByEmail db pid (some e)).isSome →
        (cfpImportPDM pid (db, res) pdm).1.contacts.length = db.contacts.length ∧
        (cfpImportPDM pid (db, res) pdm).2.contacts_updated = res.contacts_updated + 1 ∧
        (cfpImportPDM pid (db, res) pdm).2.contacts_created = res.contacts_created) ∧
    (∀ (db : DB) (res : ImportResult) (pid : Nat) (pcn : Option String)
        (c : ContactFinderFlatContact) (e : String),
        flatSkip c = false → cleanEmail c.email = some e →
        (findContactByEmail db pid (some e)).isSome →
        (flatImportContact pid pcn (db, res) c).1.contacts.length = db.contacts.length ∧
        (flatImportContact pid pcn (db, res) c).2.contacts_updated = res.contacts_updated + 1 ∧
        (flatImportContact pid pcn (db, res) c).2.contacts_created = res.contacts_created) ∧
    (∀ (db : DB) (res : ImportResult) (pid : Nat)
        (r : ProspectDiscoveryData) (dm : DecisionMakerData) (e : String),
        adPickDM r = some dm → truthyS dm.name = true →
        cleanEmail dm.email = some e →
        (findContactByEmail db pid (some e)).isSome →
        adImportDM db res pid r = (db, res)) := by
  refine ⟨?_, ?_, ?_, ?_, ?_, ?_⟩
  · intro db res pid pc e hce hnone
    obtain ⟨l1, c1, u1, f1⟩ := directImportPrimary_create pid db res pc e hce hnone
    obtain ⟨l2, u2, c2⟩ := directImportPrimary_update pid
      (directImportPrimary pid (db, res) pc) pc e hce f1
    refine ⟨l1, c1, ?_, ?_, ?_⟩
    · rw [l2, l1]
    · rw [u2, u1]
    · rw [c2, c1]
  · intro db res pid pc hce
    obtain ⟨l1, c1, u1⟩ := directImportPrimary_noemail pid (db, res) pc hce
    obtain ⟨l2, c2, u2⟩ := directImportPrimary_noemail pid
      (directImportPrimary pid (db, res) pc) pc hce
    exact ⟨by rw [l2, l1], by rw [c2, c1]⟩
  · intro db res pid pcn c hskip hem hsome
    obtain ⟨c0, hc0⟩ := Option.isSome_iff_exists.mp hsome
    unfold enrichImportContact
    simp only [hskip, Bool.false_eq_true, if_false, hem, eq_self_iff_true, if_true, hc0]
    exact upsertContact_found db res pid c.email c0 _
  · intro db res pid pdm e hce hsome
    obtain ⟨c0, hc0⟩ := Option.isSome_iff_exists.mp hsome
    unfold cfpImportPDM
    simp only [hce, hc0]
    exact upsertContact_found db res pid (some e) c0 _
  · intro db res pid pcn c e hskip hce hsome
    obtain ⟨c0, hc0⟩ := Option.isSome_iff_exists.mp hsome
    unfold flatImportContact
    simp only [hskip, Bool.false_eq_true, if_false, hce, hc0]
    exact upsertContact_found db res pid (some e) c0 _
  · intro db res pid r dm e hdm hname hce hsome
    obtain ⟨c0, hc0⟩ := Option.isSome_iff_exists.mp hsome
    unfold adImportDM
    simp [hdm, hname, hce, hc0]

/-- Witness for the amended C4: a fresh direct primary contact imported
twice, a placeholder-email contact imported twice, and one found-existing
re-import per remaining variant against the same stored contact. -/
theorem contact_dedup_amended_witness :
    (cleanEmail pcDana.email = some "dana@x.org" ∧
     findContactByEmail {} 0 (some "dana@x.org") = none ∧
     (directImportPrimary 0 (({} : DB), resT) pcDana).1.contacts.length
        = ({} : DB).contacts.length + 1 ∧
     (directImportPrimary 0 (({} : DB), resT) pcDana).2.contacts_created
        = resT.contacts_created + 1 ∧
     (directImportPrimary 0 (directImportPrimary 0 (({} : DB), resT) pcDana) pcDana).1.contacts.length
        = ({} : DB).contacts.length + 1 ∧
     (directImportPrimary 0 (directImportPrimary 0 (({} : DB), resT) pcDana) pcDana).2.contacts_updated
        = resT.contacts_updated + 1 ∧
     (directImportPrimary 0 (directImportPrimary 0 (({} : DB), resT) pcDana) pcDana).2.contacts_created
        = resT.contacts_created + 1) ∧
    (cleanEmail pcNoEmail.email = none ∧
     (directImportPrimary 0 (directImportPrimary 0 (({} : DB), resT) pcNoEmail) pcNoEmail).1.contacts.length
        = ({} : DB).contacts.length + 2 ∧
     (directImportPrimary 0 (directImportPrimary 0 (({} : DB), resT) pcNoEmail) pcNoEmail).2.contacts_created
        = resT.contacts_created + 2) ∧
    (enrichSkip ecZ = false ∧ truthyS ecZ.email = true ∧
     (findContactByEmail dbWithContactZ 0 ecZ.email).isSome ∧
     (enrichImportContact 0 none (dbWithContactZ, resT) ecZ).1.contacts.length
        = dbWithContactZ.contacts.length ∧
     (enrichImportContact 0 none (dbWithContactZ, resT) ecZ).2.contacts_updated
        = resT.contacts_updated + 1 ∧
     (enrichImportContact 0 none (dbWithContactZ, resT) ecZ).2.contacts_created
        = resT.contacts_created) ∧
    (cleanEmail pdmZ.email = some "z@x.org" ∧
     (findContactByEmail dbWithContactZ 0 (some "z@x.org")).isSome ∧
     (cfpImportPDM 0 (dbWithContactZ, resT) pdmZ).1.contacts.length
        = dbWithContactZ.contacts.length ∧
     (cfpImportPDM 0 (dbWithContactZ, resT) pdmZ).2.contacts_updated
        = resT.contacts_updated + 1 ∧
     (cfpImportPDM 0 (dbWithContactZ, resT) pdmZ).2.contacts_created
        = resT.contacts_created) ∧
    (flatSkip flatZ = false ∧ cleanEmail flatZ.email = some "z@x.org" ∧
     (flatImportContact 0 none (dbWithContactZ, resT) flatZ).1.contacts.length
        = dbWithContactZ.contacts.length ∧
     (flatImportContact 0 none (dbWithContactZ, resT) flatZ).2.contacts_updated
        = resT.contacts_updated + 1 ∧
     (flatImportContact 0 none (dbWithContactZ, resT) flatZ).2.contacts_created
        = resT.contacts_created) ∧
    (adPickDM recDMZ = some dmZ ∧ truthyS dmZ.name = true ∧
     cleanEmail dmZ.email = some "z@x.org" ∧
     adImportDM dbWithContactZ resT 0 recDMZ = (dbWithContactZ, resT)) :=
  ⟨⟨by decide, by decide,
    contact_dedup_amended.1 {} resT 0 pcDana "dana@x.org" (by decide) (by decide)⟩,
   ⟨by decide,
    contact_dedup_amended.2.1 {} resT 0 pcNoEmail (by decide)⟩,
   ⟨by decide, by decide, by decide,
    contact_dedup_amended.2.2.1 dbWithContactZ resT 0 none ecZ
      (by decide) (by decide) (by decide)⟩,
   ⟨by decide, by decide,
    contact_dedup_amended.2.2.2.1 dbWithContactZ resT 0 pdmZ "z@x.org"
      (by decide) (by decide)⟩,
   ⟨by decide, by decide,
    contact_dedup_amended.2.2.2.2.1 dbWithContactZ resT 0 none flatZ "z@x.org"
      (by decide) (by decide) (by decide)⟩,
   ⟨by decide, by decide, by decide,
    contact_dedup_amended.2.2.2.2.2 dbWithContactZ resT 0 recDMZ dmZ "z@x.org"
      (by decide) (by decide) (by decide) (by decide)⟩⟩

/-! ## Score-key helper lemmas -/

theorem scoreFilter_eq_key (pid : Nat) (dim : String) (s : ProspectScore) :
    scoreFilter pid dim s = true ↔ scoreKey s = (pid, dim) := by
  unfold scoreFilter scoreKey
  rw [Bool.and_eq_true, beq_iff_eq, beq_iff_eq, Prod.mk.injEq]

theorem findScore_none_iff (db : DB) (pid : Nat) (dim : String) :
    findScore db pid dim = none ↔ (pid, dim) ∉ scoreKeys db := by
  unfold findScore scoreKeys
  rw [List.find?_eq_none]
  constructor
  · intro h hmem
    obtain ⟨s, hs, hk⟩ := List.mem_map.mp hmem
    exact h s hs ((scoreFilter_eq_key pid dim s).mpr hk)
  · intro h s hs hf
    exact h (List.mem_map.mpr ⟨s, hs, (scoreFilter_eq_key pid dim s).mp hf⟩)

theorem importScoreDim_keys (pid : Nat) (bd : List (String × ScoreBreakdownEntry))
    (db : DB) (ent : String × String × Int) :
    importScoreDim pid bd db ent = db ∨
    ∃ row, (importScoreDim pid bd db ent).scores = db.scores ++ [row] ∧
      row.prospect_id = pid ∧ (pid, row.dimension) ∉ scoreKeys db := by
  rcases ent with ⟨sk, ou, w⟩
  cases hb : bd.lookup sk with
  | none => exact Or.inl (by unfold importScoreDim; simp [hb])
  | some b =>
      cases hex : findScore db pid ou with
      | some s0 => exact Or.inl (by unfold importScoreDim; simp [hb, hex])
      | none =>
          refine Or.inr
            ⟨{ id := db.nextId
               prospect_id := pid
               dimension := ou
               score := min 10 (max 1 (b.score.getD 5))
               weight := min 5 (max 1 (b.weight.getD w))
               notes := some ("Imported from skill (" ++ sk ++ ")")
               scored_by := some "agent:import" }, ?_, rfl,
              (findScore_none_iff db pid ou).mp hex⟩
          unfold importScoreDim
          simp [hb, hex]

theorem scoresFold_nodup_keys (pid : Nat) (bd : List (String × ScoreBreakdownEntry)) :
    ∀ (ents : List (String × String × Int)) (db : DB),
      (scoreKeys db).Nodup →
      (scoreKeys (ents.foldl (importScoreDim pid bd) db)).Nodup ∧
      ∃ tail, (ents.foldl (importScoreDim pid bd) db).scores = db.scores ++ tail ∧
        ∀ s ∈ tail, s.prospect_id = pid ∧ (pid, s.dimension) ∉ scoreKeys db := by
  intro ents
  induction ents with
  | nil => intro db h; exact ⟨h, ⟨[], by simp, by simp⟩⟩
  | cons ent t ih =>
      intro db h
      rw [List.foldl_cons]
      rcases importScoreDim_keys pid bd db ent with heq | ⟨row, hsc, hrp, hrk⟩
      · rw [heq]
        exact ih db h
      · have hkeys : scoreKeys (importScoreDim pid bd db ent)
            = scoreKeys db ++ [(pid, row.dimension)] := by
          unfold scoreKeys
          rw [hsc, List.map_append]
          simp [scoreKey, hrp]
        have hnd2 : (scoreKeys (importScoreDim pid bd db ent)).Nodup := by
          rw [hkeys]
          refine List.Nodup.append h (List.nodup_singleton _) ?_
          intro a ha hb
          rw [List.mem_singleton] at hb
          subst hb
          exact hrk ha
        obtain ⟨hndf, tail2, hsc2, htl2⟩ := ih (importScoreDim pid bd db ent) hnd2
        refine ⟨hndf, ⟨row :: tail2, ?_, ?_⟩⟩
        · rw [hsc2, hsc, List.append_assoc, List.singleton_append]
        · intro s hsm
          rcases List.mem_cons.mp hsm with hrfl | hsm2
          · subst hrfl
            exact ⟨hrp, hrk⟩
          · obtain ⟨hp2, hk2⟩ := htl2 s hsm2
            refine ⟨hp2, fun hmem => hk2 ?_⟩
            rw [hkeys]
            exact List.mem_append_left _ hmem

/-- C7: score import preserves the at-most-one-row-per-(prospect, dimension)
invariant: when the stored score keys are duplicate-free they stay so, the
stored rows survive unchanged as a prefix, every appended row belongs to
the imported prospect and carries a key that was not yet present, and the
lookup of any already-scored dimension returns the same row afterwards. -/
theorem score_import_invariant (db : DB) (pid : Nat)
    (bd : List (String × ScoreBreakdownEntry))
    (h : (scoreKeys db).Nodup) :
    (scoreKeys (_import_scores db pid bd)).Nodup ∧
    (∃ tail, (_import_scores db pid bd).scores = db.scores ++ tail ∧
      ∀ s ∈ tail, s.prospect_id = pid ∧ (pid, s.dimension) ∉ scoreKeys db) ∧
    ∀ dim, (findScore db pid dim).isSome →
      findScore (_import_scores db pid bd) pid dim = findScore db pid dim := by
  have base : (scoreKeys (_import_scores db pid bd)).Nodup ∧
      ∃ tail, (_import_scores db pid bd).scores = db.scores ++ tail ∧
        ∀ s ∈ tail, s.prospect_id = pid ∧ (pid, s.dimension) ∉ scoreKeys db := by
    unfold _import_scores
    by_cases hbd : bd.isEmpty
    · rw [if_pos hbd]
      exact ⟨h, ⟨[], by simp, by simp⟩⟩
    · rw [if_neg hbd]
      exact scoresFold_nodup_keys pid bd dimension_map db h
  obtain ⟨hnd, tail, hsc, htl⟩ := base
  refine ⟨hnd, ⟨tail, hsc, htl⟩, ?_⟩
  intro dim hsome
  obtain ⟨s0, hs0⟩ := Option.isSome_iff_exists.mp hsome
  unfold findScore at hs0 ⊢
  rw [hsc, find?_append_some hs0, hs0]

/-- Witness for C7: a store already holding a geography score for prospect
0, re-imported with a breakdown naming geography and budget. -/
theorem score_import_invariant_witness :
    (scoreKeys dbWithGeoScore).Nodup ∧
    ((scoreKeys (_import_scores dbWithGeoScore 0 breakdownGeoBudget)).Nodup ∧
     (∃ tail, (_import_scores dbWithGeoScore 0 breakdownGeoBudget).scores
         = dbWithGeoScore.scores ++ tail ∧
       ∀ s ∈ tail, s.prospect_id = 0 ∧ (0, s.dimension) ∉ scoreKeys dbWithGeoScore) ∧
     ∀ dim, (findScore dbWithGeoScore 0 dim).isSome →
       findScore (_import_scores dbWithGeoScore 0 breakdownGeoBudget) 0 dim
         = findScore dbWithGeoScore 0 dim) :=
  ⟨by decide, score_import_invariant dbWithGeoScore 0 breakdownGeoBudget (by decide)⟩

/-- C10 amended: the enrichment gate skips a contact silently - store and
result both unchanged - only when its confidence is present AND non-zero
and below 70; the flat gate does the same below 60 and for the literal
name "unknown"; a present confidence of exactly 0 is treated as absent by
the Python truthiness test and is not skipped (see the counterexample). -/
theorem confidence_gate_amended :
    (∀ (db : DB) (res : ImportResult) (pid : Nat) (pcn : Option String)
        (c : EnrichedContact),
        truthyI c.confidence = true → c.confidence.getD 0 < 70 →
        enrichImportContact pid pcn (db, res) c = (db, res)) ∧
    (∀ (db : DB) (res : ImportResult) (pid : Nat) (pcn : Option String)
        (c : ContactFinderFlatContact),
        truthyI c.confidence = true → c.confidence.getD 0 < 60 →
        flatImportContact pid pcn (db, res) c = (db, res)) ∧
    (∀ (db : DB) (res : ImportResult) (pid : Nat) (pcn : Option String)
        (c : ContactFinderFlatContact),
        pyLower c.name = "unknown" →
        flatImportContact pid pcn (db, res) c = (db, res)) ∧
    (∀ c : EnrichedContact, c.confidence = some 0 → enrichSkip c = false) := by
  refine ⟨?_, ?_, ?_, ?_⟩
  · intro db res pid pcn c h1 h2
    have hskip : enrichSkip c = true := by
      unfold enrichSkip
      rw [h1]
      simp [h2]
    unfold enrichImportContact
    simp [hskip]
  · intro db res pid pcn c h1 h2
    have hskip : flatSkip c = true := by
      unfold flatSkip
      rw [h1]
      simp [h2]
    unfold flatImportContact
    simp [hskip]
  · intro db res pid pcn c h1
    have hskip : flatSkip c = true := by
      unfold flatSkip
      rw [h1]
      simp
    unfold flatImportContact
    simp [hskip]
  · intro c h
    unfold enrichSkip
    rw [h]
    decide

/-- Witness for the amended C10: an enrichment contact at confidence 50 and
a flat contact at confidence 40 are silently dropped, a flat contact named
Unknown is dropped, and a zero-confidence enrichment contact passes the
gate. -/
theorem confidence_gate_amended_witness :
    (truthyI ec50.confidence = true ∧ ec50.confidence.getD 0 < 70 ∧
     enrichImportContact 0 none (({} : DB), resT) ec50 = (({} : DB), resT)) ∧
    (truthyI flat40.confidence = true ∧ flat40.confidence.getD 0 < 60 ∧
     flatImportContact 0 none (({} : DB), resT) flat40 = (({} : DB), resT)) ∧
    (pyLower flatUnknown.name = "unknown" ∧
     flatImportContact 0 none (({} : DB), resT) flatUnknown = (({} : DB), resT)) ∧
    (ecConf0.confidence = some 0 ∧ enrichSkip ecConf0 = false) :=
  ⟨⟨by decide, by decide,
    confidence_gate_amended.1 {} resT 0 none ec50 (by decide) (by decide)⟩,
   ⟨by decide, by decide,
    confidence_gate_amended.2.1 {} resT 0 none flat40 (by decide) (by decide)⟩,
   ⟨by decide,
    confidence_gate_amended.2.2.1 {} resT 0 none flatUnknown (by decide)⟩,
   ⟨by decide, confidence_gate_amended.2.2.2 ecConf0 (by decide)⟩⟩

/-! ## Contact-key and fuzzy-resolution lemmas for re-import reasoning -/

theorem findContact_eq_findKey (pid : Nat) (e : Option String) :
    ∀ l : List Contact,
      (l.find? (contactEmailFilter pid e)).map cKey
        = (l.map cKey).find? (cKeyFilter pid e) := by
  intro l
  induction l with
  | nil => rfl
  | cons c t ih =>
      unfold cKeyFilter at ih ⊢
      simp only [List.map_cons, List.find?, cKey]
      cases hf : c.prospect_id == pid && c.email == e && c.deleted_at == none with
      | true =>
          have h1 : contactEmailFilter pid e c = true := hf
          rw [h1]
          rfl
      | false =>
          have h1 : contactEmailFilter pid e c = false := hf
          rw [h1]
          exact ih

theorem contactKeyExists_iff_keys (db : DB) (pid : Nat) (e : String) :
    contactKeyExists db pid e ↔
      (((contactKeys db).find? (cKeyFilter pid (some e))).isSome = true) := by
  unfold contactKeyExists contactKeys findContactByEmail
  rw [← findContact_eq_findKey]
  cases db.contacts.find? (contactEmailFilter pid (some e)) <;> simp

theorem contactKeyExists_keygrow {s t : DB}
    (h : ∃ ex, contactKeys t = contactKeys s ++ ex)
    {pid : Nat} {e : String} (hc : contactKeyExists s pid e) :
    contactKeyExists t pid e := by
  obtain ⟨ex, he⟩ := h
  rw [contactKeyExists_iff_keys] at hc ⊢
  rw [he]
  exact find?_append_isSome hc

theorem contactKeyExists_of_keyeq {s t : DB} (h : contactKeys t = contactKeys s)
    {pid : Nat} {e : String} (hc : contactKeyExists s pid e) :
    contactKeyExists t pid e := by
  rw [contactKeyExists_iff_keys] at hc ⊢
  rw [h]
  exact hc

theorem contactEmailFilter_spec {pid : Nat} {e : Option String} {c : Contact}
    (h : contactEmailFilter pid e c = true) :
    c.prospect_id = pid ∧ c.email = e ∧ c.deleted_at = none := by
  unfold contactEmailFilter at h
  rw [Bool.and_eq_true, Bool.and_eq_true] at h
  exact ⟨by simpa using h.1.1, by simpa using h.1.2, by simpa using h.2⟩

theorem upsertContact_keys_found (db : DB) (res : ImportResult) (pid : Nat)
    (le : Option String) (c0 : Contact) (d : ContactDict)
    (hf : findContactByEmail db pid le = some c0) (hde : d.email = le) :
    contactKeys (upsertContact db res pid le (some c0) d).1 = contactKeys db := by
  obtain ⟨h1, h2, h3⟩ := contactEmailFilter_spec (List.find?_some hf)
  have hor : (d.email).or c0.email = c0.email := by
    rw [hde, h2]
    cases le <;> rfl
  have hkey : cKey (applyContactDict c0 d) = cKey c0 := by
    show (c0.prospect_id, (d.email).or c0.email, c0.deleted_at)
      = (c0.prospect_id, c0.email, c0.deleted_at)
    rw [hor]
  unfold upsertContact updateContactByEmail contactKeys
  exact map_replaceFirstBy cKey _ _ db.contacts c0 hf hkey

theorem upsertContact_keys_new (db : DB) (res : ImportResult) (pid : Nat)
    (le : Option String) (d : ContactDict) :
    contactKeys (upsertContact db res pid le none d).1
      = contactKeys db ++ [(pid, d.email, none)] := by
  unfold upsertContact contactKeys
  simp [cKey, makeContact]

theorem upsert_lookup_settles (db : DB) (res : ImportResult) (pid : Nat)
    (e : String) (d : ContactDict) (hde : d.email = some e) :
    contactKeyExists
      (upsertContact db res pid (some e) (findContactByEmail db pid (some e)) d).1
      pid e := by
  cases hf : findContactByEmail db pid (some e) with
  | some c0 =>
      have hex : contactKeyExists db pid e := by
        unfold contactKeyExists
        rw [hf]
        rfl
      exact contactKeyExists_of_keyeq
        (upsertContact_keys_found db res pid (some e) c0 d hf hde) hex
  | none =>
      have hhit := findContact_append_hit db.contacts pid (some e)
        (makeContact db.nextId pid d) rfl hde rfl hf
      exact Option.isSome_iff_exists.mpr ⟨_, hhit⟩

theorem upsert_lookup_noop (db : DB) (res : ImportResult) (pid : Nat)
    (e : String) (d : ContactDict) (hde : d.email = some e)
    (hex : contactKeyExists db pid e) :
    contactKeys (upsertContact db res pid (some e)
        (findContactByEmail db pid (some e)) d).1 = contactKeys db ∧
    (upsertContact db res pid (some e)
        (findContactByEmail db pid (some e)) d).1.prospects = db.prospects ∧
    (upsertContact db res pid (some e)
        (findContactByEmail db pid (some e)) d).1.scores = db.scores ∧
    (upsertContact db res pid (some e)
        (findContactByEmail db pid (some e)) d).2.contacts_created
      = res.contacts_created := by
  have hex2 : (findContactByEmail db pid (some e)).isSome := hex
  obtain ⟨c0, hf⟩ := Option.isSome_iff_exists.mp hex2
  rw [hf]
  exact ⟨upsertContact_keys_found db res pid (some e) c0 d hf hde, rfl, rfl, rfl⟩

theorem findFuzzy_eq_find (n : String) :
    ∀ l : List Prospect,
      ((l.find? (prospectFuzzyFilter n)).map Prospect.id) = findFuzzyKey (l.map pKey) n := by
  intro l
  induction l with
  | nil => rfl
  | cons p t ih =>
      unfold findFuzzyKey at ih ⊢
      simp only [List.map_cons, List.find?, pKey]
      cases hf : pyContains (pyLower p.name) (pyLower n) && p.deleted_at == none with
      | true =>
          have h1 : prospectFuzzyFilter n p = true := hf
          rw [h1]
          rfl
      | false =>
          have h1 : prospectFuzzyFilter n p = false := hf
          rw [h1]
          exact ih

theorem fuzzyKey_iff (db : DB) (n : String) (k : Nat) :
    findFuzzyKey (prospectKeys db) n = some k ↔
      ((db.prospects.find? (prospectFuzzyFilter n)).map Prospect.id) = some k := by
  unfold prospectKeys
  rw [findFuzzy_eq_find]

theorem exactMiss_iff (db : DB) (n : String) :
    findKeyByName (prospectKeys db) n = none ↔ findProspectByName db n = none := by
  unfold prospectKeys
  rw [← findKey_eq_find]
  unfold findProspectByName
  cases db.prospects.find? (prospectNameFilter n) <;> simp

theorem fuzzyMiss_iff (db : DB) (n : String) :
    findFuzzyKey (prospectKeys db) n = none ↔ findProspectFuzzy db n = none := by
  unfold prospectKeys
  rw [← findFuzzy_eq_find]
  unfold findProspectFuzzy
  cases db.prospects.find? (prospectFuzzyFilter n) <;> simp

theorem fuzzyTo_of_find {db : DB} {n : String} {p : Prospect}
    (h : findProspectFuzzy db n = some p) :
    findFuzzyKey (prospectKeys db) n = some p.id := by
  rw [fuzzyKey_iff]
  unfold findProspectFuzzy at h
  rw [h]
  rfl

theorem findFuzzy_of_key {db : DB} {n : String} {k : Nat}
    (h : findFuzzyKey (prospectKeys db) n = some k) :
    ∃ p, findProspectFuzzy db n = some p ∧ p.id = k := by
  rw [fuzzyKey_iff] at h
  cases hf : findProspectFuzzy db n with
  | none =>
      unfold findProspectFuzzy at hf
      rw [hf] at h
      simp at h
  | some p =>
      unfold findProspectFuzzy at hf
      rw [hf] at h
      simp at h
      exact ⟨p, rfl, h⟩

theorem findProspect_eq_of_key {db : DB} {n : String} {k : Nat}
    (h : findKeyByName (prospectKeys db) n = some k) :
    ∃ p, findProspectByName db n = some p ∧ p.id = k :=
  findProspect_of_resolves h

theorem findKeyByName_append_some {keys : List (String × Nat × Option Nat)}
    {n : String} {k : Nat} (h : findKeyByName keys n = some k)
    (ex : List (String × Nat × Option Nat)) :
    findKeyByName (keys ++ ex) n = some k := by
  unfold findKeyByName at h ⊢
  cases hf : keys.find? fun kk => kk.1 == n && kk.2.2 == none with
  | none => rw [hf] at h; simp at h
  | some a =>
      rw [hf] at h
      rw [find?_append_some hf]
      exact h

theorem findFuzzyKey_append_some {keys : List (String × Nat × Option Nat)}
    {n : String} {k : Nat} (h : findFuzzyKey keys n = some k)
    (ex : List (String × Nat × Option Nat)) :
    findFuzzyKey (keys ++ ex) n = some k := by
  unfold findFuzzyKey at h ⊢
  cases hf : keys.find? fun kk => pyContains (pyLower kk.1) (pyLower n) && kk.2.2 == none with
  | none => rw [hf] at h; simp at h
  | some a =>
      rw [hf] at h
      rw [find?_append_some hf]
      exact h

/-! ## Growth-relation algebra and settledness transport -/

theorem cGrow_refl (s : DB) : cGrow s s := ⟨⟨[], by simp⟩, rfl, rfl⟩

theorem cGrow_trans {s t u : DB} (h1 : cGrow s t) (h2 : cGrow t u) : cGrow s u := by
  obtain ⟨⟨c1, hc1⟩, hp1, hs1⟩ := h1
  obtain ⟨⟨c2, hc2⟩, hp2, hs2⟩ := h2
  exact ⟨⟨c1 ++ c2, by rw [hc2, hc1, List.append_assoc]⟩, hp2.trans hp1, hs2.trans hs1⟩

theorem keyGrow_refl (s : DB) : keyGrow s s := ⟨⟨[], by simp⟩, ⟨[], by simp⟩, rfl⟩

theorem keyGrow_trans {s t u : DB} (h1 : keyGrow s t) (h2 : keyGrow t u) : keyGrow s u := by
  obtain ⟨⟨p1, hp1⟩, ⟨c1, hc1⟩, hs1⟩ := h1
  obtain ⟨⟨p2, hp2⟩, ⟨c2, hc2⟩, hs2⟩ := h2
  exact ⟨⟨p1 ++ p2, by rw [hp2, hp1, List.append_assoc]⟩,
    ⟨c1 ++ c2, by rw [hc2, hc1, List.append_assoc]⟩, hs2.trans hs1⟩

theorem directGrow_refl (s : DB) : directGrow s s :=
  ⟨fun _ _ h => h, fun _ _ h => h, fun _ _ h _ => h, ⟨[], by simp⟩, rfl⟩

theorem directGrow_trans {s t u : DB} (h1 : directGrow s t) (h2 : directGrow t u) :
    directGrow s u := by
  obtain ⟨e1, f1, m1, ⟨c1, hc1⟩, s1⟩ := h1
  obtain ⟨e2, f2, m2, ⟨c2, hc2⟩, s2⟩ := h2
  exact ⟨fun n k h => e2 n k (e1 n k h),
    fun n k h => f2 n k (f1 n k h),
    fun n k hm hf => m2 n k (m1 n k hm hf) (f1 n k hf),
    ⟨c1 ++ c2, by rw [hc2, hc1, List.append_assoc]⟩, s2.trans s1⟩

theorem enrichGrow_refl (s : DB) : enrichGrow s s := ⟨rfl, ⟨[], by simp⟩, rfl⟩

theorem enrichGrow_trans {s t u : DB} (h1 : enrichGrow s t) (h2 : enrichGrow t u) :
    enrichGrow s u := by
  obtain ⟨hp1, ⟨c1, hc1⟩, hs1⟩ := h1
  obtain ⟨hp2, ⟨c2, hc2⟩, hs2⟩ := h2
  exact ⟨hp2.trans hp1, ⟨c1 ++ c2, by rw [hc2, hc1, List.append_assoc]⟩, hs2.trans hs1⟩

theorem settledCFP_mono {s t : DB} (h : keyGrow s t) {r : ContactFinderProspectVariant}
    (hs : settledCFP s r) : settledCFP t r := by
  obtain ⟨k, hres, hc⟩ := hs
  exact ⟨k, resolvesTo_mono h.1 hres,
    fun e he => contactKeyExists_keygrow h.2.1 (hc e he)⟩

theorem settledFlat_mono {s t : DB} (h : keyGrow s t) {r : ContactFinderFlatProspect}
    (hs : settledFlat s r) : settledFlat t r := by
  obtain ⟨k, hres, hc⟩ := hs
  exact ⟨k, resolvesTo_mono h.1 hres,
    fun e he => contactKeyExists_keygrow h.2.1 (hc e he)⟩

theorem settledDirect_mono {s t : DB} (h : directGrow s t) {r : ContactFinderProspect}
    (hs : settledDirect s r) : settledDirect t r := by
  obtain ⟨k, hres, hc⟩ := hs
  refine ⟨k, ?_, fun e he => contactKeyExists_keygrow h.2.2.2.1 (hc e he)⟩
  rcases hres with hx | ⟨hm, hfz⟩
  · exact Or.inl (h.1 _ _ hx)
  · exact Or.inr ⟨h.2.2.1 _ _ hm hfz, h.2.1 _ _ hfz⟩

theorem settledEnrich_mono {s t : DB} (h : enrichGrow s t) {e : EnrichedProspect}
    (hs : settledEnrich s e) : settledEnrich t e := by
  obtain ⟨hp, hcg, hsc⟩ := h
  rcases hs with ⟨hm1, hm2⟩ | ⟨k, hres, hc⟩
  · exact Or.inl ⟨by rw [hp]; exact hm1, by rw [hp]; exact hm2⟩
  · refine Or.inr ⟨k, ?_, fun em he => contactKeyExists_keygrow hcg (hc em he)⟩
    rcases hres with hx | ⟨hm, hfz⟩
    · exact Or.inl (by rw [hp]; exact hx)
    · exact Or.inr ⟨by rw [hp]; exact hm, by rw [hp]; exact hfz⟩

theorem settledCFP_of_eq {s t : DB} (hp : prospectKeys t = prospectKeys s)
    (hc : contactKeys t = contactKeys s) {r : ContactFinderProspectVariant}
    (hs : settledCFP s r) : settledCFP t r := by
  obtain ⟨k, hres, hcs⟩ := hs
  refine ⟨k, ?_, fun e he => contactKeyExists_of_keyeq hc (hcs e he)⟩
  unfold resolvesTo at hres ⊢
  rw [hp]
  exact hres

theorem settledFlat_of_eq {s t : DB} (hp : prospectKeys t = prospectKeys s)
    (hc : contactKeys t = contactKeys s) {r : ContactFinderFlatProspect}
    (hs : settledFlat s r) : settledFlat t r := by
  obtain ⟨k, hres, hcs⟩ := hs
  refine ⟨k, ?_, fun e he => contactKeyExists_of_keyeq hc (hcs e he)⟩
  unfold resolvesTo at hres ⊢
  rw [hp]
  exact hres

theorem settledDirect_of_eq {s t : DB} (hp : prospectKeys t = prospectKeys s)
    (hc : contactKeys t = contactKeys s) {r : ContactFinderProspect}
    (hs : settledDirect s r) : settledDirect t r := by
  obtain ⟨k, hres, hcs⟩ := hs
  refine ⟨k, ?_, fun e he => contactKeyExists_of_keyeq hc (hcs e he)⟩
  rw [hp]
  exact hres

theorem settledEnrich_of_eq {s t : DB} (hp : prospectKeys t = prospectKeys s)
    (hc : contactKeys t = contactKeys s) {e : EnrichedProspect}
    (hs : settledEnrich s e) : settledEnrich t e := by
  rcases hs with hmiss | ⟨k, hres, hcs⟩
  · exact Or.inl (by rw [hp]; exact hmiss)
  · exact Or.inr ⟨k, by rw [hp]; exact hres,
      fun em he => contactKeyExists_of_keyeq hc (hcs em he)⟩

/-! ## Generic contact-fold combinators -/

theorem cfold_grow {α : Type} (h : (DB × ImportResult) → α → DB × ImportResult)
    (H : ∀ s c, cGrow s.1 ((h s c).1)) :
    ∀ (l : List α) (s : DB × ImportResult), cGrow s.1 ((l.foldl h s).1) := by
  intro l
  induction l with
  | nil => intro s; exact cGrow_refl s.1
  | cons c t ih =>
      intro s
      rw [List.foldl_cons]
      exact cGrow_trans (H s c) (ih (h s c))

theorem cfold_settles {α : Type} (h : (DB × ImportResult) → α → DB × ImportResult)
    (pid : Nat) (em : α → Option String)
    (HG : ∀ s c, cGrow s.1 ((h s c).1))
    (HS : ∀ s c e, em c = some e → contactKeyExists ((h s c).1) pid e) :
    ∀ (l : List α) (s : DB × ImportResult) (c : α), c ∈ l →
      ∀ e, em c = some e → contactKeyExists ((l.foldl h s).1) pid e := by
  intro l
  induction l with
  | nil => intro s c hc; simp at hc
  | cons c0 t ih =>
      intro s c hc e he
      rw [List.foldl_cons]
      rcases List.mem_cons.mp hc with rfl | hct
      · exact contactKeyExists_keygrow (cfold_grow h HG t (h s c)).1 (HS s c e he)
      · exact ih (h s c0) c hct e he

theorem cfold_noop {α : Type} (h : (DB × ImportResult) → α → DB × ImportResult)
    (pid : Nat) (em : α → Option String) (uc : α → Bool)
    (HN : ∀ s c, uc c = true →
        (∀ e, em c = some e → contactKeyExists s.1 pid e) →
        contactKeys ((h s c).1) = contactKeys s.1 ∧
        ((h s c).1).prospects = s.1.prospects ∧
        ((h s c).1).scores = s.1.scores ∧
        ((h s c).2).contacts_created = s.2.contacts_created) :
    ∀ (l : List α) (s : DB × ImportResult),
      (∀ c ∈ l, uc c = true ∧ ∀ e, em c = some e → contactKeyExists s.1 pid e) →
      contactKeys ((l.foldl h s).1) = contactKeys s.1 ∧
      ((l.foldl h s).1).prospects = s.1.prospects ∧
      ((l.foldl h s).1).scores = s.1.scores ∧
      ((l.foldl h s).2).contacts_created = s.2.contacts_created := by
  intro l
  induction l with
  | nil => intro s _; exact ⟨rfl, rfl, rfl, rfl⟩
  | cons c0 t ih =>
      intro s hall
      rw [List.foldl_cons]
      obtain ⟨hu0, hset0⟩ := hall c0 (by simp)
      have hstep := HN s c0 hu0 hset0
      have hrest := ih (h s c0) (fun c hc =>
        ⟨(hall c (List.mem_cons_of_mem _ hc)).1,
         fun e he => contactKeyExists_of_keyeq hstep.1
           ((hall c (List.mem_cons_of_mem _ hc)).2 e he)⟩)
      exact ⟨hrest.1.trans hstep.1, hrest.2.1.trans hstep.2.1,
        hrest.2.2.1.trans hstep.2.2.1, hrest.2.2.2.trans hstep.2.2.2⟩

/-- A truthy optional string is some value. -/
theorem truthyS_some {o : Option String} (h : truthyS o = true) : ∃ s, o = some s := by
  cases o with
  | none => simp [truthyS] at h
  | some s => exact ⟨s, rfl⟩

/-! ## Key-growth, settle and noop behavior of each contact-import helper -/

theorem enrichImportContact_cgrow (pid : Nat) (pcn : Option String) :
    ∀ (s : DB × ImportResult) (c : EnrichedContact),
      cGrow s.1 ((enrichImportContact pid pcn s c).1) := by
  intro s c
  obtain ⟨db, res⟩ := s
  unfold enrichImportContact
  by_cases hskip : enrichSkip c
  · simp only [hskip, if_true]
    exact cGrow_refl db
  · simp only [hskip, Bool.false_eq_true, if_false]
    by_cases hem : truthyS c.email
    · simp only [hem, eq_self_iff_true, if_true]
      cases hf : findContactByEmail db pid c.email with
      | some c0 =>
          refine ⟨⟨[], ?_⟩, rfl, rfl⟩
          rw [List.append_nil]
          exact upsertContact_keys_found db res pid c.email c0 _ hf rfl
      | none =>
          refine ⟨⟨[(pid, c.email, none)], ?_⟩, rfl, rfl⟩
          exact upsertContact_keys_new db res pid c.email _
    · simp only [hem, Bool.false_eq_true, if_false]
      refine ⟨⟨[(pid, c.email, none)], ?_⟩, rfl, rfl⟩
      exact upsertContact_keys_new db res pid c.email _

theorem enrichImportContact_csettles (pid : Nat) (pcn : Option String) :
    ∀ (s : DB × ImportResult) (c : EnrichedContact) (e : String),
      enrichEmailOf c = some e →
      contactKeyExists ((enrichImportContact pid pcn s c).1) pid e := by
  intro s c e he
  obtain ⟨db, res⟩ := s
  unfold enrichEmailOf at he
  by_cases hskip : enrichSkip c
  · rw [if_pos hskip] at he
    cases he
  · rw [if_neg hskip] at he
    by_cases hem : truthyS c.email
    · rw [if_pos hem] at he
      have hemE : truthyS (some e) = true := by
        rw [← he]
        exact hem
      unfold enrichImportContact
      simp only [hskip, Bool.false_eq_true, if_false, he, hemE, eq_self_iff_true, if_true]
      refine upsert_lookup_settles db res pid e _ ?_
      rfl
    · rw [if_neg hem] at he
      cases he

theorem enrichImportContact_cnoop (pid : Nat) (pcn : Option String) :
    ∀ (s : DB × ImportResult) (c : EnrichedContact),
      enrichUsable c = true →
      (∀ e, enrichEmailOf c = some e → contactKeyExists s.1 pid e) →
      contactKeys ((enrichImportContact pid pcn s c).1) = contactKeys s.1 ∧
      ((enrichImportContact pid pcn s c).1).prospects = s.1.prospects ∧
      ((enrichImportContact pid pcn s c).1).scores = s.1.scores ∧
      ((enrichImportContact pid pcn s c).2).contacts_created = s.2.contacts_created := by
  intro s c hu hset
  obtain ⟨db, res⟩ := s
  by_cases hskip : enrichSkip c
  · unfold enrichImportContact
    simp only [hskip, if_true]
    exact ⟨by trivial, by trivial, by trivial, by trivial⟩
  · have hem : truthyS c.email = true := by
      unfold enrichUsable at hu
      rw [Bool.or_eq_true] at hu
      rcases hu with h1 | h2
      · exact absurd h1 hskip
      · exact h2
    obtain ⟨e, he⟩ := truthyS_some hem
    have hemE : truthyS (some e) = true := by
      rw [← he]
      exact hem
    have hex : contactKeyExists db pid e := hset e (by
      unfold enrichEmailOf
      rw [if_neg hskip, if_pos hem]
      exact he)
    unfold enrichImportContact
    simp only [hskip, Bool.false_eq_true, if_false, he, hemE, eq_self_iff_true, if_true]
    refine upsert_lookup_noop db res pid e _ ?_ hex
    rfl

theorem directImportPrimary_cgrow (pid : Nat) :
    ∀ (s : DB × ImportResult) (pc : ContactFinderPrimaryContact),
      cGrow s.1 ((directImportPrimary pid s pc).1) := by
  intro s pc
  obtain ⟨db, res⟩ := s
  unfold directImportPrimary
  cases hce : cleanEmail pc.email with
  | none =>
      simp only [hce]
      refine ⟨⟨[(pid, none, none)], ?_⟩, rfl, rfl⟩
      exact upsertContact_keys_new db res pid none _
  | some e =>
      simp only [hce]
      cases hf : findContactByEmail db pid (some e) with
      | some c0 =>
          refine ⟨⟨[], ?_⟩, rfl, rfl⟩
          rw [List.append_nil]
          exact upsertContact_keys_found db res pid (some e) c0 _ hf rfl
      | none =>
          refine ⟨⟨[(pid, some e, none)], ?_⟩, rfl, rfl⟩
          exact upsertContact_keys_new db res pid (some e) _

theorem directImportPrimary_csettles (pid : Nat) :
    ∀ (s : DB × ImportResult) (pc : ContactFinderPrimaryContact) (e : String),
      cleanEmail pc.email = some e →
      contactKeyExists ((directImportPrimary pid s pc).1) pid e := by
  intro s pc e hce
  obtain ⟨db, res⟩ := s
  unfold directImportPrimary
  simp only [hce]
  exact upsert_lookup_settles db res pid e _ rfl

theorem directImportPrimary_cnoop (pid : Nat) :
    ∀ (s : DB × ImportResult) (pc : ContactFinderPrimaryContact),
      (cleanEmail pc.email).isSome = true →
      (∀ e, cleanEmail pc.email = some e → contactKeyExists s.1 pid e) →
      contactKeys ((directImportPrimary pid s pc).1) = contactKeys s.1 ∧
      ((directImportPrimary pid s pc).1).prospects = s.1.prospects ∧
      ((directImportPrimary pid s pc).1).scores = s.1.scores ∧
      ((directImportPrimary pid s pc).2).contacts_created = s.2.contacts_created := by
  intro s pc hu hset
  obtain ⟨db, res⟩ := s
  obtain ⟨e, hce⟩ := Option.isSome_iff_exists.mp hu
  unfold directImportPrimary
  simp only [hce]
  refine upsert_lookup_noop db res pid e _ ?_ (hset e hce)
  rfl

theorem directImportSecondary_cgrow (pid : Nat) :
    ∀ (s : DB × ImportResult) (sc : ContactFinderSecondaryContact),
      cGrow s.1 ((directImportSecondary pid s sc).1) := by
  intro s sc
  obtain ⟨db, res⟩ := s
  unfold directImportSecondary
  cases hce : cleanEmail sc.email with
  | none =>
      simp only [hce]
      refine ⟨⟨[(pid, none, none)], ?_⟩, rfl, rfl⟩
      exact upsertContact_keys_new db res pid none _
  | some e =>
      simp only [hce]
      cases hf : findContactByEmail db pid (some e) with
      | some c0 =>
          refine ⟨⟨[], ?_⟩, rfl, rfl⟩
          rw [List.append_nil]
          exact upsertContact_keys_found db res pid (some e) c0 _ hf rfl
      | none =>
          refine ⟨⟨[(pid, some e, none)], ?_⟩, rfl, rfl⟩
          exact upsertContact_keys_new db res pid (some e) _

theorem directImportSecondary_csettles (pid : Nat) :
    ∀ (s : DB × ImportResult) (sc : ContactFinderSecondaryContact) (e : String),
      dirSecEmailOf sc = some e →
      contactKeyExists ((directImportSecondary pid s sc).1) pid e := by
  intro s sc e hce
  obtain ⟨db, res⟩ := s
  unfold dirSecEmailOf at hce
  unfold directImportSecondary
  simp only [hce]
  exact upsert_lookup_settles db res pid e _ rfl

theorem directImportSecondary_cnoop (pid : Nat) :
    ∀ (s : DB × ImportResult) (sc : ContactFinderSecondaryContact),
      (cleanEmail sc.email).isSome = true →
      (∀ e, dirSecEmailOf sc = some e → contactKeyExists s.1 pid e) →
      contactKeys ((directImportSecondary pid s sc).1) = contactKeys s.1 ∧
      ((directImportSecondary pid s sc).1).prospects = s.1.prospects ∧
      ((directImportSecondary pid s sc).1).scores = s.1.scores ∧
      ((directImportSecondary pid s sc).2).contacts_created = s.2.contacts_created := by
  intro s sc hu hset
  obtain ⟨db, res⟩ := s
  obtain ⟨e, hce⟩ := Option.isSome_iff_exists.mp hu
  unfold directImportSecondary
  simp only [hce]
  refine upsert_lookup_noop db res pid e _ ?_ (hset e (by unfold dirSecEmailOf; exact hce))
  rfl

theorem cfpImportPDM_cgrow (pid : Nat) :
    ∀ (s : DB × ImportResult) (pdm : ContactFinderDecisionMaker),
      cGrow s.1 ((cfpImportPDM pid s pdm).1) := by
  intro s pdm
  obtain ⟨db, res⟩ := s
  unfold cfpImportPDM
  cases hce : cleanEmail pdm.email with
  | none =>
      simp only [hce]
      refine ⟨⟨[(pid, none, none)], ?_⟩, rfl, rfl⟩
      exact upsertContact_keys_new db res pid none _
  | some e =>
      simp only [hce]
      cases hf : findContactByEmail db pid (some e) with
      | some c0 =>
          refine ⟨⟨[], ?_⟩, rfl, rfl⟩
          rw [List.append_nil]
          exact upsertContact_keys_found db res pid (some e) c0 _ hf rfl
      | none =>
          refine ⟨⟨[(pid, some e, none)], ?_⟩, rfl, rfl⟩
          exact upsertContact_keys_new db res pid (some e) _

theorem cfpImportPDM_csettles (pid : Nat) :
    ∀ (s : DB × ImportResult) (pdm : ContactFinderDecisionMaker) (e : String),
      cleanEmail pdm.email = some e →
      contactKeyExists ((cfpImportPDM pid s pdm).1) pid e := by
  intro s pdm e hce
  obtain ⟨db, res⟩ := s
  unfold cfpImportPDM
  simp only [hce]
  exact upsert_lookup_settles db res pid e _ rfl

theorem cfpImportPDM_cnoop (pid : Nat) :
    ∀ (s : DB × ImportResult) (pdm : ContactFinderDecisionMaker),
      (cleanEmail pdm.email).isSome = true →
      (∀ e, cleanEmail pdm.email = some e → contactKeyExists s.1 pid e) →
      contactKeys ((cfpImportPDM pid s pdm).1) = contactKeys s.1 ∧
      ((cfpImportPDM pid s pdm).1).prospects = s.1.prospects ∧
      ((cfpImportPDM pid s pdm).1).scores = s.1.scores ∧
      ((cfpImportPDM pid s pdm).2).contacts_created = s.2.contacts_created := by
  intro s pdm hu hset
  obtain ⟨db, res⟩ := s
  obtain ⟨e, hce⟩ := Option.isSome_iff_exists.mp hu
  unfold cfpImportPDM
  simp only [hce]
  refine upsert_lookup_noop db res pid e _ ?_ (hset e hce)
  rfl

theorem cfpImportSecondary_cgrow (pid : Nat) :
    ∀ (s : DB × ImportResult) (sc : ContactFinderNestedSecondary),
      cGrow s.1 ((cfpImportSecondary pid s sc).1) := by
  intro s sc
  obtain ⟨db, res⟩ := s
  unfold cfpImportSecondary
  cases hce : cleanEmail sc.email with
  | none =>
      simp only [hce]
      refine ⟨⟨[(pid, none, none)], ?_⟩, rfl, rfl⟩
      exact upsertContact_keys_new db res pid none _
  | some e =>
      simp only [hce]
      cases hf : findContactByEmail db pid (some e) with
      | some c0 =>
          refine ⟨⟨[], ?_⟩, rfl, rfl⟩
          rw [List.append_nil]
          exact upsertContact_keys_found db res pid (some e) c0 _ hf rfl
      | none =>
          refine ⟨⟨[(pid, some e, none)], ?_⟩, rfl, rfl⟩
          exact upsertContact_keys_new db res pid (some e) _

theorem cfpImportSecondary_csettles (pid : Nat) :
    ∀ (s : DB × ImportResult) (sc : ContactFinderNestedSecondary) (e : String),
      cfpSecEmailOf sc = some e →
      contactKeyExists ((cfpImportSecondary pid s sc).1) pid e := by
  intro s sc e hce
  obtain ⟨db, res⟩ := s
  unfold cfpSecEmailOf at hce
  unfold cfpImportSecondary
  simp only [hce]
  exact upsert_lookup_settles db res pid e _ rfl

theorem cfpImportSecondary_cnoop (pid : Nat) :
    ∀ (s : DB × ImportResult) (sc : ContactFinderNestedSecondary),
      (cleanEmail sc.email).isSome = true →
      (∀ e, cfpSecEmailOf sc = some e → contactKeyExists s.1 pid e) →
      contactKeys ((cfpImportSecondary pid s sc).1) = contactKeys s.1 ∧
      ((cfpImportSecondary pid s sc).1).prospects = s.1.prospects ∧
      ((cfpImportSecondary pid s sc).1).scores = s.1.scores ∧
      ((cfpImportSecondary pid s sc).2).contacts_created = s.2.contacts_created := by
  intro s sc hu hset
  obtain ⟨db, res⟩ := s
  obtain ⟨e, hce⟩ := Option.isSome_iff_exists.mp hu
  unfold cfpImportSecondary
  simp only [hce]
  refine upsert_lookup_noop db res pid e _ ?_ (hset e (by unfold cfpSecEmailOf; exact hce))
  rfl

theorem flatImportContact_cgrow (pid : Nat) (pcn : Option String) :
    ∀ (s : DB × ImportResult) (c : ContactFinderFlatContact),
      cGrow s.1 ((flatImportContact pid pcn s c).1) := by
  intro s c
  obtain ⟨db, res⟩ := s
  unfold flatImportContact
  by_cases hskip : flatSkip c
  · simp only [hskip, if_true]
    exact cGrow_refl db
  · simp only [hskip, Bool.false_eq_true, if_false]
    cases hce : cleanEmail c.email with
    | none =>
        simp only [hce]
        refine ⟨⟨[(pid, none, none)], ?_⟩, rfl, rfl⟩
        exact upsertContact_keys_new db res pid none _
    | some e =>
        simp only [hce]
        cases hf : findContactByEmail db pid (some e) with
        | some c0 =>
            refine ⟨⟨[], ?_⟩, rfl, rfl⟩
            rw [List.append_nil]
            exact upsertContact_keys_found db res pid (some e) c0 _ hf rfl
        | none =>
            refine ⟨⟨[(pid, some e, none)], ?_⟩, rfl, rfl⟩
            exact upsertContact_keys_new db res pid (some e) _

theorem flatImportContact_csettles (pid : Nat) (pcn : Option String) :
    ∀ (s : DB × ImportResult) (c : ContactFinderFlatContact) (e : String),
      flatEmailOf c = some e →
      contactKeyExists ((flatImportContact pid pcn s c).1) pid e := by
  intro s c e he
  obtain ⟨db, res⟩ := s
  unfold flatEmailOf at he
  by_cases hskip : flatSkip c
  · rw [if_pos hskip] at he
    cases he
  · rw [if_neg hskip] at he
    unfold flatImportContact
    simp only [hskip, Bool.false_eq_true, if_false, he]
    refine upsert_lookup_settles db res pid e _ ?_
    rfl

theorem flatImportContact_cnoop (pid : Nat) (pcn : Option String) :
    ∀ (s : DB × ImportResult) (c : ContactFinderFlatContact),
      flatUsable c = true →
      (∀ e, flatEmailOf c = some e → contactKeyExists s.1 pid e) →
      contactKeys ((flatImportContact pid pcn s c).1) = contactKeys s.1 ∧
      ((flatImportContact pid pcn s c).1).prospects = s.1.prospects ∧
      ((flatImportContact pid pcn s c).1).scores = s.1.scores ∧
      ((flatImportContact pid pcn s c).2).contacts_created = s.2.contacts_created := by
  intro s c hu hset
  obtain ⟨db, res⟩ := s
  by_cases hskip : flatSkip c
  · unfold flatImportContact
    simp only [hskip, if_true]
    exact ⟨by trivial, by trivial, by trivial, by trivial⟩
  · have hus : (cleanEmail c.email).isSome = true := by
      unfold flatUsable at hu
      rw [Bool.or_eq_true] at hu
      rcases hu with h1 | h2
      · exact absurd h1 hskip
      · exact h2
    obtain ⟨e, hce⟩ := Option.isSome_iff_exists.mp hus
    have hex : contactKeyExists db pid e := hset e (by
      unfold flatEmailOf
      rw [if_neg hskip]
      exact hce)
    unfold flatImportContact
    simp only [hskip, Bool.false_eq_true, if_false, hce]
    refine upsert_lookup_noop db res pid e _ ?_ hex
    rfl

/-! ## The contact-finder prospect updates never touch the resolution key -/

theorem enrichUpdateProspect_pKey (p : Prospect) (e : EnrichedProspect) :
    pKey (enrichUpdateProspect p e) = pKey p := by
  unfold pKey enrichUpdateProspect
  dsimp only
  split_ifs <;> rfl

theorem directUpdateProspect_pKey (p : Prospect) (r : ContactFinderProspect) :
    pKey (directUpdateProspect p r) = pKey p := by
  unfold pKey directUpdateProspect
  dsimp only
  split_ifs <;> rfl

theorem cfpUpdateProspect_pKey (p : Prospect) (r : ContactFinderProspectVariant) :
    pKey (cfpUpdateProspect p r) = pKey p := by
  unfold pKey cfpUpdateProspect
  dsimp only
  cases r.outreach_recommendations <;> split_ifs <;> rfl

theorem flatUpdateProspect_pKey (p : Prospect) (r : ContactFinderFlatProspect) :
    pKey (flatUpdateProspect p r) = pKey p := by
  unfold pKey flatUpdateProspect
  dsimp only
  split_ifs <;> rfl

theorem pKey_id {p q : Prospect} (h : pKey p = pKey q) : p.id = q.id := by
  unfold pKey at h
  exact congrArg (fun k => k.2.1) h

theorem updateProspectFuzzy_keys {db : DB} {n : String} {p' e : Prospect}
    (hf : findProspectFuzzy db n = some e) (hk : pKey p' = pKey e) :
    prospectKeys (updateProspectFuzzy db n p') = prospectKeys db := by
  unfold prospectKeys updateProspectFuzzy
  exact map_replaceFirstBy pKey _ p' db.prospects e hf hk

theorem addActivity_keys (db : DB) (pid : Nat) (descr : String) :
    contactKeys (addActivity db pid descr) = contactKeys db ∧
    (addActivity db pid descr).prospects = db.prospects ∧
    (addActivity db pid descr).scores = db.scores :=
  ⟨rfl, rfl, rfl⟩

/-! ## After-prospect contact-phase behavior: enrichment variant -/

theorem enrichAfterProspect_cgrow (db : DB) (res : ImportResult) (pid : Nat)
    (e : EnrichedProspect) : cGrow db (enrichAfterProspect db res pid e).1 := by
  unfold enrichAfterProspect
  rcases hfold : e.contacts.foldl (enrichImportContact pid (enrichPrimaryName e))
    (db, { res with imported_ids := res.imported_ids ++ [pid] }) with ⟨db2, res2⟩
  have h := cfold_grow (enrichImportContact pid (enrichPrimaryName e))
    (enrichImportContact_cgrow pid (enrichPrimaryName e)) e.contacts
    (db, { res with imported_ids := res.imported_ids ++ [pid] })
  rw [hfold] at h
  simp only [hfold]
  exact h

theorem enrichAfterProspect_csettles (db : DB) (res : ImportResult) (pid : Nat)
    (e : EnrichedProspect) :
    ∀ em ∈ enrichEmails e, contactKeyExists (enrichAfterProspect db res pid e).1 pid em := by
  intro em hem
  obtain ⟨c, hc, hce⟩ := List.mem_filterMap.mp hem
  unfold enrichAfterProspect
  rcases hfold : e.contacts.foldl (enrichImportContact pid (enrichPrimaryName e))
    (db, { res with imported_ids := res.imported_ids ++ [pid] }) with ⟨db2, res2⟩
  have h := cfold_settles (enrichImportContact pid (enrichPrimaryName e)) pid enrichEmailOf
    (enrichImportContact_cgrow pid (enrichPrimaryName e))
    (enrichImportContact_csettles pid (enrichPrimaryName e)) e.contacts
    (db, { res with imported_ids := res.imported_ids ++ [pid] }) c hc em hce
  rw [hfold] at h
  simp only [hfold]
  exact h

theorem enrichAfterProspect_cnoop (db : DB) (res : ImportResult) (pid : Nat)
    (e : EnrichedProspect) (hu : allUsableEnrich e = true)
    (hset : ∀ em ∈ enrichEmails e, contactKeyExists db pid em) :
    contactKeys (enrichAfterProspect db res pid e).1 = contactKeys db ∧
    (enrichAfterProspect db res pid e).1.prospects = db.prospects ∧
    (enrichAfterProspect db res pid e).1.scores = db.scores ∧
    (enrichAfterProspect db res pid e).2.contacts_created = res.contacts_created := by
  unfold enrichAfterProspect
  rcases hfold : e.contacts.foldl (enrichImportContact pid (enrichPrimaryName e))
    (db, { res with imported_ids := res.imported_ids ++ [pid] }) with ⟨db2, res2⟩
  have hall : ∀ c ∈ e.contacts, enrichUsable c = true ∧
      ∀ em, enrichEmailOf c = some em → contactKeyExists db pid em := by
    intro c hc
    unfold allUsableEnrich at hu
    refine ⟨by rw [List.all_eq_true] at hu; exact hu c hc, ?_⟩
    intro em hce
    exact hset em (List.mem_filterMap.mpr ⟨c, hc, hce⟩)
  have h := cfold_noop (enrichImportContact pid (enrichPrimaryName e)) pid
    enrichEmailOf enrichUsable
    (enrichImportContact_cnoop pid (enrichPrimaryName e)) e.contacts
    (db, { res with imported_ids := res.imported_ids ++ [pid] }) hall
  rw [hfold] at h
  simp only [hfold]
  exact h

/-! ## After-prospect contact-phase behavior: flat variant -/

theorem flatAfterProspect_cgrow (db : DB) (res : ImportResult) (pid : Nat)
    (r : ContactFinderFlatProspect) : cGrow db (flatAfterProspect db res pid r).1 := by
  unfold flatAfterProspect
  rcases hfold : r.contacts.foldl (flatImportContact pid (flatPrimaryName r))
    (db, { res with imported_ids := res.imported_ids ++ [pid] }) with ⟨db2, res2⟩
  have h := cfold_grow (flatImportContact pid (flatPrimaryName r))
    (flatImportContact_cgrow pid (flatPrimaryName r)) r.contacts
    (db, { res with imported_ids := res.imported_ids ++ [pid] })
  rw [hfold] at h
  simp only [hfold]
  exact h

theorem flatAfterProspect_csettles (db : DB) (res : ImportResult) (pid : Nat)
    (r : ContactFinderFlatProspect) :
    ∀ em ∈ flatEmails r, contactKeyExists (flatAfterProspect db res pid r).1 pid em := by
  intro em hem
  obtain ⟨c, hc, hce⟩ := List.mem_filterMap.mp hem
  unfold flatAfterProspect
  rcases hfold : r.contacts.foldl (flatImportContact pid (flatPrimaryName r))
    (db, { res with imported_ids := res.imported_ids ++ [pid] }) with ⟨db2, res2⟩
  have h := cfold_settles (flatImportContact pid (flatPrimaryName r)) pid flatEmailOf
    (flatImportContact_cgrow pid (flatPrimaryName r))
    (flatImportContact_csettles pid (flatPrimaryName r)) r.contacts
    (db, { res with imported_ids := res.imported_ids ++ [pid] }) c hc em hce
  rw [hfold] at h
  simp only [hfold]
  exact h

theorem flatAfterProspect_cnoop (db : DB) (res : ImportResult) (pid : Nat)
    (r : ContactFinderFlatProspect) (hu : allUsableFlat r = true)
    (hset : ∀ em ∈ flatEmails r, contactKeyExists db pid em) :
    contactKeys (flatAfterProspect db res pid r).1 = contactKeys db ∧
    (flatAfterProspect db res pid r).1.prospects = db.prospects ∧
    (flatAfterProspect db res pid r).1.scores = db.scores ∧
    (flatAfterProspect db res pid r).2.contacts_created = res.contacts_created := by
  unfold flatAfterProspect
  rcases hfold : r.contacts.foldl (flatImportContact pid (flatPrimaryName r))
    (db, { res with imported_ids := res.imported_ids ++ [pid] }) with ⟨db2, res2⟩
  have hall : ∀ c ∈ r.contacts, flatUsable c = true ∧
      ∀ em, flatEmailOf c = some em → contactKeyExists db pid em := by
    intro c hc
    unfold allUsableFlat at hu
    refine ⟨by rw [List.all_eq_true] at hu; exact hu c hc, ?_⟩
    intro em hce
    exact hset em (List.mem_filterMap.mpr ⟨c, hc, hce⟩)
  have h := cfold_noop (flatImportContact pid (flatPrimaryName r)) pid
    flatEmailOf flatUsable
    (flatImportContact_cnoop pid (flatPrimaryName r)) r.contacts
    (db, { res with imported_ids := res.imported_ids ++ [pid] }) hall
  rw [hfold] at h
  simp only [hfold]
  exact h

/-! ## After-prospect contact-phase behavior: direct variant -/

theorem mem_toList_some {o : Option String} {e : String} (h : e ∈ o.toList) :
    o = some e := by
  cases o with
  | none => simp at h
  | some a => simp at h; rw [h]

theorem directAfterProspect_cgrow (db : DB) (res : ImportResult) (pid : Nat)
    (r : ContactFinderProspect) : cGrow db (directAfterProspect db res pid r).1 := by
  unfold directAfterProspect
  have h1 : cGrow db (match r.primary_contact with
      | some pc => directImportPrimary pid
          (db, { res with imported_ids := res.imported_ids ++ [pid] }) pc
      | none => (db, { res with imported_ids := res.imported_ids ++ [pid] })).1 := by
    cases r.primary_contact with
    | none => exact cGrow_refl db
    | some pc =>
        exact directImportPrimary_cgrow pid
          (db, { res with imported_ids := res.imported_ids ++ [pid] }) pc
  rcases hpc : (match r.primary_contact with
    | some pc => directImportPrimary pid
        (db, { res with imported_ids := res.imported_ids ++ [pid] }) pc
    | none => (db, { res with imported_ids := res.imported_ids ++ [pid] }))
    with ⟨db1, res1⟩
  rw [hpc] at h1
  have h2 : cGrow db1 (match r.secondary_contacts with
      | some scs => scs.foldl (directImportSecondary pid) (db1, res1)
      | none => (db1, res1)).1 := by
    cases r.secondary_contacts with
    | none => exact cGrow_refl db1
    | some scs => exact cfold_grow _ (directImportSecondary_cgrow pid) scs (db1, res1)
  rcases hsc : (match r.secondary_contacts with
    | some scs => scs.foldl (directImportSecondary pid) (db1, res1)
    | none => (db1, res1)) with ⟨db2, res2⟩
  rw [hsc] at h2
  simp only [hpc, hsc]
  have h3 : cGrow db2 (addActivity db2 pid "Contacts enriched from contact-finder skill") :=
    ⟨⟨[], (List.append_nil _).symm⟩, rfl, rfl⟩
  exact cGrow_trans (cGrow_trans h1 h2) h3

theorem directAfterProspect_csettles (db : DB) (res : ImportResult) (pid : Nat)
    (r : ContactFinderProspect) :
    ∀ e ∈ directEmails r, contactKeyExists (directAfterProspect db res pid r).1 pid e := by
  intro e he
  unfold directAfterProspect
  rcases hpc : (match r.primary_contact with
    | some pc => directImportPrimary pid
        (db, { res with imported_ids := res.imported_ids ++ [pid] }) pc
    | none => (db, { res with imported_ids := res.imported_ids ++ [pid] }))
    with ⟨db1, res1⟩
  have h2 : cGrow db1 (match r.secondary_contacts with
      | some scs => scs.foldl (directImportSecondary pid) (db1, res1)
      | none => (db1, res1)).1 := by
    cases r.secondary_contacts with
    | none => exact cGrow_refl db1
    | some scs => exact cfold_grow _ (directImportSecondary_cgrow pid) scs (db1, res1)
  rcases hsc : (match r.secondary_contacts with
    | some scs => scs.foldl (directImportSecondary pid) (db1, res1)
    | none => (db1, res1)) with ⟨db2, res2⟩
  rw [hsc] at h2
  simp only [hpc, hsc]
  show contactKeyExists db2 pid e
  unfold directEmails at he
  rcases List.mem_append.mp he with hp | hs
  · cases hopc : r.primary_contact with
    | none =>
        rw [hopc] at hp
        simp at hp
    | some pc =>
        rw [hopc] at hp
        have hce : cleanEmail pc.email = some e := mem_toList_some hp
        simp only [hopc] at hpc
        have hk1 := directImportPrimary_csettles pid
          (db, { res with imported_ids := res.imported_ids ++ [pid] }) pc e hce
        rw [hpc] at hk1
        exact contactKeyExists_keygrow h2.1 hk1
  · obtain ⟨sc, hmem, hsce⟩ := List.mem_filterMap.mp hs
    cases hoscs : r.secondary_contacts with
    | none =>
        rw [hoscs] at hmem
        simp at hmem
    | some scs =>
        rw [hoscs] at hmem
        simp only [Option.getD_some] at hmem
        simp only [hoscs] at hsc
        have hk2 := cfold_settles (directImportSecondary pid) pid dirSecEmailOf
          (directImportSecondary_cgrow pid) (directImportSecondary_csettles pid)
          scs (db1, res1) sc hmem e hsce
        rw [hsc] at hk2
        exact hk2

theorem directAfterProspect_cnoop (db : DB) (res : ImportResult) (pid : Nat)
    (r : ContactFinderProspect) (hu : allUsableDirect r = true)
    (hset : ∀ e ∈ directEmails r, contactKeyExists db pid e) :
    contactKeys (directAfterProspect db res pid r).1 = contactKeys db ∧
    (directAfterProspect db res pid r).1.prospects = db.prospects ∧
    (directAfterProspect db res pid r).1.scores = db.scores ∧
    (directAfterProspect db res pid r).2.contacts_created = res.contacts_created := by
  unfold allUsableDirect at hu
  rw [Bool.and_eq_true] at hu
  obtain ⟨hu1, hu2⟩ := hu
  unfold directAfterProspect
  have h1 : contactKeys (match r.primary_contact with
      | some pc => directImportPrimary pid
          (db, { res with imported_ids := res.imported_ids ++ [pid] }) pc
      | none => (db, { res with imported_ids := res.imported_ids ++ [pid] })).1
        = contactKeys db ∧
      (match r.primary_contact with
      | some pc => directImportPrimary pid
          (db, { res with imported_ids := res.imported_ids ++ [pid] }) pc
      | none => (db, { res with imported_ids := res.imported_ids ++ [pid] })).1.prospects
        = db.prospects ∧
      (match r.primary_contact with
      | some pc => directImportPrimary pid
          (db, { res with imported_ids := res.imported_ids ++ [pid] }) pc
      | none => (db, { res with imported_ids := res.imported_ids ++ [pid] })).1.scores
        = db.scores ∧
      (match r.primary_contact with
      | some pc => directImportPrimary pid
          (db, { res with imported_ids := res.imported_ids ++ [pid] }) pc
      | none => (db, { res with imported_ids := res.imported_ids ++ [pid] })).2.contacts_created
        = res.contacts_created := by
    cases hopc : r.primary_contact with
    | none => exact ⟨rfl, rfl, rfl, rfl⟩
    | some pc =>
        simp only [hopc] at hu1
        refine directImportPrimary_cnoop pid
          (db, { res with imported_ids := res.imported_ids ++ [pid] }) pc hu1 ?_
        intro e' hce'
        refine hset e' ?_
        unfold directEmails
        refine List.mem_append_left _ ?_
        simp [hopc, hce']
  rcases hpc : (match r.primary_contact with
    | some pc => directImportPrimary pid
        (db, { res with imported_ids := res.imported_ids ++ [pid] }) pc
    | none => (db, { res with imported_ids := res.imported_ids ++ [pid] }))
    with ⟨db1, res1⟩
  rw [hpc] at h1
  have h2 : contactKeys (match r.secondary_contacts with
      | some scs => scs.foldl (directImportSecondary pid) (db1, res1)
      | none => (db1, res1)).1 = contactKeys db1 ∧
      (match r.secondary_contacts with
      | some scs => scs.foldl (directImportSecondary pid) (db1, res1)
      | none => (db1, res1)).1.prospects = db1.prospects ∧
      (match r.secondary_contacts with
      | some scs => scs.foldl (directImportSecondary pid) (db1, res1)
      | none => (db1, res1)).1.scores = db1.scores ∧
      (match r.secondary_contacts with
      | some scs => scs.foldl (directImportSecondary pid) (db1, res1)
      | none => (db1, res1)).2.contacts_created = res1.contacts_created := by
    cases hoscs : r.secondary_contacts with
    | none => exact ⟨rfl, rfl, rfl, rfl⟩
    | some scs =>
        refine cfold_noop (directImportSecondary pid) pid dirSecEmailOf
          (fun sc => (cleanEmail sc.email).isSome)
          (directImportSecondary_cnoop pid) scs (db1, res1) ?_
        intro sc hmem
        rw [hoscs] at hu2
        simp only [Option.getD_some] at hu2
        constructor
        · rw [List.all_eq_true] at hu2
          exact hu2 sc hmem
        · intro e' hsce'
          have hOrig : contactKeyExists db pid e' := by
            refine hset e' ?_
            unfold directEmails
            refine List.mem_append_right _ ?_
            rw [hoscs]
            simp only [Option.getD_some]
            exact List.mem_filterMap.mpr ⟨sc, hmem, hsce'⟩
          exact contactKeyExists_of_keyeq h1.1 hOrig
  rcases hsc : (match r.secondary_contacts with
    | some scs => scs.foldl (directImportSecondary pid) (db1, res1)
    | none => (db1, res1)) with ⟨db2, res2⟩
  rw [hsc] at h2
  simp only [hpc, hsc]
  exact ⟨h2.1.trans h1.1, h2.2.1.trans h1.2.1, h2.2.2.1.trans h1.2.2.1,
    h2.2.2.2.trans h1.2.2.2⟩

/-! ## After-prospect contact-phase behavior: nested prospects variant -/

theorem cfpContactsPhase_cgrow (pid : Nat) (s : DB × ImportResult)
    (oc : Option ContactFinderContactsObject) :
    cGrow s.1 ((match oc with
      | some cobj =>
          let s1 :=
            match cobj.primary_decision_maker with
            | some pdm => cfpImportPDM pid s pdm
            | none => s
          if truthyL cobj.secondary_contacts then
            (cobj.secondary_contacts.getD []).foldl (cfpImportSecondary pid) s1
          else s1
      | none => s).1) := by
  cases oc with
  | none => exact cGrow_refl s.1
  | some cobj =>
      have h1 : cGrow s.1 ((match cobj.primary_decision_maker with
          | some pdm => cfpImportPDM pid s pdm
          | none => s).1) := by
        cases cobj.primary_decision_maker with
        | none => exact cGrow_refl s.1
        | some pdm => exact cfpImportPDM_cgrow pid s pdm
      rcases h1s : (match cobj.primary_decision_maker with
        | some pdm => cfpImportPDM pid s pdm
        | none => s) with ⟨db1, res1⟩
      rw [h1s] at h1
      by_cases hsec : truthyL cobj.secondary_contacts
      · simp only [h1s, hsec, if_true]
        exact cGrow_trans h1 (cfold_grow _ (cfpImportSecondary_cgrow pid)
          (cobj.secondary_contacts.getD []) (db1, res1))
      · simp only [h1s, hsec, Bool.false_eq_true, if_false]
        exact h1

theorem cfpContactsPhase_csettles (pid : Nat) (s : DB × ImportResult)
    (oc : Option ContactFinderContactsObject) :
    ∀ e ∈ cfpObjEmails oc,
      contactKeyExists ((match oc with
        | some cobj =>
            let s1 :=
              match cobj.primary_decision_maker with
              | some pdm => cfpImportPDM pid s pdm
              | none => s
            if truthyL cobj.secondary_contacts then
              (cobj.secondary_contacts.getD []).foldl (cfpImportSecondary pid) s1
            else s1
        | none => s).1) pid e := by
  intro e he
  cases oc with
  | none => simp only [cfpObjEmails] at he; simp at he
  | some cobj =>
      simp only [cfpObjEmails] at he
      rcases h1s : (match cobj.primary_decision_maker with
        | some pdm => cfpImportPDM pid s pdm
        | none => s) with ⟨db1, res1⟩
      by_cases hsec : truthyL cobj.secondary_contacts
      · simp only [h1s, hsec, if_true]
        rcases List.mem_append.mp he with hp | hs
        · cases hpdm : cobj.primary_decision_maker with
          | none => rw [hpdm] at hp; simp at hp
          | some pdm =>
              rw [hpdm] at hp
              have hce := mem_toList_some hp
              simp only [hpdm] at h1s
              have hk1 := cfpImportPDM_csettles pid s pdm e hce
              rw [h1s] at hk1
              exact contactKeyExists_keygrow
                (cfold_grow _ (cfpImportSecondary_cgrow pid)
                  (cobj.secondary_contacts.getD []) (db1, res1)).1 hk1
        · rw [if_pos hsec] at hs
          obtain ⟨sc, hmem, hsce⟩ := List.mem_filterMap.mp hs
          exact cfold_settles (cfpImportSecondary pid) pid cfpSecEmailOf
            (cfpImportSecondary_cgrow pid) (cfpImportSecondary_csettles pid)
            (cobj.secondary_contacts.getD []) (db1, res1) sc hmem e hsce
      · simp only [h1s, hsec, Bool.false_eq_true, if_false]
        rcases List.mem_append.mp he with hp | hs
        · cases hpdm : cobj.primary_decision_maker with
          | none => rw [hpdm] at hp; simp at hp
          | some pdm =>
              rw [hpdm] at hp
              have hce := mem_toList_some hp
              simp only [hpdm] at h1s
              have hk1 := cfpImportPDM_csettles pid s pdm e hce
              rw [h1s] at hk1
              exact hk1
        · rw [if_neg hsec] at hs
          simp at hs

theorem cfpContactsPhase_cnoop (pid : Nat) (s : DB × ImportResult)
    (oc : Option ContactFinderContactsObject) (hu : cfpObjUsable oc = true)
    (hset : ∀ e ∈ cfpObjEmails oc, contactKeyExists s.1 pid e) :
    contactKeys ((match oc with
      | some cobj =>
          let s1 :=
            match cobj.primary_decision_maker with
            | some pdm => cfpImportPDM pid s pdm
            | none => s
          if truthyL cobj.secondary_contacts then
            (cobj.secondary_contacts.getD []).foldl (cfpImportSecondary pid) s1
          else s1
      | none => s).1) = contactKeys s.1 ∧
    ((match oc with
      | some cobj =>
          let s1 :=
            match cobj.primary_decision_maker with
            | some pdm => cfpImportPDM pid s pdm
            | none => s
          if truthyL cobj.secondary_contacts then
            (cobj.secondary_contacts.getD []).foldl (cfpImportSecondary pid) s1
          else s1
      | none => s).1).prospects = s.1.prospects ∧
    ((match oc with
      | some cobj =>
          let s1 :=
            match cobj.primary_decision_maker with
            | some pdm => cfpImportPDM pid s pdm
            | none => s
          if truthyL cobj.secondary_contacts then
            (cobj.secondary_contacts.getD []).foldl (cfpImportSecondary pid) s1
          else s1
      | none => s).1).scores = s.1.scores ∧
    ((match oc with
      | some cobj =>
          let s1 :=
            match cobj.primary_decision_maker with
            | some pdm => cfpImportPDM pid s pdm
            | none => s
          if truthyL cobj.secondary_contacts then
            (cobj.secondary_contacts.getD []).foldl (cfpImportSecondary pid) s1
          else s1
      | none => s).2).contacts_created = s.2.contacts_created := by
  cases oc with
  | none => exact ⟨rfl, rfl, rfl, rfl⟩
  | some cobj =>
      simp only [cfpObjUsable] at hu
      rw [Bool.and_eq_true] at hu
      obtain ⟨hu1, hu2⟩ := hu
      have h1 : contactKeys ((match cobj.primary_decision_maker with
          | some pdm => cfpImportPDM pid s pdm
          | none => s).1) = contactKeys s.1 ∧
          ((match cobj.primary_decision_maker with
          | some pdm => cfpImportPDM pid s pdm
          | none => s).1).prospects = s.1.prospects ∧
          ((match cobj.primary_decision_maker with
          | some pdm => cfpImportPDM pid s pdm
          | none => s).1).scores = s.1.scores ∧
          ((match cobj.primary_decision_maker with
          | some pdm => cfpImportPDM pid s pdm
          | none => s).2).contacts_created = s.2.contacts_created := by
        cases hpdm : cobj.primary_decision_maker with
        | none => exact ⟨rfl, rfl, rfl, rfl⟩
        | some pdm =>
            simp only [hpdm] at hu1
            refine cfpImportPDM_cnoop pid s pdm hu1 ?_
            intro e' hce'
            refine hset e' ?_
            simp only [cfpObjEmails]
            refine List.mem_append_left _ ?_
            simp [hpdm, hce']
      rcases h1s : (match cobj.primary_decision_maker with
        | some pdm => cfpImportPDM pid s pdm
        | none => s) with ⟨db1, res1⟩
      rw [h1s] at h1
      by_cases hsec : truthyL cobj.secondary_contacts
      · simp only [h1s, hsec, if_true]
        have hall : ∀ sc ∈ cobj.secondary_contacts.getD [],
            (cleanEmail sc.email).isSome = true ∧
            ∀ e', cfpSecEmailOf sc = some e' →
              contactKeyExists (db1, res1).1 pid e' := by
          intro sc hmem
          rw [if_pos hsec] at hu2
          constructor
          · rw [List.all_eq_true] at hu2
            exact hu2 sc hmem
          · intro e' hsce'
            have hOrig : contactKeyExists s.1 pid e' := hset e' (by
              simp only [cfpObjEmails]
              refine List.mem_append_right _ ?_
              rw [if_pos hsec]
              exact List.mem_filterMap.mpr ⟨sc, hmem, hsce'⟩)
            exact contactKeyExists_of_keyeq h1.1 hOrig
        have h2 := cfold_noop (cfpImportSecondary pid) pid cfpSecEmailOf
          (fun sc => (cleanEmail sc.email).isSome) (cfpImportSecondary_cnoop pid)
          (cobj.secondary_contacts.getD []) (db1, res1) hall
        exact ⟨h2.1.trans h1.1, h2.2.1.trans h1.2.1, h2.2.2.1.trans h1.2.2.1,
          h2.2.2.2.trans h1.2.2.2⟩
      · simp only [h1s, hsec, Bool.false_eq_true, if_false]
        exact h1

theorem cfpAfterProspect_cgrow (db : DB) (res : ImportResult) (pid : Nat)
    (r : ContactFinderProspectVariant) : cGrow db (cfpAfterProspect db res pid r).1 := by
  unfold cfpAfterProspect
  have h := cfpContactsPhase_cgrow pid
    (db, { res with imported_ids := res.imported_ids ++ [pid] }) r.contacts
  rcases hc : (match r.contacts with
    | some cobj =>
        let s1 :=
          match cobj.primary_decision_maker with
          | some pdm => cfpImportPDM pid
              (db, { res with imported_ids := res.imported_ids ++ [pid] }) pdm
          | none => (db, { res with imported_ids := res.imported_ids ++ [pid] })
        if truthyL cobj.secondary_contacts then
          (cobj.secondary_contacts.getD []).foldl (cfpImportSecondary pid) s1
        else s1
    | none => (db, { res with imported_ids := res.imported_ids ++ [pid] }))
    with ⟨db2, res2⟩
  rw [hc] at h
  simp only [hc]
  exact cGrow_trans h ⟨⟨[], (List.append_nil _).symm⟩, rfl, rfl⟩

theorem cfpAfterProspect_csettles (db : DB) (res : ImportResult) (pid : Nat)
    (r : ContactFinderProspectVariant) :
    ∀ e ∈ cfpEmails r, contactKeyExists (cfpAfterProspect db res pid r).1 pid e := by
  intro e he
  unfold cfpAfterProspect
  have h := cfpContactsPhase_csettles pid
    (db, { res with imported_ids := res.imported_ids ++ [pid] }) r.contacts e he
  rcases hc : (match r.contacts with
    | some cobj =>
        let s1 :=
          match cobj.primary_decision_maker with
          | some pdm => cfpImportPDM pid
              (db, { res with imported_ids := res.imported_ids ++ [pid] }) pdm
          | none => (db, { res with imported_ids := res.imported_ids ++ [pid] })
        if truthyL cobj.secondary_contacts then
          (cobj.secondary_contacts.getD []).foldl (cfpImportSecondary pid) s1
        else s1
    | none => (db, { res with imported_ids := res.imported_ids ++ [pid] }))
    with ⟨db2, res2⟩
  rw [hc] at h
  simp only [hc]
  exact h

theorem cfpAfterProspect_cnoop (db : DB) (res : ImportResult) (pid : Nat)
    (r : ContactFinderProspectVariant) (hu : allUsableCFP r = true)
    (hset : ∀ e ∈ cfpEmails r, contactKeyExists db pid e) :
    contactKeys (cfpAfterProspect db res pid r).1 = contactKeys db ∧
    (cfpAfterProspect db res pid r).1.prospects = db.prospects ∧
    (cfpAfterProspect db res pid r).1.scores = db.scores ∧
    (cfpAfterProspect db res pid r).2.contacts_created = res.contacts_created := by
  unfold cfpAfterProspect
  have h := cfpContactsPhase_cnoop pid
    (db, { res with imported_ids := res.imported_ids ++ [pid] }) r.contacts hu hset
  rcases hc : (match r.contacts with
    | some cobj =>
        let s1 :=
          match cobj.primary_decision_maker with
          | some pdm => cfpImportPDM pid
              (db, { res with imported_ids := res.imported_ids ++ [pid] }) pdm
          | none => (db, { res with imported_ids := res.imported_ids ++ [pid] })
        if truthyL cobj.secondary_contacts then
          (cobj.secondary_contacts.getD []).foldl (cfpImportSecondary pid) s1
        else s1
    | none => (db, { res with imported_ids := res.imported_ids ++ [pid] }))
    with ⟨db2, res2⟩
  rw [hc] at h
  simp only [hc]
  exact h

/-! ## Step lemmas: nested prospects variant -/

theorem cfpStep_grow (db : DB) (res : ImportResult) (r : ContactFinderProspectVariant) :
    keyGrow db (cfpStep (db, res) r).1 := by
  unfold cfpStep
  cases hf : findProspectByName db r.institution with
  | some p =>
      simp only [hf]
      have hkeys := updateProspect_keys hf (cfpUpdateProspect_pKey p r)
      have hAP := cfpAfterProspect_cgrow
        (updateProspectByName db r.institution (cfpUpdateProspect p r))
        { res with prospects_updated := res.prospects_updated + 1 }
        (cfpUpdateProspect p r).id r
      obtain ⟨⟨cx, hcx⟩, hpp, hss⟩ := hAP
      refine ⟨⟨[], ?_⟩, ⟨cx, hcx⟩, hss⟩
      rw [List.append_nil]
      unfold prospectKeys at hkeys ⊢
      rw [hpp]
      exact hkeys
  | none =>
      simp only [hf]
      have hAP := cfpAfterProspect_cgrow
        { db with prospects := db.prospects ++ [cfpNewProspect db.nextId r],
                  nextId := db.nextId + 1 }
        { res with prospects_created := res.prospects_created + 1 }
        (cfpNewProspect db.nextId r).id r
      obtain ⟨⟨cx, hcx⟩, hpp, hss⟩ := hAP
      refine ⟨⟨[pKey (cfpNewProspect db.nextId r)], ?_⟩, ⟨cx, hcx⟩, hss⟩
      unfold prospectKeys
      rw [hpp]
      simp

theorem cfpStep_settles (db : DB) (res : ImportResult) (r : ContactFinderProspectVariant) :
    settledCFP (cfpStep (db, res) r).1 r := by
  unfold cfpStep
  cases hf : findProspectByName db r.institution with
  | some p =>
      simp only [hf]
      have hkeys := updateProspect_keys hf (cfpUpdateProspect_pKey p r)
      have hid : (cfpUpdateProspect p r).id = p.id := pKey_id (cfpUpdateProspect_pKey p r)
      have hAP := cfpAfterProspect_csettles
        (updateProspectByName db r.institution (cfpUpdateProspect p r))
        { res with prospects_updated := res.prospects_updated + 1 }
        (cfpUpdateProspect p r).id r
      have hpp := (cfpAfterProspect_cgrow
        (updateProspectByName db r.institution (cfpUpdateProspect p r))
        { res with prospects_updated := res.prospects_updated + 1 }
        (cfpUpdateProspect p r).id r).2.1
      refine ⟨p.id, ?_, ?_⟩
      · have h1 : resolvesTo db r.institution p.id := resolvesTo_of_find hf
        apply resolvesTo_of_eq hpp
        unfold resolvesTo at h1 ⊢
        rw [hkeys]
        exact h1
      · intro e he
        rw [← hid]
        exact hAP e he
  | none =>
      simp only [hf]
      have hAP := cfpAfterProspect_csettles
        { db with prospects := db.prospects ++ [cfpNewProspect db.nextId r],
                  nextId := db.nextId + 1 }
        { res with prospects_created := res.prospects_created + 1 }
        (cfpNewProspect db.nextId r).id r
      have hpp := (cfpAfterProspect_cgrow
        { db with prospects := db.prospects ++ [cfpNewProspect db.nextId r],
                  nextId := db.nextId + 1 }
        { res with prospects_created := res.prospects_created + 1 }
        (cfpNewProspect db.nextId r).id r).2.1
      refine ⟨(cfpNewProspect db.nextId r).id, ?_, hAP⟩
      apply resolvesTo_of_eq hpp
      refine resolvesTo_append hf ?_ ?_ ?_ <;> rfl

theorem cfpStep_noop (db : DB) (res : ImportResult) (r : ContactFinderProspectVariant)
    (hs : settledCFP db r) (hu : allUsableCFP r = true) :
    prospectKeys (cfpStep (db, res) r).1 = prospectKeys db ∧
    contactKeys (cfpStep (db, res) r).1 = contactKeys db ∧
    (cfpStep (db, res) r).1.scores = db.scores ∧
    (cfpStep (db, res) r).2.prospects_created = res.prospects_created ∧
    (cfpStep (db, res) r).2.contacts_created = res.contacts_created := by
  obtain ⟨k, hres, hcont⟩ := hs
  obtain ⟨p, hf, hpk⟩ := findProspect_of_resolves hres
  subst hpk
  unfold cfpStep
  simp only [hf]
  have hkeys := updateProspect_keys hf (cfpUpdateProspect_pKey p r)
  have hid : (cfpUpdateProspect p r).id = p.id := pKey_id (cfpUpdateProspect_pKey p r)
  have hset : ∀ e ∈ cfpEmails r, contactKeyExists
      (updateProspectByName db r.institution (cfpUpdateProspect p r))
      (cfpUpdateProspect p r).id e := by
    intro e he
    rw [hid]
    exact contactKeyExists_of_eq rfl (hcont e he)
  have hAP := cfpAfterProspect_cnoop
    (updateProspectByName db r.institution (cfpUpdateProspect p r))
    { res with prospects_updated := res.prospects_updated + 1 }
    (cfpUpdateProspect p r).id r hu hset
  obtain ⟨hck, hpp, hss, hcc⟩ := hAP
  have hpcr := (cfpAfterProspect_pframe
    (updateProspectByName db r.institution (cfpUpdateProspect p r))
    { res with prospects_updated := res.prospects_updated + 1 }
    (cfpUpdateProspect p r).id r).2.1
  refine ⟨?_, hck, hss, ?_, ?_⟩
  · unfold prospectKeys at hkeys ⊢
    rw [hpp]
    exact hkeys
  · rw [hpcr]
  · rw [hcc]

/-! ## Step lemmas: flat variant -/

theorem flatStep_grow (db : DB) (res : ImportResult) (r : ContactFinderFlatProspect) :
    keyGrow db (flatStep (db, res) r).1 := by
  unfold flatStep
  cases hf : findProspectByName db r.institution with
  | some p =>
      simp only [hf]
      have hkeys := updateProspect_keys hf (flatUpdateProspect_pKey p r)
      have hAP := flatAfterProspect_cgrow
        (updateProspectByName db r.institution (flatUpdateProspect p r))
        { res with prospects_updated := res.prospects_updated + 1 }
        (flatUpdateProspect p r).id r
      obtain ⟨⟨cx, hcx⟩, hpp, hss⟩ := hAP
      refine ⟨⟨[], ?_⟩, ⟨cx, hcx⟩, hss⟩
      rw [List.append_nil]
      unfold prospectKeys at hkeys ⊢
      rw [hpp]
      exact hkeys
  | none =>
      simp only [hf]
      have hAP := flatAfterProspect_cgrow
        { db with prospects := db.prospects ++ [flatNewProspect db.nextId r],
                  nextId := db.nextId + 1 }
        { res with prospects_created := res.prospects_created + 1 }
        (flatNewProspect db.nextId r).id r
      obtain ⟨⟨cx, hcx⟩, hpp, hss⟩ := hAP
      refine ⟨⟨[pKey (flatNewProspect db.nextId r)], ?_⟩, ⟨cx, hcx⟩, hss⟩
      unfold prospectKeys
      rw [hpp]
      simp

theorem flatStep_settles (db : DB) (res : ImportResult) (r : ContactFinderFlatProspect) :
    settledFlat (flatStep (db, res) r).1 r := by
  unfold flatStep
  cases hf : findProspectByName db r.institution with
  | some p =>
      simp only [hf]
      have hkeys := updateProspect_keys hf (flatUpdateProspect_pKey p r)
      have hid : (flatUpdateProspect p r).id = p.id := pKey_id (flatUpdateProspect_pKey p r)
      have hAP := flatAfterProspect_csettles
        (updateProspectByName db r.institution (flatUpdateProspect p r))
        { res with prospects_updated := res.prospects_updated + 1 }
        (flatUpdateProspect p r).id r
      have hpp := (flatAfterProspect_cgrow
        (updateProspectByName db r.institution (flatUpdateProspect p r))
        { res with prospects_updated := res.prospects_updated + 1 }
        (flatUpdateProspect p r).id r).2.1
      refine ⟨p.id, ?_, ?_⟩
      · have h1 : resolvesTo db r.institution p.id := resolvesTo_of_find hf
        apply resolvesTo_of_eq hpp
        unfold resolvesTo at h1 ⊢
        rw [hkeys]
        exact h1
      · intro e he
        rw [← hid]
        exact hAP e he
  | none =>
      simp only [hf]
      have hAP := flatAfterProspect_csettles
        { db with prospects := db.prospects ++ [flatNewProspect db.nextId r],
                  nextId := db.nextId + 1 }
        { res with prospects_created := res.prospects_created + 1 }
        (flatNewProspect db.nextId r).id r
      have hpp := (flatAfterProspect_cgrow
        { db with prospects := db.prospects ++ [flatNewProspect db.nextId r],
                  nextId := db.nextId + 1 }
        { res with prospects_created := res.prospects_created + 1 }
        (flatNewProspect db.nextId r).id r).2.1
      refine ⟨(flatNewProspect db.nextId r).id, ?_, hAP⟩
      apply resolvesTo_of_eq hpp
      refine resolvesTo_append hf ?_ ?_ ?_ <;> rfl

theorem flatStep_noop (db : DB) (res : ImportResult) (r : ContactFinderFlatProspect)
    (hs : settledFlat db r) (hu : allUsableFlat r = true) :
    prospectKeys (flatStep (db, res) r).1 = prospectKeys db ∧
    contactKeys (flatStep (db, res) r).1 = contactKeys db ∧
    (flatStep (db, res) r).1.scores = db.scores ∧
    (flatStep (db, res) r).2.prospects_created = res.prospects_created ∧
    (flatStep (db, res) r).2.contacts_created = res.contacts_created := by
  obtain ⟨k, hres, hcont⟩ := hs
  obtain ⟨p, hf, hpk⟩ := findProspect_of_resolves hres
  subst hpk
  unfold flatStep
  simp only [hf]
  have hkeys := updateProspect_keys hf (flatUpdateProspect_pKey p r)
  have hid : (flatUpdateProspect p r).id = p.id := pKey_id (flatUpdateProspect_pKey p r)
  have hset : ∀ e ∈ flatEmails r, contactKeyExists
      (updateProspectByName db r.institution (flatUpdateProspect p r))
      (flatUpdateProspect p r).id e := by
    intro e he
    rw [hid]
    exact contactKeyExists_of_eq rfl (hcont e he)
  have hAP := flatAfterProspect_cnoop
    (updateProspectByName db r.institution (flatUpdateProspect p r))
    { res with prospects_updated := res.prospects_updated + 1 }
    (flatUpdateProspect p r).id r hu hset
  obtain ⟨hck, hpp, hss, hcc⟩ := hAP
  have hpcr := (flatAfterProspect_pframe
    (updateProspectByName db r.institution (flatUpdateProspect p r))
    { res with prospects_updated := res.prospects_updated + 1 }
    (flatUpdateProspect p r).id r).2.1
  refine ⟨?_, hck, hss, ?_, ?_⟩
  · unfold prospectKeys at hkeys ⊢
    rw [hpp]
    exact hkeys
  · rw [hpcr]
  · rw [hcc]

/-! ## Step lemmas: enrichment variant -/

theorem enrichStep_grow (db : DB) (res : ImportResult) (e : EnrichedProspect) :
    enrichGrow db (enrichStep (db, res) e).1 := by
  unfold enrichStep
  cases hf : findProspectByName db e.institution with
  | some p =>
      simp only [hf]
      have hkeys := updateProspect_keys hf (enrichUpdateProspect_pKey p e)
      have hAP := enrichAfterProspect_cgrow
        (updateProspectByName db e.institution (enrichUpdateProspect p e))
        res (enrichUpdateProspect p e).id e
      obtain ⟨⟨cx, hcx⟩, hpp, hss⟩ := hAP
      refine ⟨?_, ⟨cx, hcx⟩, hss⟩
      unfold prospectKeys at hkeys ⊢
      rw [hpp]
      exact hkeys
  | none =>
      simp only [hf]
      cases hg : findProspectFuzzy db e.institution with
      | some p =>
          simp only [hg]
          have hkeys := updateProspectFuzzy_keys hg (enrichUpdateProspect_pKey p e)
          have hAP := enrichAfterProspect_cgrow
            (updateProspectFuzzy db e.institution (enrichUpdateProspect p e))
            res (enrichUpdateProspect p e).id e
          obtain ⟨⟨cx, hcx⟩, hpp, hss⟩ := hAP
          refine ⟨?_, ⟨cx, hcx⟩, hss⟩
          unfold prospectKeys at hkeys ⊢
          rw [hpp]
          exact hkeys
      | none =>
          simp only [hg]
          exact enrichGrow_refl db

theorem enrichStep_settles (db : DB) (res : ImportResult) (e : EnrichedProspect) :
    settledEnrich (enrichStep (db, res) e).1 e := by
  unfold enrichStep
  cases hf : findProspectByName db e.institution with
  | some p =>
      simp only [hf]
      have hkeys := updateProspect_keys hf (enrichUpdateProspect_pKey p e)
      have hid : (enrichUpdateProspect p e).id = p.id :=
        pKey_id (enrichUpdateProspect_pKey p e)
      have hAP := enrichAfterProspect_csettles
        (updateProspectByName db e.institution (enrichUpdateProspect p e))
        res (enrichUpdateProspect p e).id e
      have hpp := (enrichAfterProspect_cgrow
        (updateProspectByName db e.institution (enrichUpdateProspect p e))
        res (enrichUpdateProspect p e).id e).2.1
      have hkeq : prospectKeys (enrichAfterProspect
          (updateProspectByName db e.institution (enrichUpdateProspect p e))
          res (enrichUpdateProspect p e).id e).1 = prospectKeys db := by
        unfold prospectKeys at hkeys ⊢
        rw [hpp]
        exact hkeys
      refine Or.inr ⟨p.id, Or.inl ?_, ?_⟩
      · rw [hkeq]
        exact resolvesTo_of_find hf
      · intro em hem
        rw [← hid]
        exact hAP em hem
  | none =>
      simp only [hf]
      cases hg : findProspectFuzzy db e.institution with
      | some p =>
          simp only [hg]
          have hkeys := updateProspectFuzzy_keys hg (enrichUpdateProspect_pKey p e)
          have hid : (enrichUpdateProspect p e).id = p.id :=
            pKey_id (enrichUpdateProspect_pKey p e)
          have hAP := enrichAfterProspect_csettles
            (updateProspectFuzzy db e.institution (enrichUpdateProspect p e))
            res (enrichUpdateProspect p e).id e
          have hpp := (enrichAfterProspect_cgrow
            (updateProspectFuzzy db e.institution (enrichUpdateProspect p e))
            res (enrichUpdateProspect p e).id e).2.1
          have hkeq : prospectKeys (enrichAfterProspect
              (updateProspectFuzzy db e.institution (enrichUpdateProspect p e))
              res (enrichUpdateProspect p e).id e).1 = prospectKeys db := by
            unfold prospectKeys at hkeys ⊢
            rw [hpp]
            exact hkeys
          refine Or.inr ⟨p.id, Or.inr ⟨?_, ?_⟩, ?_⟩
          · rw [hkeq]
            exact (exactMiss_iff db e.institution).mpr hf
          · rw [hkeq]
            exact fuzzyTo_of_find hg
          · intro em hem
            rw [← hid]
            exact hAP em hem
      | none =>
          simp only [hg]
          exact Or.inl ⟨(exactMiss_iff db e.institution).mpr hf,
            (fuzzyMiss_iff db e.institution).mpr hg⟩

theorem enrichStep_noop (db : DB) (res : ImportResult) (e : EnrichedProspect)
    (hs : settledEnrich db e) (hu : allUsableEnrich e = true) :
    prospectKeys (enrichStep (db, res) e).1 = prospectKeys db ∧
    contactKeys (enrichStep (db, res) e).1 = contactKeys db ∧
    (enrichStep (db, res) e).1.scores = db.scores ∧
    (enrichStep (db, res) e).2.prospects_created = res.prospects_created ∧
    (enrichStep (db, res) e).2.contacts_created = res.contacts_created := by
  unfold enrichStep
  cases hf : findProspectByName db e.institution with
  | some p =>
      simp only [hf]
      have hcont : ∀ em ∈ enrichEmails e, contactKeyExists db p.id em := by
        rcases hs with ⟨hm1, hm2⟩ | ⟨k, hres, hc⟩
        · have hnone := (exactMiss_iff db e.institution).mp hm1
          rw [hf] at hnone
          cases hnone
        · rcases hres with hx | ⟨hm, hfz⟩
          · obtain ⟨q, hq, hqid⟩ := findProspect_of_resolves hx
            rw [hf] at hq
            injection hq with hqe
            subst hqe
            rw [← hqid] at hc
            exact hc
          · have hnone := (exactMiss_iff db e.institution).mp hm
            rw [hf] at hnone
            cases hnone
      have hkeys := updateProspect_keys hf (enrichUpdateProspect_pKey p e)
      have hid : (enrichUpdateProspect p e).id = p.id :=
        pKey_id (enrichUpdateProspect_pKey p e)
      have hset : ∀ em ∈ enrichEmails e, contactKeyExists
          (updateProspectByName db e.institution (enrichUpdateProspect p e))
          (enrichUpdateProspect p e).id em := by
        intro em hem
        rw [hid]
        exact contactKeyExists_of_eq rfl (hcont em hem)
      have hAP := enrichAfterProspect_cnoop
        (updateProspectByName db e.institution (enrichUpdateProspect p e))
        res (enrichUpdateProspect p e).id e hu hset
      obtain ⟨hck, hpp, hss, hcc⟩ := hAP
      have hpcr := (enrichAfterProspect_pframe
        (updateProspectByName db e.institution (enrichUpdateProspect p e))
        res (enrichUpdateProspect p e).id e).2.1
      refine ⟨?_, hck, hss, ?_, ?_⟩
      · unfold prospectKeys at hkeys ⊢
        rw [hpp]
        exact hkeys
      · rw [hpcr]
      · rw [hcc]
  | none =>
      simp only [hf]
      cases hg : findProspectFuzzy db e.institution with
      | some p =>
          simp only [hg]
          have hcont : ∀ em ∈ enrichEmails e, contactKeyExists db p.id em := by
            rcases hs with ⟨hm1, hm2⟩ | ⟨k, hres, hc⟩
            · have hnone := (fuzzyMiss_iff db e.institution).mp hm2
              rw [hg] at hnone
              cases hnone
            · rcases hres with hx | ⟨hm, hfz⟩
              · obtain ⟨q, hq, hqid⟩ := findProspect_of_resolves hx
                rw [hf] at hq
                cases hq
              · obtain ⟨q, hq, hqid⟩ := findFuzzy_of_key hfz
                rw [hg] at hq
                injection hq with hqe
                subst hqe
                rw [← hqid] at hc
                exact hc
          have hkeys := updateProspectFuzzy_keys hg (enrichUpdateProspect_pKey p e)
          have hid : (enrichUpdateProspect p e).id = p.id :=
            pKey_id (enrichUpdateProspect_pKey p e)
          have hset : ∀ em ∈ enrichEmails e, contactKeyExists
              (updateProspectFuzzy db e.institution (enrichUpdateProspect p e))
              (enrichUpdateProspect p e).id em := by
            intro em hem
            rw [hid]
            exact contactKeyExists_of_eq rfl (hcont em hem)
          have hAP := enrichAfterProspect_cnoop
            (updateProspectFuzzy db e.institution (enrichUpdateProspect p e))
            res (enrichUpdateProspect p e).id e hu hset
          obtain ⟨hck, hpp, hss, hcc⟩ := hAP
          have hpcr := (enrichAfterProspect_pframe
            (updateProspectFuzzy db e.institution (enrichUpdateProspect p e))
            res (enrichUpdateProspect p e).id e).2.1
          refine ⟨?_, hck, hss, ?_, ?_⟩
          · unfold prospectKeys at hkeys ⊢
            rw [hpp]
            exact hkeys
          · rw [hpcr]
          · rw [hcc]
      | none =>
          simp only [hg]
          exact ⟨by trivial, by trivial, by trivial, by trivial, by trivial⟩

/-! ## Step lemmas: direct variant -/

theorem directStep_grow (db : DB) (res : ImportResult) (r : ContactFinderProspect) :
    directGrow db (directStep (db, res) r).1 := by
  unfold directStep
  cases hf : findProspectByName db r.institution with
  | some p =>
      simp only [hf]
      have hkeys := updateProspect_keys hf (directUpdateProspect_pKey p r)
      have hAP := directAfterProspect_cgrow
        (updateProspectByName db r.institution (directUpdateProspect p r))
        { res with prospects_updated := res.prospects_updated + 1 }
        (directUpdateProspect p r).id r
      obtain ⟨⟨cx, hcx⟩, hpp, hss⟩ := hAP
      have hkeq : prospectKeys (directAfterProspect
          (updateProspectByName db r.institution (directUpdateProspect p r))
          { res with prospects_updated := res.prospects_updated + 1 }
          (directUpdateProspect p r).id r).1 = prospectKeys db := by
        unfold prospectKeys at hkeys ⊢
        rw [hpp]
        exact hkeys
      refine ⟨?_, ?_, ?_, ⟨cx, hcx⟩, hss⟩
      · intro n k h
        rw [hkeq]
        exact h
      · intro n k h
        rw [hkeq]
        exact h
      · intro n k hm _
        rw [hkeq]
        exact hm
  | none =>
      simp only [hf]
      cases hg : findProspectFuzzy db r.institution with
      | some p =>
          simp only [hg]
          have hkeys := updateProspectFuzzy_keys hg (directUpdateProspect_pKey p r)
          have hAP := directAfterProspect_cgrow
            (updateProspectFuzzy db r.institution (directUpdateProspect p r))
            { res with prospects_updated := res.prospects_updated + 1 }
            (directUpdateProspect p r).id r
          obtain ⟨⟨cx, hcx⟩, hpp, hss⟩ := hAP
          have hkeq : prospectKeys (directAfterProspect
              (updateProspectFuzzy db r.institution (directUpdateProspect p r))
              { res with prospects_updated := res.prospects_updated + 1 }
              (directUpdateProspect p r).id r).1 = prospectKeys db := by
            unfold prospectKeys at hkeys ⊢
            rw [hpp]
            exact hkeys
          refine ⟨?_, ?_, ?_, ⟨cx, hcx⟩, hss⟩
          · intro n k h
            rw [hkeq]
            exact h
          · intro n k h
            rw [hkeq]
            exact h
          · intro n k hm _
            rw [hkeq]
            exact hm
      | none =>
          simp only [hg]
          have hAP := directAfterProspect_cgrow
            { db with prospects := db.prospects ++ [directNewProspect db.nextId r],
                      nextId := db.nextId + 1 }
            { res with prospects_created := res.prospects_created + 1 }
            (directNewProspect db.nextId r).id r
          obtain ⟨⟨cx, hcx⟩, hpp, hss⟩ := hAP
          have hkeq : prospectKeys (directAfterProspect
              { db with prospects := db.prospects ++ [directNewProspect db.nextId r],
                        nextId := db.nextId + 1 }
              { res with prospects_created := res.prospects_created + 1 }
              (directNewProspect db.nextId r).id r).1
              = prospectKeys db ++ [pKey (directNewProspect db.nextId r)] := by
            unfold prospectKeys
            rw [hpp]
            simp
          have hfz0 : findFuzzyKey (prospectKeys db) r.institution = none :=
            (fuzzyMiss_iff db r.institution).mpr hg
          refine ⟨?_, ?_, ?_, ⟨cx, hcx⟩, hss⟩
          · intro n k h
            rw [hkeq]
            exact findKeyByName_append_some h _
          · intro n k h
            rw [hkeq]
            exact findFuzzyKey_append_some h _
          · intro n k hm hfz
            rw [hkeq]
            have hne : (r.institution == n) = false := by
              rw [beq_eq_false_iff_ne]
              intro heq
              rw [← heq] at hfz
              rw [hfz0] at hfz
              cases hfz
            unfold findKeyByName at hm ⊢
            cases hfind : (prospectKeys db).find? fun kk => kk.1 == n && kk.2.2 == none with
            | some a =>
                rw [hfind] at hm
                simp at hm
            | none =>
                rw [find?_append_none hfind]
                simp [List.find?, pKey, directNewProspect, hne]

theorem directStep_settles (db : DB) (res : ImportResult) (r : ContactFinderProspect) :
    settledDirect (directStep (db, res) r).1 r := by
  unfold directStep
  cases hf : findProspectByName db r.institution with
  | some p =>
      simp only [hf]
      have hkeys := updateProspect_keys hf (directUpdateProspect_pKey p r)
      have hid : (directUpdateProspect p r).id = p.id :=
        pKey_id (directUpdateProspect_pKey p r)
      have hAP := directAfterProspect_csettles
        (updateProspectByName db r.institution (directUpdateProspect p r))
        { res with prospects_updated := res.prospects_updated + 1 }
        (directUpdateProspect p r).id r
      have hpp := (directAfterProspect_cgrow
        (updateProspectByName db r.institution (directUpdateProspect p r))
        { res with prospects_updated := res.prospects_updated + 1 }
        (directUpdateProspect p r).id r).2.1
      have hkeq : prospectKeys (directAfterProspect
          (updateProspectByName db r.institution (directUpdateProspect p r))
          { res with prospects_updated := res.prospects_updated + 1 }
          (directUpdateProspect p r).id r).1 = prospectKeys db := by
        unfold prospectKeys at hkeys ⊢
        rw [hpp]
        exact hkeys
      refine ⟨p.id, Or.inl ?_, ?_⟩
      · rw [hkeq]
        exact resolvesTo_of_find hf
      · intro e he
        rw [← hid]
        exact hAP e he
  | none =>
      simp only [hf]
      cases hg : findProspectFuzzy db r.institution with
      | some p =>
          simp only [hg]
          have hkeys := updateProspectFuzzy_keys hg (directUpdateProspect_pKey p r)
          have hid : (directUpdateProspect p r).id = p.id :=
            pKey_id (directUpdateProspect_pKey p r)
          have hAP := directAfterProspect_csettles
            (updateProspectFuzzy db r.institution (directUpdateProspect p r))
            { res with prospects_updated := res.prospects_updated + 1 }
            (directUpdateProspect p r).id r
          have hpp := (directAfterProspect_cgrow
            (updateProspectFuzzy db r.institution (directUpdateProspect p r))
            { res with prospects_updated := res.prospects_updated + 1 }
            (directUpdateProspect p r).id r).2.1
          have hkeq : prospectKeys (directAfterProspect
              (updateProspectFuzzy db r.institution (directUpdateProspect p r))
              { res with prospects_updated := res.prospects_updated + 1 }
              (directUpdateProspect p r).id r).1 = prospectKeys db := by
            unfold prospectKeys at hkeys ⊢
            rw [hpp]
            exact hkeys
          refine ⟨p.id, Or.inr ⟨?_, ?_⟩, ?_⟩
          · rw [hkeq]
            exact (exactMiss_iff db r.institution).mpr hf
          · rw [hkeq]
            exact fuzzyTo_of_find hg
          · intro e he
            rw [← hid]
            exact hAP e he
      | none =>
          simp only [hg]
          have hAP := directAfterProspect_csettles
            { db with prospects := db.prospects ++ [directNewProspect db.nextId r],
                      nextId := db.nextId + 1 }
            { res with prospects_created := res.prospects_created + 1 }
            (directNewProspect db.nextId r).id r
          have hpp := (directAfterProspect_cgrow
            { db with prospects := db.prospects ++ [directNewProspect db.nextId r],
                      nextId := db.nextId + 1 }
            { res with prospects_created := res.prospects_created + 1 }
            (directNewProspect db.nextId r).id r).2.1
          refine ⟨(directNewProspect db.nextId r).id, Or.inl ?_, hAP⟩
          have hres : resolvesTo (directAfterProspect
              { db with prospects := db.prospects ++ [directNewProspect db.nextId r],
                        nextId := db.nextId + 1 }
              { res with prospects_created := res.prospects_created + 1 }
              (directNewProspect db.nextId r).id r).1 r.institution
              (directNewProspect db.nextId r).id := by
            apply resolvesTo_of_eq hpp
            refine resolvesTo_append hf ?_ ?_ ?_ <;> rfl
          exact hres

theorem directStep_noop (db : DB) (res : ImportResult) (r : ContactFinderProspect)
    (hs : settledDirect db r) (hu : allUsableDirect r = true) :
    prospectKeys (directStep (db, res) r).1 = prospectKeys db ∧
    contactKeys (directStep (db, res) r).1 = contactKeys db ∧
    (directStep (db, res) r).1.scores = db.scores ∧
    (directStep (db, res) r).2.prospects_created = res.prospects_created ∧
    (directStep (db, res) r).2.contacts_created = res.contacts_created := by
  obtain ⟨k, hres, hcont⟩ := hs
  rcases hres with hx | ⟨hm, hfz⟩
  · obtain ⟨p, hf, hpk⟩ := findProspect_of_resolves hx
    subst hpk
    unfold directStep
    simp only [hf]
    have hkeys := updateProspect_keys hf (directUpdateProspect_pKey p r)
    have hid : (directUpdateProspect p r).id = p.id :=
      pKey_id (directUpdateProspect_pKey p r)
    have hset : ∀ e ∈ directEmails r, contactKeyExists
        (updateProspectByName db r.institution (directUpdateProspect p r))
        (directUpdateProspect p r).id e := by
      intro e he
      rw [hid]
      exact contactKeyExists_of_eq rfl (hcont e he)
    have hAP := directAfterProspect_cnoop
      (updateProspectByName db r.institution (directUpdateProspect p r))
      { res with prospects_updated := res.prospects_updated + 1 }
      (directUpdateProspect p r).id r hu hset
    obtain ⟨hck, hpp, hss, hcc⟩ := hAP
    have hpcr := (directAfterProspect_pframe
      (updateProspectByName db r.institution (directUpdateProspect p r))
      { res with prospects_updated := res.prospects_updated + 1 }
      (directUpdateProspect p r).id r).2.1
    refine ⟨?_, hck, hss, ?_, ?_⟩
    · unfold prospectKeys at hkeys ⊢
      rw [hpp]
      exact hkeys
    · rw [hpcr]
    · rw [hcc]
  · have hfnone : findProspectByName db r.institution = none :=
      (exactMiss_iff db r.institution).mp hm
    obtain ⟨p, hg, hpk⟩ := findFuzzy_of_key hfz
    subst hpk
    unfold directStep
    simp only [hfnone, hg]
    have hkeys := updateProspectFuzzy_keys hg (directUpdateProspect_pKey p r)
    have hid : (directUpdateProspect p r).id = p.id :=
      pKey_id (directUpdateProspect_pKey p r)
    have hset : ∀ e ∈ directEmails r, contactKeyExists
        (updateProspectFuzzy db r.institution (directUpdateProspect p r))
        (directUpdateProspect p r).id e := by
      intro e he
      rw [hid]
      exact contactKeyExists_of_eq rfl (hcont e he)
    have hAP := directAfterProspect_cnoop
      (updateProspectFuzzy db r.institution (directUpdateProspect p r))
      { res with prospects_updated := res.prospects_updated + 1 }
      (directUpdateProspect p r).id r hu hset
    obtain ⟨hck, hpp, hss, hcc⟩ := hAP
    have hpcr := (directAfterProspect_pframe
      (updateProspectFuzzy db r.institution (directUpdateProspect p r))
      { res with prospects_updated := res.prospects_updated + 1 }
      (directUpdateProspect p r).id r).2.1
    refine ⟨?_, hck, hss, ?_, ?_⟩
    · unfold prospectKeys at hkeys ⊢
      rw [hpp]
      exact hkeys
    · rw [hpcr]
    · rw [hcc]

/-! ## Whole-run lemmas for the contact-finder importers -/

theorem prospects_length_of_keys {s t : DB} (h : prospectKeys t = prospectKeys s) :
    t.prospects.length = s.prospects.length := by
  have h2 := congrArg List.length h
  unfold prospectKeys at h2
  simpa using h2

theorem contacts_length_of_keys {s t : DB} (h : contactKeys t = contactKeys s) :
    t.contacts.length = s.contacts.length := by
  have h2 := congrArg List.length h
  unfold contactKeys at h2
  simpa using h2

theorem cfpFold_grow :
    ∀ (doc : List ContactFinderProspectVariant) (s : DB × ImportResult),
      keyGrow s.1 ((doc.foldl cfpStep s).1) := by
  intro doc
  induction doc with
  | nil => intro s; exact keyGrow_refl s.1
  | cons r t ih =>
      intro s
      rw [List.foldl_cons]
      obtain ⟨db, res⟩ := s
      exact keyGrow_trans (cfpStep_grow db res r) (ih (cfpStep (db, res) r))

theorem cfpFold_settles :
    ∀ (doc : List ContactFinderProspectVariant) (s : DB × ImportResult),
      ∀ r0 ∈ doc, settledCFP ((doc.foldl cfpStep s).1) r0 := by
  intro doc
  induction doc with
  | nil => intro s r0 h; simp at h
  | cons r t ih =>
      intro s r0 h0
      rw [List.foldl_cons]
      rcases List.mem_cons.mp h0 with rfl | ht
      · obtain ⟨db, res⟩ := s
        exact settledCFP_mono (cfpFold_grow t (cfpStep (db, res) r0))
          (cfpStep_settles db res r0)
      · exact ih (cfpStep s r) r0 ht

theorem cfpFold_noop :
    ∀ (doc : List ContactFinderProspectVariant) (s : DB × ImportResult),
      (∀ r ∈ doc, settledCFP s.1 r ∧ allUsableCFP r = true) →
      prospectKeys ((doc.foldl cfpStep s).1) = prospectKeys s.1 ∧
      contactKeys ((doc.foldl cfpStep s).1) = contactKeys s.1 ∧
      ((doc.foldl cfpStep s).1).scores = s.1.scores ∧
      ((doc.foldl cfpStep s).2).prospects_created = s.2.prospects_created ∧
      ((doc.foldl cfpStep s).2).contacts_created = s.2.contacts_created := by
  intro doc
  induction doc with
  | nil => intro s _; exact ⟨rfl, rfl, rfl, rfl, rfl⟩
  | cons r t ih =>
      intro s hall
      rw [List.foldl_cons]
      obtain ⟨db, res⟩ := s
      obtain ⟨hs0, hu0⟩ := hall r (by simp)
      have hstep := cfpStep_noop db res r hs0 hu0
      have hrest := ih (cfpStep (db, res) r) (fun q hq =>
        ⟨settledCFP_of_eq hstep.1 hstep.2.1 (hall q (List.mem_cons_of_mem _ hq)).1,
         (hall q (List.mem_cons_of_mem _ hq)).2⟩)
      exact ⟨hrest.1.trans hstep.1, hrest.2.1.trans hstep.2.1,
        hrest.2.2.1.trans hstep.2.2.1, hrest.2.2.2.1.trans hstep.2.2.2.1,
        hrest.2.2.2.2.trans hstep.2.2.2.2⟩

theorem flatFold_grow :
    ∀ (doc : List ContactFinderFlatProspect) (s : DB × ImportResult),
      keyGrow s.1 ((doc.foldl flatStep s).1) := by
  intro doc
  induction doc with
  | nil => intro s; exact keyGrow_refl s.1
  | cons r t ih =>
      intro s
      rw [List.foldl_cons]
      obtain ⟨db, res⟩ := s
      exact keyGrow_trans (flatStep_grow db res r) (ih (flatStep (db, res) r))

theorem flatFold_settles :
    ∀ (doc : List ContactFinderFlatProspect) (s : DB × ImportResult),
      ∀ r0 ∈ doc, settledFlat ((doc.foldl flatStep s).1) r0 := by
  intro doc
  induction doc with
  | nil => intro s r0 h; simp at h
  | cons r t ih =>
      intro s r0 h0
      rw [List.foldl_cons]
      rcases List.mem_cons.mp h0 with rfl | ht
      · obtain ⟨db, res⟩ := s
        exact settledFlat_mono (flatFold_grow t (flatStep (db, res) r0))
          (flatStep_settles db res r0)
      · exact ih (flatStep s r) r0 ht

theorem flatFold_noop :
    ∀ (doc : List ContactFinderFlatProspect) (s : DB × ImportResult),
      (∀ r ∈ doc, settledFlat s.1 r ∧ allUsableFlat r = true) →
      prospectKeys ((doc.foldl flatStep s).1) = prospectKeys s.1 ∧
      contactKeys ((doc.foldl flatStep s).1) = contactKeys s.1 ∧
      ((doc.foldl flatStep s).1).scores = s.1.scores ∧
      ((doc.foldl flatStep s).2).prospects_created = s.2.prospects_created ∧
      ((doc.foldl flatStep s).2).contacts_created = s.2.contacts_created := by
  intro doc
  induction doc with
  | nil => intro s _; exact ⟨rfl, rfl, rfl, rfl, rfl⟩
  | cons r t ih =>
      intro s hall
      rw [List.foldl_cons]
      obtain ⟨db, res⟩ := s
      obtain ⟨hs0, hu0⟩ := hall r (by simp)
      have hstep := flatStep_noop db res r hs0 hu0
      have hrest := ih (flatStep (db, res) r) (fun q hq =>
        ⟨settledFlat_of_eq hstep.1 hstep.2.1 (hall q (List.mem_cons_of_mem _ hq)).1,
         (hall q (List.mem_cons_of_mem _ hq)).2⟩)
      exact ⟨hrest.1.trans hstep.1, hrest.2.1.trans hstep.2.1,
        hrest.2.2.1.trans hstep.2.2.1, hrest.2.2.2.1.trans hstep.2.2.2.1,
        hrest.2.2.2.2.trans hstep.2.2.2.2⟩

theorem enrichFold_grow :
    ∀ (doc : List EnrichedProspect) (s : DB × ImportResult),
      enrichGrow s.1 ((doc.foldl enrichStep s).1) := by
  intro doc
  induction doc with
  | nil => intro s; exact enrichGrow_refl s.1
  | cons r t ih =>
      intro s
      rw [List.foldl_cons]
      obtain ⟨db, res⟩ := s
      exact enrichGrow_trans (enrichStep_grow db res r) (ih (enrichStep (db, res) r))

theorem enrichFold_settles :
    ∀ (doc : List EnrichedProspect) (s : DB × ImportResult),
      ∀ r0 ∈ doc, settledEnrich ((doc.foldl enrichStep s).1) r0 := by
  intro doc
  induction doc with
  | nil => intro s r0 h; simp at h
  | cons r t ih =>
      intro s r0 h0
      rw [List.foldl_cons]
      rcases List.mem_cons.mp h0 with rfl | ht
      · obtain ⟨db, res⟩ := s
        exact settledEnrich_mono (enrichFold_grow t (enrichStep (db, res) r0))
          (enrichStep_settles db res r0)
      · exact ih (enrichStep s r) r0 ht

theorem enrichFold_noop :
    ∀ (doc : List EnrichedProspect) (s : DB × ImportResult),
      (∀ r ∈ doc, settledEnrich s.1 r ∧ allUsableEnrich r = true) →
      prospectKeys ((doc.foldl enrichStep s).1) = prospectKeys s.1 ∧
      contactKeys ((doc.foldl enrichStep s).1) = contactKeys s.1 ∧
      ((doc.foldl enrichStep s).1).scores = s.1.scores ∧
      ((doc.foldl enrichStep s).2).prospects_created = s.2.prospects_created ∧
      ((doc.foldl enrichStep s).2).contacts_created = s.2.contacts_created := by
  intro doc
  induction doc with
  | nil => intro s _; exact ⟨rfl, rfl, rfl, rfl, rfl⟩
  | cons r t ih =>
      intro s hall
      rw [List.foldl_cons]
      obtain ⟨db, res⟩ := s
      obtain ⟨hs0, hu0⟩ := hall r (by simp)
      have hstep := enrichStep_noop db res r hs0 hu0
      have hrest := ih (enrichStep (db, res) r) (fun q hq =>
        ⟨settledEnrich_of_eq hstep.1 hstep.2.1 (hall q (List.mem_cons_of_mem _ hq)).1,
         (hall q (List.mem_cons_of_mem _ hq)).2⟩)
      exact ⟨hrest.1.trans hstep.1, hrest.2.1.trans hstep.2.1,
        hrest.2.2.1.trans hstep.2.2.1, hrest.2.2.2.1.trans hstep.2.2.2.1,
        hrest.2.2.2.2.trans hstep.2.2.2.2⟩

theorem directFold_grow :
    ∀ (doc : List ContactFinderProspect) (s : DB × ImportResult),
      directGrow s.1 ((doc.foldl directStep s).1) := by
  intro doc
  induction doc with
  | nil => intro s; exact directGrow_refl s.1
  | cons r t ih =>
      intro s
      rw [List.foldl_cons]
      obtain ⟨db, res⟩ := s
      exact directGrow_trans (directStep_grow db res r) (ih (directStep (db, res) r))

theorem directFold_settles :
    ∀ (doc : List ContactFinderProspect) (s : DB × ImportResult),
      ∀ r0 ∈ doc, settledDirect ((doc.foldl directStep s).1) r0 := by
  intro doc
  induction doc with
  | nil => intro s r0 h; simp at h
  | cons r t ih =>
      intro s r0 h0
      rw [List.foldl_cons]
      rcases List.mem_cons.mp h0 with rfl | ht
      · obtain ⟨db, res⟩ := s
        exact settledDirect_mono (directFold_grow t (directStep (db, res) r0))
          (directStep_settles db res r0)
      · exact ih (directStep s r) r0 ht

theorem directFold_noop :
    ∀ (doc : List ContactFinderProspect) (s : DB × ImportResult),
      (∀ r ∈ doc, settledDirect s.1 r ∧ allUsableDirect r = true) →
      prospectKeys ((doc.foldl directStep s).1) = prospectKeys s.1 ∧
      contactKeys ((doc.foldl directStep s).1) = contactKeys s.1 ∧
      ((doc.foldl directStep s).1).scores = s.1.scores ∧
      ((doc.foldl directStep s).2).prospects_created = s.2.prospects_created ∧
      ((doc.foldl directStep s).2).contacts_created = s.2.contacts_created := by
  intro doc
  induction doc with
  | nil => intro s _; exact ⟨rfl, rfl, rfl, rfl, rfl⟩
  | cons r t ih =>
      intro s hall
      rw [List.foldl_cons]
      obtain ⟨db, res⟩ := s
      obtain ⟨hs0, hu0⟩ := hall r (by simp)
      have hstep := directStep_noop db res r hs0 hu0
      have hrest := ih (directStep (db, res) r) (fun q hq =>
        ⟨settledDirect_of_eq hstep.1 hstep.2.1 (hall q (List.mem_cons_of_mem _ hq)).1,
         (hall q (List.mem_cons_of_mem _ hq)).2⟩)
      exact ⟨hrest.1.trans hstep.1, hrest.2.1.trans hstep.2.1,
        hrest.2.2.1.trans hstep.2.2.1, hrest.2.2.2.1.trans hstep.2.2.2.1,
        hrest.2.2.2.2.trans hstep.2.2.2.2⟩

theorem direct_reimport_idempotent (db : DB) (doc : List ContactFinderProspect)
    (h : ∀ r ∈ doc, allUsableDirect r = true) :
    (import_contact_finder_direct
        (import_contact_finder_direct db doc).1 doc).2.prospects_created = 0 ∧
    (import_contact_finder_direct
        (import_contact_finder_direct db doc).1 doc).2.contacts_created = 0 ∧
    (import_contact_finder_direct
        (import_contact_finder_direct db doc).1 doc).1.prospects.length =
      (import_contact_finder_direct db doc).1.prospects.length ∧
    (import_contact_finder_direct
        (import_contact_finder_direct db doc).1 doc).1.contacts.length =
      (import_contact_finder_direct db doc).1.contacts.length ∧
    (import_contact_finder_direct
        (import_contact_finder_direct db doc).1 doc).1.scores =
      (import_contact_finder_direct db doc).1.scores := by
  unfold import_contact_finder_direct
  have hsettled := directFold_settles doc
    (db, { success := true, skill_type := "contact-finder" })
  have hno := directFold_noop doc
    ((doc.foldl directStep (db, { success := true, skill_type := "contact-finder" })).1,
      { success := true, skill_type := "contact-finder" })
    (fun r hr => ⟨hsettled r hr, h r hr⟩)
  exact ⟨hno.2.2.2.1, hno.2.2.2.2, prospects_length_of_keys hno.1,
    contacts_length_of_keys hno.2.1, hno.2.2.1⟩

theorem enrich_reimport_idempotent (db : DB) (doc : List EnrichedProspect)
    (h : ∀ r ∈ doc, allUsableEnrich r = true) :
    (import_contact_finder_enrichment
        (import_contact_finder_enrichment db doc).1 doc).2.prospects_created = 0 ∧
    (import_contact_finder_enrichment
        (import_contact_finder_enrichment db doc).1 doc).2.contacts_created = 0 ∧
    (import_contact_finder_enrichment
        (import_contact_finder_enrichment db doc).1 doc).1.prospects.length =
      (import_contact_finder_enrichment db doc).1.prospects.length ∧
    (import_contact_finder_enrichment
        (import_contact_finder_enrichment db doc).1 doc).1.contacts.length =
      (import_contact_finder_enrichment db doc).1.contacts.length ∧
    (import_contact_finder_enrichment
        (import_contact_finder_enrichment db doc).1 doc).1.scores =
      (import_contact_finder_enrichment db doc).1.scores := by
  unfold import_contact_finder_enrichment
  have hsettled := enrichFold_settles doc
    (db, { success := true, skill_type := "contact-finder-enrichment" })
  have hno := enrichFold_noop doc
    ((doc.foldl enrichStep
        (db, { success := true, skill_type := "contact-finder-enrichment" })).1,
      { success := true, skill_type := "contact-finder-enrichment" })
    (fun r hr => ⟨hsettled r hr, h r hr⟩)
  exact ⟨hno.2.2.2.1, hno.2.2.2.2, prospects_length_of_keys hno.1,
    contacts_length_of_keys hno.2.1, hno.2.2.1⟩

theorem cfp_reimport_idempotent (db : DB) (doc : List ContactFinderProspectVariant)
    (h : ∀ r ∈ doc, allUsableCFP r = true) :
    (import_contact_finder_prospects
        (import_contact_finder_prospects db doc).1 doc).2.prospects_created = 0 ∧
    (import_contact_finder_prospects
        (import_contact_finder_prospects db doc).1 doc).2.contacts_created = 0 ∧
    (import_contact_finder_prospects
        (import_contact_finder_prospects db doc).1 doc).1.prospects.length =
      (import_contact_finder_prospects db doc).1.prospects.length ∧
    (import_contact_finder_prospects
        (import_contact_finder_prospects db doc).1 doc).1.contacts.length =
      (import_contact_finder_prospects db doc).1.contacts.length ∧
    (import_contact_finder_prospects
        (import_contact_finder_prospects db doc).1 doc).1.scores =
      (import_contact_finder_prospects db doc).1.scores := by
  unfold import_contact_finder_prospects
  have hsettled := cfpFold_settles doc
    (db, { success := true, skill_type := "contact-finder-prospects" })
  have hno := cfpFold_noop doc
    ((doc.foldl cfpStep
        (db, { success := true, skill_type := "contact-finder-prospects" })).1,
      { success := true, skill_type := "contact-finder-prospects" })
    (fun r hr => ⟨hsettled r hr, h r hr⟩)
  exact ⟨hno.2.2.2.1, hno.2.2.2.2, prospects_length_of_keys hno.1,
    contacts_length_of_keys hno.2.1, hno.2.2.1⟩

theorem flat_reimport_idempotent (db : DB) (doc : List ContactFinderFlatProspect)
    (h : ∀ r ∈ doc, allUsableFlat r = true) :
    (import_contact_finder_flat
        (import_contact_finder_flat db doc).1 doc).2.prospects_created = 0 ∧
    (import_contact_finder_flat
        (import_contact_finder_flat db doc).1 doc).2.contacts_created = 0 ∧
    (import_contact_finder_flat
        (import_contact_finder_flat db doc).1 doc).1.prospects.length =
      (import_contact_finder_flat db doc).1.prospects.length ∧
    (import_contact_finder_flat
        (import_contact_finder_flat db doc).1 doc).1.contacts.length =
      (import_contact_finder_flat db doc).1.contacts.length ∧
    (import_contact_finder_flat
        (import_contact_finder_flat db doc).1 doc).1.scores =
      (import_contact_finder_flat db doc).1.scores := by
  unfold import_contact_finder_flat
  have hsettled := flatFold_settles doc
    (db, { success := true, skill_type := "contact-finder-flat" })
  have hno := flatFold_noop doc
    ((doc.foldl flatStep
        (db, { success := true, skill_type := "contact-finder-flat" })).1,
      { success := true, skill_type := "contact-finder-flat" })
    (fun r hr => ⟨hsettled r hr, h r hr⟩)
  exact ⟨hno.2.2.2.1, hno.2.2.2.2, prospects_length_of_keys hno.1,
    contacts_length_of_keys hno.2.1, hno.2.2.1⟩

/-- C1 corrected: re-importing the same document is creation-idempotent in
every one of the five importer variants, provided every imported contact
carries a usable email (or, in the gated variants, is filtered out): the
second run reports prospects_created = 0 and contacts_created = 0 and
leaves the prospect count, contact count and score table unchanged — in the
athletic-director variant even the contacts table itself, with empty
errors and warnings.  The proviso is needed: contacts without a usable
email are re-created on every run, because the per-prospect dedup key is
the contact email.  And the qualifier that updated counters move only when
incoming non-null fields differ is wrong: every resolved record increments
prospects_updated unconditionally, even when the stored row is bit-for-bit
unchanged. -/
theorem reimport_idempotent_amended :
    (∀ (db : DB) (doc : List ProspectDiscoveryData),
      (∀ r ∈ doc, allUsableAD r = true) →
      (import_athletic_director_prospects
          (import_athletic_director_prospects db doc).1 doc).2.prospects_created = 0 ∧
      (import_athletic_director_prospects
          (import_athletic_director_prospects db doc).1 doc).2.contacts_created = 0 ∧
      (import_athletic_director_prospects
          (import_athletic_director_prospects db doc).1 doc).2.contacts_updated = 0 ∧
      (import_athletic_director_prospects
          (import_athletic_director_prospects db doc).1 doc).1.contacts =
        (import_athletic_director_prospects db doc).1.contacts ∧
      (import_athletic_director_prospects
          (import_athletic_director_prospects db doc).1 doc).1.scores =
        (import_athletic_director_prospects db doc).1.scores ∧
      (import_athletic_director_prospects
          (import_athletic_director_prospects db doc).1 doc).2.errors = [] ∧
      (import_athletic_director_prospects
          (import_athletic_director_prospects db doc).1 doc).2.warnings = []) ∧
    (∀ (db : DB) (doc : List ContactFinderProspect),
      (∀ r ∈ doc, allUsableDirect r = true) →
      (import_contact_finder_direct
          (import_contact_finder_direct db doc).1 doc).2.prospects_created = 0 ∧
      (import_contact_finder_direct
          (import_contact_finder_direct db doc).1 doc).2.contacts_created = 0 ∧
      (import_contact_finder_direct
          (import_contact_finder_direct db doc).1 doc).1.prospects.length =
        (import_contact_finder_direct db doc).1.prospects.length ∧
      (import_contact_finder_direct
          (import_contact_finder_direct db doc).1 doc).1.contacts.length =
        (import_contact_finder_direct db doc).1.contacts.length ∧
      (import_contact_finder_direct
          (import_contact_finder_direct db doc).1 doc).1.scores =
        (import_contact_finder_direct db doc).1.scores) ∧
    (∀ (db : DB) (doc : List EnrichedProspect),
      (∀ r ∈ doc, allUsableEnrich r = true) →
      (import_contact_finder_enrichment
          (import_contact_finder_enrichment db doc).1 doc).2.prospects_created = 0 ∧
      (import_contact_finder_enrichment
          (import_contact_finder_enrichment db doc).1 doc).2.contacts_created = 0 ∧
      (import_contact_finder_enrichment
          (import_contact_finder_enrichment db doc).1 doc).1.prospects.length =
        (import_contact_finder_enrichment db doc).1.prospects.length ∧
      (import_contact_finder_enrichment
          (import_contact_finder_enrichment db doc).1 doc).1.contacts.length =
        (import_contact_finder_enrichment db doc).1.contacts.length ∧
      (import_contact_finder_enrichment
          (import_contact_finder_enrichment db doc).1 doc).1.scores =
        (import_contact_finder_enrichment db doc).1.scores) ∧
    (∀ (db : DB) (doc : List ContactFinderProspectVariant),
      (∀ r ∈ doc, allUsableCFP r = true) →
      (import_contact_finder_prospects
          (import_contact_finder_prospects db doc).1 doc).2.prospects_created = 0 ∧
      (import_contact_finder_prospects
          (import_contact_finder_prospects db doc).1 doc).2.contacts_created = 0 ∧
      (import_contact_finder_prospects
          (import_contact_finder_prospects db doc).1 doc).1.prospects.length =
        (import_contact_finder_prospects db doc).1.prospects.length ∧
      (import_contact_finder_prospects
          (import_contact_finder_prospects db doc).1 doc).1.contacts.length =
        (import_contact_finder_prospects db doc).1.contacts.length ∧
      (import_contact_finder_prospects
          (import_contact_finder_prospects db doc).1 doc).1.scores =
        (import_contact_finder_prospects db doc).1.scores) ∧
    (∀ (db : DB) (doc : List ContactFinderFlatProspect),
      (∀ r ∈ doc, allUsableFlat r = true) →
      (import_contact_finder_flat
          (import_contact_finder_flat db doc).1 doc).2.prospects_created = 0 ∧
      (import_contact_finder_flat
          (import_contact_finder_flat db doc).1 doc).2.contacts_created = 0 ∧
      (import_contact_finder_flat
          (import_contact_finder_flat db doc).1 doc).1.prospects.length =
        (import_contact_finder_flat db doc).1.prospects.length ∧
      (import_contact_finder_flat
          (import_contact_finder_flat db doc).1 doc).1.contacts.length =
        (import_contact_finder_flat db doc).1.contacts.length ∧
      (import_contact_finder_flat
          (import_contact_finder_flat db doc).1 doc).1.scores =
        (import_contact_finder_flat db doc).1.scores) :=
  ⟨ad_reimport_idempotent, direct_reimport_idempotent, enrich_reimport_idempotent,
   cfp_reimport_idempotent, flat_reimport_idempotent⟩

theorem reimport_idempotent_amended_witness :
    ((∀ r ∈ [recEmailDM], allUsableAD r = true) ∧
     (import_athletic_director_prospects
         (import_athletic_director_prospects {} [recEmailDM]).1
         [recEmailDM]).2.prospects_created = 0 ∧
     (import_athletic_director_prospects
         (import_athletic_director_prospects {} [recEmailDM]).1
         [recEmailDM]).2.contacts_created = 0 ∧
     (import_athletic_director_prospects
         (import_athletic_director_prospects {} [recEmailDM]).1
         [recEmailDM]).2.contacts_updated = 0 ∧
     (import_athletic_director_prospects
         (import_athletic_director_prospects {} [recEmailDM]).1
         [recEmailDM]).1.contacts =
       (import_athletic_director_prospects {} [recEmailDM]).1.contacts ∧
     (import_athletic_director_prospects
         (import_athletic_director_prospects {} [recEmailDM]).1
         [recEmailDM]).1.scores =
       (import_athletic_director_prospects {} [recEmailDM]).1.scores ∧
     (import_athletic_director_prospects
         (import_athletic_director_prospects {} [recEmailDM]).1
         [recEmailDM]).2.errors = [] ∧
     (import_athletic_director_prospects
         (import_athletic_director_prospects {} [recEmailDM]).1
         [recEmailDM]).2.warnings = []) ∧
    ((∀ r ∈ [recDirW], allUsableDirect r = true) ∧
     (import_contact_finder_direct
         (import_contact_finder_direct {} [recDirW]).1
         [recDirW]).2.prospects_created = 0 ∧
     (import_contact_finder_direct
         (import_contact_finder_direct {} [recDirW]).1
         [recDirW]).2.contacts_created = 0 ∧
     (import_contact_finder_direct
         (import_contact_finder_direct {} [recDirW]).1
         [recDirW]).1.prospects.length =
       (import_contact_finder_direct {} [recDirW]).1.prospects.length ∧
     (import_contact_finder_direct
         (import_contact_finder_direct {} [recDirW]).1
         [recDirW]).1.contacts.length =
       (import_contact_finder_direct {} [recDirW]).1.contacts.length ∧
     (import_contact_finder_direct
         (import_contact_finder_direct {} [recDirW]).1
         [recDirW]).1.scores =
       (import_contact_finder_direct {} [recDirW]).1.scores) ∧
    ((∀ r ∈ [recEnrichW], allUsableEnrich r = true) ∧
     (import_contact_finder_enrichment
         (import_contact_finder_enrichment { prospects := [prospectZ], nextId := 1 }
             [recEnrichW]).1
         [recEnrichW]).2.prospects_created = 0 ∧
     (import_contact_finder_enrichment
         (import_contact_finder_enrichment { prospects := [prospectZ], nextId := 1 }
             [recEnrichW]).1
         [recEnrichW]).2.contacts_created = 0 ∧
     (import_contact_finder_enrichment
         (import_contact_finder_enrichment { prospects := [prospectZ], nextId := 1 }
             [recEnrichW]).1
         [recEnrichW]).1.prospects.length =
       (import_contact_finder_enrichment { prospects := [prospectZ], nextId := 1 }
           [recEnrichW]).1.prospects.length ∧
     (import_contact_finder_enrichment
         (import_contact_finder_enrichment { prospects := [prospectZ], nextId := 1 }
             [recEnrichW]).1
         [recEnrichW]).1.contacts.length =
       (import_contact_finder_enrichment { prospects := [prospectZ], nextId := 1 }
           [recEnrichW]).1.contacts.length ∧
     (import_contact_finder_enrichment
         (import_contact_finder_enrichment { prospects := [prospectZ], nextId := 1 }
             [recEnrichW]).1
         [recEnrichW]).1.scores =
       (import_contact_finder_enrichment { prospects := [prospectZ], nextId := 1 }
           [recEnrichW]).1.scores) ∧
    ((∀ r ∈ [recCfpW], allUsableCFP r = true) ∧
     (import_contact_finder_prospects
         (import_contact_finder_prospects {} [recCfpW]).1
         [recCfpW]).2.prospects_created = 0 ∧
     (import_contact_finder_prospects
         (import_contact_finder_prospects {} [recCfpW]).1
         [recCfpW]).2.contacts_created = 0 ∧
     (import_contact_finder_prospects
         (import_contact_finder_prospects {} [recCfpW]).1
         [recCfpW]).1.prospects.length =
       (import_contact_finder_prospects {} [recCfpW]).1.prospects.length ∧
     (import_contact_finder_prospects
         (import_contact_finder_prospects {} [recCfpW]).1
         [recCfpW]).1.contacts.length =
       (import_contact_finder_prospects {} [recCfpW]).1.contacts.length ∧
     (import_contact_finder_prospects
         (import_contact_finder_prospects {} [recCfpW]).1
         [recCfpW]).1.scores =
       (import_contact_finder_prospects {} [recCfpW]).1.scores) ∧
    ((∀ r ∈ [recFlatW], allUsableFlat r = true) ∧
     (import_contact_finder_flat
         (import_contact_finder_flat {} [recFlatW]).1
         [recFlatW]).2.prospects_created = 0 ∧
     (import_contact_finder_flat
         (import_contact_finder_flat {} [recFlatW]).1
         [recFlatW]).2.contacts_created = 0 ∧
     (import_contact_finder_flat
         (import_contact_finder_flat {} [recFlatW]).1
         [recFlatW]).1.prospects.length =
       (import_contact_finder_flat {} [recFlatW]).1.prospects.length ∧
     (import_contact_finder_flat
         (import_contact_finder_flat {} [recFlatW]).1
         [recFlatW]).1.contacts.length =
       (import_contact_finder_flat {} [recFlatW]).1.contacts.length ∧
     (import_contact_finder_flat
         (import_contact_finder_flat {} [recFlatW]).1
         [recFlatW]).1.scores =
       (import_contact_finder_flat {} [recFlatW]).1.scores) :=
  ⟨⟨by decide, reimport_idempotent_amended.1 {} [recEmailDM] (by decide)⟩,
   ⟨by decide, reimport_idempotent_amended.2.1 {} [recDirW] (by decide)⟩,
   ⟨by decide, reimport_idempotent_amended.2.2.1
      { prospects := [prospectZ], nextId := 1 } [recEnrichW] (by decide)⟩,
   ⟨by decide, reimport_idempotent_amended.2.2.2.1 {} [recCfpW] (by decide)⟩,
   ⟨by decide, reimport_idempotent_amended.2.2.2.2 {} [recFlatW] (by decide)⟩⟩
